import Mathlib

/-!
# The ATT/GATT request processor of bluetoe (`bluetoe/server.hpp`)

A shallow embedding of `server::l2cap_input` and of the handlers it dispatches to.

* Bytes, handles and sizes are natural numbers; a store into a `std::uint8_t` or a
  `std::uint16_t` variable is written with an explicit `% 256` or `% 65536`.
* The output buffer is a list of bytes whose length is the capacity the caller passes
  in `out_size`; pointers into it (`write_ptr`, `current_`, `end_`, ...) are offsets.
* Behaviour the C++ leaves undefined (a failed `assert`, a read behind the input, a
  write behind the output buffer, `attribute_at` with an index that is not in the
  table) is a `fault`; every function that can run into one returns `Except fault _`.
* The state carries a log of the attribute table look-ups and of the accessor calls,
  so that "no attribute is accessed" is a statement about the result.
-/

namespace bluetoe

/-- The ways in which a call can leave the defined behaviour of the C++ code. -/
inductive fault where
  /-- an `assert` does not hold -/
  | assertion
  /-- an input byte at an index `≥ in_size` is read -/
  | input_index
  /-- a byte outside of the output buffer is written -/
  | output_index
  /-- a call of `attribute_at` with an index that is not in `[0, N)` -/
  | attribute_index
  /-- a loop is still running after `2^16 + 1` rounds -/
  | fuel
  deriving DecidableEq, Repr

/-- Modelled from the spec: `details::attribute_access_result` (declared in a header that is
not part of the sources): the read accessor "returns `success`, `read_truncated`, or an
error code". -/
inductive attribute_access_result where
  | success
  | read_truncated
  | error (code : Nat)
  deriving DecidableEq, Repr

/-- Modelled from the spec: `details::attribute`, "a pair `(uuid16, access_fn)`". The accessor
is given the size of the span it may fill and the handle argument; it yields its result code
and the bytes it wrote at the start of the span (their number is what the C++ leaves in
`read.buffer_size`). -/
structure details_attribute where
  uuid : Nat
  access : Nat → Nat → attribute_access_result × List Nat

/-- Modelled from the spec: `Service::uuid` (declared with `bluetoe::service`, outside of the
sources), the UUID of a service, 16 bit or 128 bit wide. -/
inductive service_uuid where
  | uuid16 (value : Nat)
  | uuid128 (bytes : Fin 16 → Nat)

/-- Embeds `Service::uuid::is_128bit` -/
def service_uuid.is_128bit : service_uuid → Bool
  | .uuid16 _ => false
  | .uuid128 _ => true

/-- Modelled from the spec: the UUID of a service as it is sent, little endian: 2 or 16
bytes. -/
def service_uuid.bytes : service_uuid → List Nat
  | .uuid16 v => [v % 256, v / 256 % 256]
  | .uuid128 b => List.ofFn b

/-- Modelled from the spec: one `bluetoe::service< ... >` of the server (`service.hpp` is not
part of the sources): its UUID and its attributes. -/
structure service where
  uuid : service_uuid
  attributes : List details_attribute

/-- Embeds `Service::number_of_attributes` -/
def service.number_of_attributes (s : service) : Nat := s.attributes.length

/-- An instance of `bluetoe::server< Options... >`: the list of its services. Two parts of
`details` that the handlers use and that are declared outside of the sources are fields:
the value of `gatt_uuids::internal_128bit_uuid` and the predicate `details::uuid_filter`
(applied to the bytes at `input + 5`, the flag `is_128bit`, a handle and an attribute).
`name` is the option `server_name< Name >`: the characters of the name, or `none` for the
default `server_name< nullptr >`. -/
structure server where
  services : List service
  internal_128bit_uuid : Nat
  uuid_filter : List Nat → Bool → Nat → details_attribute → Bool
  name : Option (List Nat) := none

/-- Embeds `server::number_of_attributes = details::sum_up_attributes< services >::value` -/
def server.number_of_attributes (srv : server) : Nat :=
  (srv.services.map service.number_of_attributes).sum

/-- Modelled from the spec: the attribute table that `details::attribute_at_list< services >`
(outside of the sources) indexes: the attributes of all services, in declaration order. -/
def server.attributes (srv : server) : List details_attribute :=
  (srv.services.map service.attributes).flatten

/-- What a handler did with the attribute table. -/
inductive event where
  /-- a call `attribute_at( index )` -/
  | attribute_at (index : Int)
  /-- a call `attr.access( read, handle )` with a span of `buffer_size` bytes -/
  | access (buffer_size : Nat) (handle : Nat)
  deriving DecidableEq, Repr

/-- The state a handler works on: the output buffer, the in/out parameter `out_size` and
the log of the look-ups and accessor calls made so far. -/
structure machine where
  output : List Nat
  out_size : Nat
  log : List event
  deriving DecidableEq, Repr

/-! The codes of `bluetoe/codes.hpp`, which is not part of the sources, with the values the
specification gives them. -/

namespace att_opcodes
def error_response : Nat := 0x01
def find_information_request : Nat := 0x04
def find_information_response : Nat := 0x05
def read_by_type_request : Nat := 0x08
def read_by_type_response : Nat := 0x09
def read_request : Nat := 0x0A
def read_response : Nat := 0x0B
def read_by_group_type_request : Nat := 0x10
def read_by_group_type_response : Nat := 0x11
end att_opcodes

namespace att_error_codes
def invalid_handle : Nat := 0x01
def read_not_permitted : Nat := 0x02
def invalid_pdu : Nat := 0x04
def attribute_not_found : Nat := 0x0A
def unsupported_group_type : Nat := 0x10
end att_error_codes

namespace gatt_uuids
def primary_service : Nat := 0x2800
def characteristic : Nat := 0x2803
end gatt_uuids

namespace att_uuid_format
def short_16bit : Nat := 0x01
def long_128bit : Nat := 0x02
end att_uuid_format

/-- Embeds `details::default_att_mtu_size` -/
def default_att_mtu_size : Nat := 23

/-- Embeds `input[ i ]` -/
def read_byte (input : List Nat) (i : Nat) : Except fault Nat :=
  match input[i]? with
  | some b => .ok b
  | none => .error .input_index

/-- Modelled from the spec: `details::read_handle` (`bits.hpp`): the 16 bit little endian
value at `input[ i ]`, `input[ i + 1 ]`. -/
def read_handle (input : List Nat) (i : Nat) : Except fault Nat := do
  let lo ← read_byte input i
  let hi ← read_byte input (i + 1)
  pure ((lo + hi * 256) % 65536)

/-- Store `bytes` at `output[ pos ]`, `output[ pos + 1 ]`, ... -/
def write_bytes (output : List Nat) (pos : Nat) (bytes : List Nat) : Except fault (List Nat) :=
  if pos + bytes.length ≤ output.length ∨ bytes = [] then
    .ok (output.take pos ++ bytes ++ output.drop (pos + bytes.length))
  else
    .error .output_index

/-- Modelled from the spec: `details::write_handle` (`bits.hpp`) stores a handle little
endian; the C++ returns the pointer behind the two bytes. -/
def write_handle (output : List Nat) (pos : Nat) (handle : Nat) : Except fault (List Nat) :=
  write_bytes output pos [handle % 256, handle / 256 % 256]

/-- Modelled from the spec: `details::write_16bit_uuid` (`bits.hpp`) stores a 16 bit UUID
little endian. -/
def write_16bit_uuid (output : List Nat) (pos : Nat) (uuid : Nat) : Except fault (List Nat) :=
  write_bytes output pos [uuid % 256, uuid / 256 % 256]

/-- Embeds `server::attribute_at( index )`: the index is computed in `int` and converted to
`std::size_t`; a negative value converts to a number above every attribute count. -/
def attribute_at (srv : server) (m : machine) (index : Int) : Except fault (details_attribute × machine) :=
  if 0 ≤ index then
    match srv.attributes[index.toNat]? with
    | some a => .ok (a, { m with log := m.log ++ [event.attribute_at index] })
    | none => .error .attribute_index
  else
    .error .attribute_index

/-- Embeds `attr.access( read, handle )` for `read = attribute_access_arguments::read( output + pos,
output + pos + buffer_size )`: the accessor stores its bytes at `output[ pos ]`; the result
code and `read.buffer_size` are returned. -/
def access (attr : details_attribute) (m : machine) (pos buffer_size handle : Nat) :
    Except fault (attribute_access_result × Nat × machine) := do
  let r := attr.access buffer_size handle
  let output ← write_bytes m.output pos r.2
  pure (r.1, r.2.length,
    { m with output := output, log := m.log ++ [event.access buffer_size handle] })

/-- Embeds `server::error_response( opcode, error_code, handle, output, out_size )`; returns
`false`. -/
def error_response (opcode error_code handle : Nat) (m : machine) : Except fault (Bool × machine) :=
  if m.out_size ≥ 5 then do
    let output ← write_bytes m.output 0
      [att_opcodes.error_response, opcode, handle % 256, handle / 256 % 256, error_code]
    pure (false, { m with output := output, out_size := 5 })
  else
    pure (false, { m with out_size := 0 })

/-- Embeds `server::error_response( opcode, error_code, output, out_size )`, the overload without a
handle. -/
def error_response_0 (opcode error_code : Nat) (m : machine) : Except fault (Bool × machine) :=
  error_response opcode error_code 0 m

/-- Embeds `server::check_size_and_handle_range< A, B >`. `starting_handle` and `ending_handle` are the
reference parameters: the values passed in are returned when they are not assigned. -/
def check_size_and_handle_range (A B : Nat) (srv : server) (input : List Nat) (m : machine)
    (starting_handle ending_handle : Nat) : Except fault (Bool × machine × Nat × Nat) := do
  if input.length ≠ A ∧ input.length ≠ B then
    let (r, m) ← error_response_0 (← read_byte input 0) att_error_codes.invalid_pdu m
    return (r, m, starting_handle, ending_handle)
  let starting_handle ← read_handle input 1
  let ending_handle ← read_handle input 3
  if starting_handle = 0 ∨ starting_handle > ending_handle then
    let (r, m) ← error_response (← read_byte input 0) att_error_codes.invalid_handle starting_handle m
    return (r, m, starting_handle, ending_handle)
  if starting_handle > srv.number_of_attributes then
    let (r, m) ← error_response (← read_byte input 0) att_error_codes.attribute_not_found starting_handle m
    return (r, m, starting_handle, ending_handle)
  return (true, m, starting_handle, ending_handle)

/-- Embeds `server::check_size_and_handle< A, B >` -/
def check_size_and_handle (A B : Nat) (srv : server) (input : List Nat) (m : machine)
    (handle : Nat) : Except fault (Bool × machine × Nat) := do
  if input.length ≠ A ∧ input.length ≠ B then
    let (r, m) ← error_response_0 (← read_byte input 0) att_error_codes.invalid_pdu m
    return (r, m, handle)
  let handle ← read_handle input 1
  if handle = 0 then
    let (r, m) ← error_response (← read_byte input 0) att_error_codes.invalid_handle handle m
    return (r, m, handle)
  if handle > srv.number_of_attributes then
    let (r, m) ← error_response (← read_byte input 0) att_error_codes.attribute_not_found handle m
    return (r, m, handle)
  return (true, m, handle)

/-- The number of rounds after which a handle loop is given up: a 16 bit handle that is
incremented in every round is `0` after at most `2^16` rounds, and the look-up of the
attribute in front of handle `0` is a fault. -/
def loop_fuel : Nat := 65537

/-- Embeds `server::write_128bit_uuid( out, char_declaration )`: the declaration is read into a local
buffer of `3 + 16` bytes, and the bytes `3 .. 18` are copied to `output[ pos ]`. -/
def write_128bit_uuid (m : machine) (pos : Nat) (char_declaration : details_attribute) :
    Except fault machine := do
  if char_declaration.uuid ≠ gatt_uuids.characteristic then
    throw fault.assertion
  let r := char_declaration.access (3 + 16) 1
  let m := { m with log := m.log ++ [event.access (3 + 16) 1] }
  if r.2.length ≠ 3 + 16 then
    throw fault.assertion
  let output ← write_bytes m.output pos ((r.2.drop 3).take 16)
  pure { m with output := output }

/-- The loop of `server::collect_handle_uuid_tuples`; `out` and `out_end` are offsets into the
output buffer, the first argument bounds the number of rounds. -/
def collect_handle_uuid_tuples_loop (srv : server) (end_ : Nat) (only_16_bit : Bool)
    (out_end : Nat) : Nat → Nat → Nat → machine → Except fault (Nat × machine)
  | 0, _, _, _ => .error fault.fuel
  | fuel + 1, start, out, m =>
    let size_per_tuple := if only_16_bit then 2 + 2 else 2 + 16
    if start ≤ end_ ∧ start ≤ srv.number_of_attributes ∧ out_end - out ≥ size_per_tuple then do
      let (attr, m) ← attribute_at srv m ((start : Int) - 1)
      let is_16_bit_uuids := decide (attr.uuid ≠ srv.internal_128bit_uuid)
      if only_16_bit = is_16_bit_uuids then
        let output ← write_handle m.output out start
        let m := { m with output := output }
        if is_16_bit_uuids then
          let output ← write_16bit_uuid m.output (out + 2) attr.uuid
          collect_handle_uuid_tuples_loop srv end_ only_16_bit out_end fuel
            ((start + 1) % 65536) (out + size_per_tuple) { m with output := output }
        else
          let (char_declaration, m) ← attribute_at srv m ((start : Int) - 2)
          let m ← write_128bit_uuid m (out + 2) char_declaration
          collect_handle_uuid_tuples_loop srv end_ only_16_bit out_end fuel
            ((start + 1) % 65536) (out + size_per_tuple) m
      else
        collect_handle_uuid_tuples_loop srv end_ only_16_bit out_end fuel
          ((start + 1) % 65536) out m
    else
      pure (out, m)

/-- Embeds `server::collect_handle_uuid_tuples( start, end, only_16_bit, out, out_end )` -/
def collect_handle_uuid_tuples (srv : server) (start end_ : Nat) (only_16_bit : Bool)
    (out out_end : Nat) (m : machine) : Except fault (Nat × machine) :=
  collect_handle_uuid_tuples_loop srv end_ only_16_bit out_end loop_fuel start out m

/-- Embeds `server::handle_find_information_request` -/
def handle_find_information_request (srv : server) (input : List Nat) (m : machine) :
    Except fault machine := do
  let (ok, m, starting_handle, ending_handle) ← check_size_and_handle_range 5 5 srv input m 0 0
  if !ok then
    return m
  let (attr, m) ← attribute_at srv m ((starting_handle : Int) - 1)
  let only_16_bit_uuids := decide (attr.uuid ≠ srv.internal_128bit_uuid)
  let write_ptr := 0
  let write_end := write_ptr + m.out_size
  let output ← write_bytes m.output write_ptr [att_opcodes.find_information_response]
  let m := { m with output := output }
  let write_ptr := write_ptr + 1
  let (write_ptr, m) ←
    if write_ptr ≠ write_end then do
      let output ← write_bytes m.output write_ptr
        [if only_16_bit_uuids then att_uuid_format.short_16bit else att_uuid_format.long_128bit]
      pure (write_ptr + 1, { m with output := output })
    else
      pure (write_ptr, m)
  let (write_ptr, m) ←
    collect_handle_uuid_tuples srv starting_handle ending_handle only_16_bit_uuids write_ptr write_end m
  pure { m with out_size := write_ptr - 0 }

/-- Embeds `server::handle_read_request` -/
def handle_read_request (srv : server) (input : List Nat) (m : machine) : Except fault machine := do
  let (ok, m, handle) ← check_size_and_handle 3 3 srv input m 0
  if !ok then
    return m
  let (attr, m) ← attribute_at srv m ((handle : Int) - 1)
  let (rc, buffer_size, m) ← access attr m 1 (m.out_size - 1) handle
  if rc = attribute_access_result.success ∨ rc = attribute_access_result.read_truncated then
    let output ← write_bytes m.output 0 [att_opcodes.read_response]
    pure { m with output := output, out_size := 1 + buffer_size }
  else
    let (_, m) ← error_response (← read_byte input 0) att_error_codes.read_not_permitted handle m
    pure m

/-- Embeds `details::collect_attributes`: `begin_`, `current_` and `end_` are offsets into the output
buffer, `size_` is a `std::uint8_t`. -/
structure collect_attributes where
  begin_ : Nat
  current_ : Nat
  end_ : Nat
  size_ : Nat
  first_ : Bool
  deriving DecidableEq, Repr

/-- Embeds `collect_attributes::operator()( handle, attr )` -/
def collect_attributes.call (it : collect_attributes) (m : machine) (handle : Nat)
    (attr : details_attribute) : Except fault (collect_attributes × machine) :=
  let maximum_pdu_size := 253
  let header_size := 2
  if it.end_ - it.current_ ≥ header_size then do
    let max_data_size := min (it.end_ - it.current_) (maximum_pdu_size + header_size) - header_size
    let (rc, buffer_size, m) ← access attr m (it.current_ + header_size) max_data_size handle
    if rc = attribute_access_result.success
        ∨ (rc = attribute_access_result.read_truncated ∧ buffer_size = maximum_pdu_size) then
      if ¬ buffer_size ≤ maximum_pdu_size then
        throw fault.assertion
      let it :=
        if it.first_ then
          { it with size_ := (buffer_size + header_size) % 256, first_ := false }
        else
          it
      if buffer_size + header_size = it.size_ then
        let output ← write_handle m.output it.current_ handle
        pure ({ it with current_ := it.current_ + 2 + buffer_size % 256 }, { m with output := output })
      else
        pure (it, m)
    else
      pure (it, m)
  else
    pure (it, m)

/-- Embeds `collect_attributes::size()`, a `std::uint8_t` -/
def collect_attributes.size (it : collect_attributes) : Nat := (it.current_ - it.begin_) % 256

/-- Embeds `collect_attributes::data_size()`, a `std::uint8_t` -/
def collect_attributes.data_size (it : collect_attributes) : Nat := it.size_

/-- Embeds `collect_attributes::empty()` -/
def collect_attributes.empty (it : collect_attributes) : Bool := it.current_ == it.begin_

/-- The loop of `server::all_attributes` for `Iterator = details::collect_attributes`; the first
argument bounds the number of rounds. -/
def all_attributes_loop (srv : server) (ending_handle : Nat)
    (filter : Nat → details_attribute → Bool) :
    Nat → Nat → collect_attributes → machine → Except fault (collect_attributes × machine)
  | 0, _, _, _ => .error fault.fuel
  | fuel + 1, starting_handle, iter, m =>
    if starting_handle ≤ ending_handle ∧ starting_handle ≤ srv.number_of_attributes then do
      let (attr, m) ← attribute_at srv m ((starting_handle : Int) - 1)
      if filter starting_handle attr then
        let (iter, m) ← iter.call m starting_handle attr
        all_attributes_loop srv ending_handle filter fuel ((starting_handle + 1) % 65536) iter m
      else
        all_attributes_loop srv ending_handle filter fuel ((starting_handle + 1) % 65536) iter m
    else
      pure (iter, m)

/-- Embeds `server::all_attributes( starting_handle, ending_handle, iter, filter )` -/
def all_attributes (srv : server) (starting_handle ending_handle : Nat) (iter : collect_attributes)
    (filter : Nat → details_attribute → Bool) (m : machine) :
    Except fault (collect_attributes × machine) :=
  all_attributes_loop srv ending_handle filter loop_fuel starting_handle iter m

/-- Embeds `server::handle_read_by_type_request` -/
def handle_read_by_type_request (srv : server) (input : List Nat) (m : machine) :
    Except fault machine := do
  let (ok, m, starting_handle, ending_handle) ←
    check_size_and_handle_range (5 + 2) (5 + 16) srv input m 0 0
  if !ok then
    return m
  let iterator : collect_attributes :=
    { begin_ := 2, current_ := 2, end_ := m.out_size, size_ := 0, first_ := true }
  let (iterator, m) ← all_attributes srv starting_handle ending_handle iterator
    (srv.uuid_filter (input.drop 5) (input.length == 5 + 16)) m
  if !iterator.empty then
    let output ← write_bytes m.output 0 [att_opcodes.read_by_type_response]
    let output ← write_bytes output 1 [iterator.data_size]
    pure { m with output := output, out_size := 2 + iterator.size }
  else
    let (_, m) ← error_response (← read_byte input 0) att_error_codes.attribute_not_found
      starting_handle m
    pure m

/-- Modelled from the spec: `Service::read_primary_service_response( output, end, starting_index,
is_128bit_filter )` is defined with `bluetoe::service`, outside of the sources. A service covers
the handles `[base, base + count - 1]`; its tuple is `[start_handle][end_handle][service_uuid]`,
all little endian, the UUID 2 or 16 bytes wide; all tuples of one response have the width
of the first, and a tuple is written only if it fits. The offset behind the tuple is returned,
or `output` when nothing is written. -/
def service.read_primary_service_response (svc : service) (m : machine)
    (output end_ starting_index : Nat) (is_128bit_filter : Bool) : Except fault (Nat × machine) :=
  let attribute_data_size := if is_128bit_filter then 16 + 4 else 2 + 4
  if is_128bit_filter = svc.uuid.is_128bit ∧ end_ - output ≥ attribute_data_size then do
    let ending_index := (starting_index + svc.number_of_attributes + 65535) % 65536
    let out ← write_bytes m.output output
      ([starting_index % 256, starting_index / 256 % 256,
        ending_index % 256, ending_index / 256 % 256] ++ svc.uuid.bytes)
    pure (output + attribute_data_size, { m with output := out })
  else
    pure (output, m)

/-- Embeds `details::collect_primary_services`: `output_` (a reference to `begin` of the caller) and
`end_` are offsets into the output buffer, `index_` is a `std::uint16_t`; the reference
`attribute_data_size_` is bound to `output[ 1 ]`. -/
structure collect_primary_services where
  output_ : Nat
  end_ : Nat
  index_ : Nat
  starting_handle_ : Nat
  ending_handle_ : Nat
  first_ : Bool
  is_128bit_uuid_ : Bool
  deriving DecidableEq, Repr

/-- Embeds `collect_primary_services::each< Service >()` -/
def collect_primary_services.each (c : collect_primary_services) (m : machine) (svc : service) :
    Except fault (collect_primary_services × machine) := do
  let (c, m) ←
    if c.starting_handle_ ≤ c.index_ ∧ c.index_ ≤ c.ending_handle_ then do
      let (c, m) ←
        if c.first_ then do
          let is_128bit := svc.uuid.is_128bit
          let output ← write_bytes m.output 1 [if is_128bit then 16 + 4 else 2 + 4]
          pure ({ c with is_128bit_uuid_ := is_128bit, first_ := false }, { m with output := output })
        else
          pure (c, m)
      let (output_, m) ←
        svc.read_primary_service_response m c.output_ c.end_ c.index_ c.is_128bit_uuid_
      pure ({ c with output_ := output_ }, m)
    else
      pure (c, m)
  pure ({ c with index_ := (c.index_ + svc.number_of_attributes) % 65536 }, m)

/-- Modelled from the spec: `details::for_< services >::each( f )` (declared outside of the
sources) calls `f.each< Service >()` for the services in declaration order. -/
def for_each (c : collect_primary_services) (m : machine) :
    List service → Except fault (collect_primary_services × machine)
  | [] => pure (c, m)
  | svc :: rest => do
    let (c, m) ← c.each m svc
    for_each c m rest

/-- Embeds `server::handle_read_by_group_type_request` -/
def handle_read_by_group_type_request (srv : server) (input : List Nat) (m : machine) :
    Except fault machine := do
  let (ok, m, starting_handle, ending_handle) ←
    check_size_and_handle_range (5 + 2) (5 + 16) srv input m 0 0
  if !ok then
    return m
  let unsupported ←
    if input.length = 5 + 16 then
      pure true
    else do
      let group_type ← read_handle input 5
      pure (decide (group_type ≠ gatt_uuids.primary_service))
  if unsupported then
    let (_, m) ← error_response (← read_byte input 0) att_error_codes.unsupported_group_type
      starting_handle m
    return m
  let begin_ := 0
  let end_ := 0 + m.out_size
  -- begin = details::write_opcode( begin, ... ): the opcode is stored, begin is advanced
  let output ← write_bytes m.output begin_ [att_opcodes.read_by_group_type_response]
  let m := { m with output := output }
  let begin_ := begin_ + 1
  -- ++begin: the gap for the size
  let begin_ := begin_ + 1
  let data_begin := begin_
  -- the reference attribute_data_size_ is *(begin - 1), that is output[ 1 ]
  let (c, m) ← for_each
    { output_ := begin_, end_ := end_, index_ := 1, starting_handle_ := starting_handle,
      ending_handle_ := ending_handle, first_ := true, is_128bit_uuid_ := true } m srv.services
  let begin_ := c.output_
  if begin_ = data_begin then
    let (_, m) ← error_response (← read_byte input 0) att_error_codes.attribute_not_found
      starting_handle m
    pure m
  else
    pure { m with out_size := begin_ - 0 }

/-- Embeds `server::l2cap_input( input, in_size, output, out_size )`: `input` is the request (`in_size`
is its length), `output` the output buffer (`out_size` is its length on entry). The resulting
state holds the buffer and `out_size` as the call leaves them. -/
def l2cap_input (srv : server) (input : List Nat) (output : List Nat) : Except fault machine := do
  let m : machine := { output := output, out_size := output.length, log := [] }
  if ¬ input.length ≠ 0 then
    throw fault.assertion
  if ¬ m.out_size ≥ default_att_mtu_size then
    throw fault.assertion
  let opcode ← read_byte input 0
  if opcode = att_opcodes.find_information_request then
    handle_find_information_request srv input m
  else if opcode = att_opcodes.read_by_type_request then
    handle_read_by_type_request srv input m
  else if opcode = att_opcodes.read_request then
    handle_read_request srv input m
  else if opcode = att_opcodes.read_by_group_type_request then
    handle_read_by_group_type_request srv input m
  else do
    let (_, m) ← error_response_0 (← read_byte input 0) att_error_codes.invalid_pdu m
    pure m

deriving instance DecidableEq for Except

/-! ### Notions the statements are written with -/

/-- The 16 bit little endian value at `input[ i ]`, `input[ i + 1 ]`. -/
def u16le (input : List Nat) (i : Nat) : Nat :=
  input.getD i 0 + 256 * input.getD (i + 1) 0

/-- The Error Response PDU `{0x01, request_opcode, handle_lo, handle_hi, error_code}`. -/
def error_pdu (opcode handle error_code : Nat) : List Nat :=
  [0x01, opcode, handle % 256, handle / 256 % 256, error_code]

/-- Every element is a value of a `std::uint8_t`. -/
def all_bytes (l : List Nat) : Prop := ∀ b ∈ l, b < 256

instance (l : List Nat) : Decidable (all_bytes l) := by
  unfold all_bytes; infer_instance

/-- The accessor of an attribute stays within the span it is given. -/
def details_attribute.respects_span (a : details_attribute) : Prop :=
  ∀ buffer_size handle, (a.access buffer_size handle).2.length ≤ buffer_size

/-! ### Example servers -/

/-- An accessor that reads a constant value: as much of it as the span holds. -/
def read_value (value : List Nat) (buffer_size : Nat) : attribute_access_result × List Nat :=
  if value.length ≤ buffer_size then
    (attribute_access_result.success, value)
  else
    (attribute_access_result.read_truncated, value.take buffer_size)

/-- The UUID `8C8B4094-0DE2-499F-A28A-4EED5BC73CA9`, little endian. -/
def temperature_service_uuid : List Nat :=
  [0xA9, 0x3C, 0xC7, 0x5B, 0xED, 0x4E, 0x8A, 0xA2, 0x9F, 0x49, 0xE2, 0x0D, 0x94, 0x40, 0x8B, 0x8C]

/-- A filter that compares the 16 bit type of a request with the UUID of the attribute. -/
def uuid16_filter (bytes : List Nat) (is_128bit : Bool) (_handle : Nat) (a : details_attribute) : Bool :=
  !is_128bit && a.uuid == u16le bytes 0

/-- The server `small_temperature_service` of the documentation of `bluetoe::server`: one
service with a 128 bit UUID and one characteristic with a 128 bit UUID, that is three
attributes: the service declaration, the characteristic declaration and the value. -/
def small_temperature_service : server :=
  { services := [
      { uuid := service_uuid.uuid128 (fun i => temperature_service_uuid.getD i 0),
        attributes := [
          { uuid := 0x2800, access := fun n _ => read_value temperature_service_uuid n },
          { uuid := 0x2803,
            access := fun n h =>
              read_value ([0x02, (h + 1) % 256, (h + 1) / 256 % 256] ++ temperature_service_uuid) n },
          { uuid := 1, access := fun n _ => read_value [0, 0, 0, 0] n } ] } ],
    internal_128bit_uuid := 1,
    uuid_filter := uuid16_filter }

/-- An output buffer of `n` bytes. -/
def buffer (n : Nat) : List Nat := List.replicate n 0

/-! ### The attribute table as the statements see it -/

/-- The bytes `bytes` stored into `output` at offset `pos`. -/
def splice (output : List Nat) (pos : Nat) (bytes : List Nat) : List Nat :=
  output.take pos ++ bytes ++ output.drop (pos + bytes.length)

/-- The attribute with index `i`, if it is a 128 bit one (`uuid == internal_128bit_uuid`), has
a predecessor, which is a characteristic declaration (`0x2803`) whose read fills the 19 bytes
it is given. -/
def server.declaration_ok (srv : server) (i : Nat) : Bool :=
  match srv.attributes[i]? with
  | none => true
  | some a =>
    if a.uuid = srv.internal_128bit_uuid then
      match (if i = 0 then none else srv.attributes[i - 1]?) with
      | some d => d.uuid == gatt_uuids.characteristic && (d.access 19 1).2.length == 19
      | none => false
    else
      true

/-- The invariant of the data model: every 128 bit attribute directly follows a characteristic
declaration that reads as 19 bytes. -/
def server.data_model_invariant (srv : server) : Prop :=
  ∀ i, i < srv.number_of_attributes → srv.declaration_ok i = true

instance (srv : server) : Decidable srv.data_model_invariant := by
  unfold server.data_model_invariant; infer_instance

/-- The attribute with handle `h` has a 16 bit UUID. -/
def server.is_16_bit (srv : server) (h : Nat) : Bool :=
  match srv.attributes[h - 1]? with
  | some a => decide (a.uuid ≠ srv.internal_128bit_uuid)
  | none => true

/-- The UUID of the attribute with handle `h`, little endian: the two bytes of `uuid`, or, for a
128 bit attribute, the bytes `3 .. 18` of what the attribute in front of it reads as. -/
def server.uuid_bytes (srv : server) (h : Nat) : List Nat :=
  match srv.attributes[h - 1]? with
  | none => []
  | some a =>
    if a.uuid ≠ srv.internal_128bit_uuid then
      [a.uuid % 256, a.uuid / 256 % 256]
    else
      match srv.attributes[h - 2]? with
      | some d => ((d.access 19 1).2.drop 3).take 16
      | none => []

/-- The `(handle, uuid)` tuple of the attribute with handle `h` in a Find Information
response. -/
def server.handle_uuid_tuple (srv : server) (h : Nat) : List Nat :=
  [h % 256, h / 256 % 256] ++ srv.uuid_bytes h

/-- The handles in `[starting, min(ending, N)]`, in increasing order, of the attributes whose
UUID has the asked width. -/
def server.handles_of_width (srv : server) (only_16_bit : Bool) (starting ending : Nat) :
    List Nat :=
  (List.range' starting (min ending srv.number_of_attributes + 1 - starting)).filter
    (fun h => srv.is_16_bit h == only_16_bit)

/-- The size of a `(handle, uuid)` tuple. -/
def tuple_size (only_16_bit : Bool) : Nat := if only_16_bit then 4 else 18

/-- The handles of the tuples of a Find Information response for the range `[starting, ending]`
into a buffer of `capacity` bytes: of the attributes of the width of attribute `starting`, as
many as fit behind the two bytes of the header. -/
def server.find_information_handles (srv : server) (starting ending capacity : Nat) : List Nat :=
  (srv.handles_of_width (srv.is_16_bit starting) starting ending).take
    ((capacity - 2) / tuple_size (srv.is_16_bit starting))

/-- The format byte of a Find Information response. -/
def uuid_format (only_16_bit : Bool) : Nat := if only_16_bit then 0x01 else 0x02

/-- Split `bytes` into at most `n` tuples of `size` bytes, each a handle (16 bit, little endian)
followed by a UUID. -/
def parse_tuples (size : Nat) : Nat → List Nat → List (Nat × List Nat)
  | 0, _ => []
  | n + 1, bytes =>
    if bytes.length < size ∨ size < 2 then
      []
    else
      (u16le bytes 0, (bytes.take size).drop 2) :: parse_tuples size n (bytes.drop size)

/-- What a client reads from a Find Information response `[0x05][format][tuples]`: the list of
the `(handle, uuid)` pairs, the UUIDs 2 bytes wide for format `0x01` and 16 bytes wide for
format `0x02`. -/
def parse_find_information_response : List Nat → List (Nat × List Nat)
  | 0x05 :: format :: tuples =>
    parse_tuples (if format = 0x01 then 4 else 18) tuples.length tuples
  | _ => []

/-- A server with one service (UUID `0x1809`) of three characteristics with 16 bit UUIDs: seven
attributes, all of them 16 bit wide. -/
def three_characteristics_service : server :=
  { services := [
      { uuid := service_uuid.uuid16 0x1809,
        attributes := [
          { uuid := 0x2800, access := fun n _ => read_value [0x09, 0x18] n },
          { uuid := 0x2803, access := fun n _ => read_value [0x02, 0x03, 0x00, 0x1C, 0x2A] n },
          { uuid := 0x2A1C, access := fun n _ => read_value [0x11, 0x22] n },
          { uuid := 0x2803, access := fun n _ => read_value [0x02, 0x05, 0x00, 0x1D, 0x2A] n },
          { uuid := 0x2A1D, access := fun n _ => read_value [0x33] n },
          { uuid := 0x2803, access := fun n _ => read_value [0x02, 0x07, 0x00, 0x1E, 0x2A] n },
          { uuid := 0x2A1E, access := fun n _ => read_value [0x44, 0x55] n } ] } ],
    internal_128bit_uuid := 1,
    uuid_filter := uuid16_filter }

/-! ### Services as the statements see them -/

/-- The services with the handle of their first attribute: `base` for the first service, and
for each following one the handle behind the attributes of its predecessor. A service covers
the handles `[base, base + count - 1]`. -/
def service_bases : Nat → List service → List (Nat × service)
  | _, [] => []
  | base, svc :: rest => (base, svc) :: service_bases (base + svc.number_of_attributes) rest

/-- The tuple `[start_handle][end_handle][service UUID]` of a service that starts at handle
`p.1`. -/
def service_tuple (p : Nat × service) : List Nat :=
  [p.1 % 256, p.1 / 256 % 256,
    (p.1 + p.2.number_of_attributes - 1) % 256, (p.1 + p.2.number_of_attributes - 1) / 256 % 256]
    ++ p.2.uuid.bytes

/-- The size of the tuple of a service in a Read By Group Type response. -/
def attribute_data_size (is_128bit : Bool) : Nat := if is_128bit then 20 else 6

/-- The services whose first handle lies in `[starting, ending]`, in declaration order. -/
def server.services_starting_in (srv : server) (starting ending : Nat) : List (Nat × service) :=
  (service_bases 1 srv.services).filter (fun p => decide (starting ≤ p.1 ∧ p.1 ≤ ending))

/-- The services among `l` whose UUID has the width `is_128bit`. -/
def services_of_width (is_128bit : Bool) (l : List (Nat × service)) : List (Nat × service) :=
  l.filter (fun p => p.2.uuid.is_128bit == is_128bit)

/-- What `l2cap_input` leaves behind is one response PDU that fits: `out_size` is in
`[1, capacity]` and the first byte is a response opcode. -/
def is_response (capacity : Nat) (m : machine) : Prop :=
  1 ≤ m.out_size ∧ m.out_size ≤ capacity ∧ m.output.getD 0 0 ∈ [0x01, 0x05, 0x09, 0x0B, 0x11]

/-- A server with one service of two characteristics of the type `0x2A58`, each with a value
of 126 bytes. -/
def long_values_service : server :=
  { services := [
      { uuid := service_uuid.uuid16 0x1815,
        attributes := [
          { uuid := 0x2800, access := fun n _ => read_value [0x15, 0x18] n },
          { uuid := 0x2803, access := fun n _ => read_value [0x02, 0x03, 0x00, 0x58, 0x2A] n },
          { uuid := 0x2A58, access := fun n _ => read_value (List.replicate 126 0x55) n },
          { uuid := 0x2803, access := fun n _ => read_value [0x02, 0x05, 0x00, 0x58, 0x2A] n },
          { uuid := 0x2A58, access := fun n _ => read_value (List.replicate 126 0x66) n } ] } ],
    internal_128bit_uuid := 1,
    uuid_filter := uuid16_filter }

/-- The 50 bytes `const_blob` of `read_blob_tests.cpp`. -/
def const_blob : List Nat :=
  [0x00, 0x01, 0x02, 0x03, 0x04, 0x05, 0x06, 0x07, 0x08, 0x09,
   0x10, 0x11, 0x12, 0x13, 0x14, 0x15, 0x16, 0x17, 0x18, 0x19,
   0x20, 0x21, 0x22, 0x23, 0x24, 0x25, 0x26, 0x27, 0x28, 0x29,
   0x30, 0x31, 0x32, 0x33, 0x34, 0x35, 0x36, 0x37, 0x38, 0x39,
   0x40, 0x41, 0x42, 0x43, 0x44, 0x45, 0x46, 0x47, 0x48, 0x49]

/-- The UUID `8C8B4094-0DE2-499F-A28A-4EED5BC73CAA` of the characteristic of the blob servers,
little endian. -/
def blob_characteristic_uuid : List Nat :=
  [0xAA, 0x3C, 0xC7, 0x5B, 0xED, 0x4E, 0x8A, 0xA2, 0x9F, 0x49, 0xE2, 0x0D, 0x94, 0x40, 0x8B, 0x8C]

/-- The server `blob_server` of `read_blob_tests.cpp`: one service with one characteristic, both
with 128 bit UUIDs, whose value is `const_blob`. -/
def blob_server : server :=
  { services := [
      { uuid := service_uuid.uuid128 (fun i => temperature_service_uuid.getD i 0),
        attributes := [
          { uuid := 0x2800, access := fun n _ => read_value temperature_service_uuid n },
          { uuid := 0x2803,
            access := fun n h =>
              read_value ([0x02, (h + 1) % 256, (h + 1) / 256 % 256] ++ blob_characteristic_uuid) n },
          { uuid := 1, access := fun n _ => read_value const_blob n } ] } ],
    internal_128bit_uuid := 1,
    uuid_filter := uuid16_filter }

/-- The server `unreadable_blob_server` of `read_blob_tests.cpp`: as `blob_server`, with a value
of 100 bytes that has no read access. -/
def unreadable_blob_server : server :=
  { services := [
      { uuid := service_uuid.uuid128 (fun i => temperature_service_uuid.getD i 0),
        attributes := [
          { uuid := 0x2800, access := fun n _ => read_value temperature_service_uuid n },
          { uuid := 0x2803,
            access := fun n h =>
              read_value ([0x08, (h + 1) % 256, (h + 1) / 256 % 256] ++ blob_characteristic_uuid) n },
          { uuid := 1, access := fun _ _ => (attribute_access_result.error 0x02, []) } ] } ],
    internal_128bit_uuid := 1,
    uuid_filter := uuid16_filter }

/-! ## The advertising data of the server and the link layer (`link_layer/link_layer.hpp`)

The radio (`ScheduledRadio`) is outside of the sources; a callback of the link layer returns
the new state together with the list of the radio functions it called, in order.
Buffers that are handed to the radio are named, not copied. -/

/-! The codes `details::gap_types` of `bluetoe/codes.hpp`, with the values the specification
gives them. -/

namespace gap_types
def flags : Nat := 0x01
def shortened_local_name : Nat := 0x08
def complete_local_name : Nat := 0x09
end gap_types

/-- Embeds `server::advertising_data( begin, buffer_size )`. `buffer` is the memory that `begin`
points into and `begin_` the offset of `begin` in it; the result is the memory after the call
and the returned size. -/
def server.advertising_data (srv : server) (buffer : List Nat) (begin_ buffer_size : Nat) :
    Except fault (List Nat × Nat) := do
  let end_ := begin_ + buffer_size
  let (buffer, begin_) ←
    if buffer_size ≥ 3 then do
      let buffer ← write_bytes buffer begin_ [2, gap_types.flags, 6]
      pure (buffer, begin_ + 3)
    else
      pure (buffer, begin_)
  let (buffer, begin_) ←
    match srv.name with
    | some name =>
      if end_ - begin_ > 2 then do
        let name_length := name.length
        let max_name_len := min name_length (end_ - begin_ - 2)
        if name_length > 0 then do
          let buffer ← write_bytes buffer begin_
            [(max_name_len + 1) % 256,
              if max_name_len = name_length then gap_types.complete_local_name
              else gap_types.shortened_local_name]
          let buffer ← write_bytes buffer (begin_ + 2) (name.take max_name_len)
          pure (buffer, begin_ + (max_name_len + 2))
        else
          pure (buffer, begin_)
      else
        pure (buffer, begin_)
    | none => pure (buffer, begin_)
  pure (buffer, buffer_size - (end_ - begin_))

/-- Modelled from the spec: `delta_time` (`link_layer/delta_time.hpp`, not part of the sources),
"an unsigned duration type in microseconds", 32 bit wide, "with saturating arithmetic". -/
structure delta_time where
  usec : Nat
  deriving DecidableEq, Repr

/-- Modelled from the spec: `delta_time::now()`, the zero duration. -/
def delta_time.now : delta_time := { usec := 0 }

/-- Modelled from the spec: `delta_time::msec( ms )`. -/
def delta_time.msec (ms : Nat) : delta_time := { usec := ms * 1000 }

/-- Modelled from the spec: the constructor `delta_time( usec )` from a `std::uint32_t`. -/
def delta_time.of_usec (usec : Nat) : delta_time := { usec := usec % 4294967296 }

/-- Modelled from the spec: the sum of two durations, which saturates. -/
def delta_time.add (a b : delta_time) : delta_time := { usec := min (a.usec + b.usec) 4294967295 }

/-- Modelled from the spec: the comparison `a <= b` of two durations. -/
def delta_time.le (a b : delta_time) : Bool := decide (a.usec ≤ b.usec)

/-- Modelled from the spec: `channel_map` (`link_layer/channel_map.hpp`, not part of the
sources): which of the 37 data channels are used, and the hop increment. -/
structure channel_map where
  used : List Bool
  hop : Nat
  deriving DecidableEq, Repr

/-- Bit `i` of the channel bitmap `map`, the least significant bit of byte 0 first. -/
def channel_bit (map : List Nat) (i : Nat) : Bool :=
  decide (map.getD (i / 8) 0 / 2 ^ (i % 8) % 2 = 1)

/-- Modelled from the spec: `channel_map::reset( map, hop )`: "accept `hop ∈ [5,16]` and bitmap
with ≥2 bits set; return `false` otherwise". -/
def channel_map.reset (cm : channel_map) (map : List Nat) (hop : Nat) : Bool × channel_map :=
  let used := (List.range 37).map (channel_bit map)
  if 5 ≤ hop ∧ hop ≤ 16 ∧ 2 ≤ used.count true then
    (true, { used := used, hop := hop })
  else
    (false, cm)

/-- Modelled from the spec: `channel_map::data_channel( event_counter )`: "`unmapped = (prev +
h) mod 37`; if `used[unmapped]` return it; else return the used channel at position `unmapped
mod used_count`". `prev` is taken to be 0 before the connection event 0, so that the unmapped
channel of the event `event_counter` is `(event_counter + 1) * h mod 37`. -/
def channel_map.data_channel (cm : channel_map) (event_counter : Nat) : Nat :=
  let unmapped := (event_counter + 1) * cm.hop % 37
  if cm.used.getD unmapped false then
    unmapped
  else
    ((List.range 37).filter (fun c => cm.used.getD c false)).getD
      (unmapped % cm.used.count true) 0

/-- Embeds `link_layer::state`. -/
inductive link_layer_state where
  | initial
  | advertising
  | connected
  deriving DecidableEq, Repr

/-- The options of a `link_layer< Server, ScheduledRadio, Options... >`, which are declared in
`link_layer/options.hpp` and `link_layer/address.hpp`, outside of the sources:
`adv_interval::interval()`, `device_sleep_clock_accuracy::accuracy_ppm`,
`device_address::is_random()` and the six bytes of `device_address::address( *this )`. -/
structure link_layer_options where
  adv_interval : delta_time
  accuracy_ppm : Nat
  is_random : Bool
  address : List Nat

/-- The defaults `advertising_interval< 100 >`, `sleep_clock_accuracy_ppm< 500 >` and
`random_static_address`, with a given address. -/
def default_options (address : List Nat) : link_layer_options :=
  { adv_interval := delta_time.msec 100, accuracy_ppm := 500, is_random := true,
    address := address }

/-- The buffers of the link layer that the radio is given. -/
inductive buffer_name where
  | adv_buffer_
  | adv_response_buffer_
  | receive_buffer_
  | nullptr
  deriving DecidableEq, Repr

/-- A `read_buffer` or `write_buffer`: `{ buffer, size }`. -/
structure buffer_view where
  buffer : buffer_name
  size : Nat
  deriving DecidableEq, Repr

/-- A call of a function of `ScheduledRadio` (section 6.1 of the specification). -/
inductive radio_call where
  | set_access_address_and_crc_init (access_address crc_init : Nat)
  | schedule_transmit_and_receive (channel : Nat) (transmit : buffer_view) (start : delta_time)
      (receive : buffer_view)
  | schedule_receive_and_transmit (channel : Nat) (window_offset window_size : delta_time)
      (receive : buffer_view) (transmit : buffer_view)
  deriving DecidableEq, Repr

/-- The members of `link_layer`. -/
structure link_layer where
  adv_buffer_ : List Nat
  adv_size_ : Nat
  adv_response_buffer_ : List Nat
  adv_response_size_ : Nat
  current_advertising_channel_ : Nat
  adv_perturbation_ : Nat
  address_ : List Nat
  channels_ : channel_map
  cumulated_sleep_clock_accuracy_ : Nat
  transmit_window_offset_ : delta_time
  transmit_window_size_ : delta_time
  connection_interval_ : delta_time
  state_ : link_layer_state
  deriving DecidableEq, Repr

namespace link_layer

def max_advertising_data_size : Nat := 31
def advertising_pdu_header_size : Nat := 2
def address_length : Nat := 6
def first_advertising_channel : Nat := 37
def last_advertising_channel : Nat := 39
def max_adv_perturbation_ : Nat := 10
def adv_ind_pdu_type_code : Nat := 0
def scan_response_pdu_type_code : Nat := 4
def header_txaddr_field : Nat := 0x40
def advertising_radio_access_address : Nat := 0x8E89BED6
def advertising_crc_init : Nat := 0x555555

/-- Embeds the constructor `link_layer::link_layer()`. `memory` is what the object holds before:
the members that the initializer list does not name keep it. (The two arrays and
`cumulated_sleep_clock_accuracy_` are left uninitialised by the C++; `channels_` and the three
`delta_time` members are default constructed by classes that are not part of the sources.) -/
def link_layer (o : link_layer_options) (memory : bluetoe.link_layer) : bluetoe.link_layer :=
  { memory with
    adv_size_ := 0
    adv_response_size_ := 0
    current_advertising_channel_ := first_advertising_channel
    adv_perturbation_ := 0
    address_ := o.address
    state_ := link_layer_state.initial }

/-- Embeds `link_layer::read_16( p )` for `p = &buffer[ i ]`; the reads of the receive buffer are
guarded by the checks of its size. -/
def read_16 (buffer : List Nat) (i : Nat) : Nat :=
  (buffer.getD i 0 ||| buffer.getD (i + 1) 0 <<< 8) % 65536

/-- Embeds `link_layer::read_24( p )` for `p = &buffer[ i ]`. -/
def read_24 (buffer : List Nat) (i : Nat) : Nat :=
  (read_16 buffer i ||| buffer.getD (i + 2) 0 <<< 16) % 4294967296

/-- Embeds `link_layer::read_32( p )` for `p = &buffer[ i ]`. -/
def read_32 (buffer : List Nat) (i : Nat) : Nat :=
  (read_16 buffer i ||| read_16 buffer (i + 2) <<< 16) % 4294967296

/-- Embeds `link_layer::next_adv_event()`: the new state and the returned time. -/
def next_adv_event (o : link_layer_options) (ll : bluetoe.link_layer) :
    delta_time × bluetoe.link_layer :=
  let ll := { ll with
    adv_perturbation_ := (ll.adv_perturbation_ + 7) % 4294967296 % (max_adv_perturbation_ + 1) }
  (o.adv_interval.add (delta_time.msec ll.adv_perturbation_), ll)

/-- Embeds `link_layer::fill_advertising_buffer( server )`. -/
def fill_advertising_buffer (o : link_layer_options) (server : server) (ll : bluetoe.link_layer) :
    Except fault bluetoe.link_layer := do
  let adv_buffer_ ← write_bytes ll.adv_buffer_ 0 [adv_ind_pdu_type_code]
  let adv_buffer_ ←
    if o.is_random then
      write_bytes adv_buffer_ 0 [adv_buffer_.getD 0 0 ||| header_txaddr_field]
    else
      pure adv_buffer_
  let (adv_buffer_, size) ← server.advertising_data adv_buffer_
    (advertising_pdu_header_size + address_length) max_advertising_data_size
  let adv_buffer_ ← write_bytes adv_buffer_ 1 [(address_length + size) % 256]
  let adv_buffer_ ← write_bytes adv_buffer_ 2 ll.address_
  pure { ll with
    adv_buffer_ := adv_buffer_
    adv_size_ := advertising_pdu_header_size + adv_buffer_.getD 1 0 }

/-- Embeds `link_layer::fill_advertising_response_buffer( server )`. -/
def fill_advertising_response_buffer (o : link_layer_options) (ll : bluetoe.link_layer) :
    Except fault bluetoe.link_layer := do
  let buffer ← write_bytes ll.adv_response_buffer_ 0 [scan_response_pdu_type_code]
  let buffer ←
    if o.is_random then
      write_bytes buffer 0 [buffer.getD 0 0 ||| header_txaddr_field]
    else
      pure buffer
  let buffer ← write_bytes buffer 1 [address_length]
  let buffer ← write_bytes buffer 2 ll.address_
  pure { ll with
    adv_response_buffer_ := buffer
    adv_response_size_ := advertising_pdu_header_size + buffer.getD 1 0 }

/-- Embeds `link_layer::is_valid_scan_request( receive )`; `receive.size` is the length of
`receive`, and `&&` guards the reads. `std::equal` compares the six bytes from
`receive.buffer[ 8 ]` on with the six bytes of `address_`. -/
def is_valid_scan_request (ll : bluetoe.link_layer) (receive : List Nat) : Bool :=
  let scan_request_size := 2 * address_length + advertising_pdu_header_size
  let scan_request_code := 0x03
  let result := receive.length == scan_request_size
    && (receive.getD 1 0 &&& 0x3f) == scan_request_size - advertising_pdu_header_size
    && (receive.getD 0 0 &&& 0x0f) == scan_request_code
  result && decide ((receive.drop 8).take 6 = ll.address_.take 6)

/-- Embeds `link_layer::is_valid_connect_request( receive )`. -/
def is_valid_connect_request (ll : bluetoe.link_layer) (receive : List Nat) : Bool :=
  let connect_request_size := 34 + advertising_pdu_header_size
  let connect_request_code := 0x05
  let result := receive.length == connect_request_size
    && (receive.getD 1 0 &&& 0x3f) == connect_request_size - advertising_pdu_header_size
    && (receive.getD 0 0 &&& 0x0f) == connect_request_code
  result && decide ((receive.drop 8).take 6 = ll.address_.take 6)

/-- The table `inaccuracy_ppm` of `link_layer::sleep_clock_accuracy`. -/
def inaccuracy_ppm : List Nat := [500, 250, 150, 100, 75, 50, 30, 20]

/-- Embeds `link_layer::sleep_clock_accuracy( receive )`. -/
def sleep_clock_accuracy (receive : List Nat) : Nat :=
  inaccuracy_ppm.getD ((receive.getD 35 0 &&& 0xc0) >>> 6) 0

/-- Embeds `link_layer::parse_transmit_window_from_connect_request( valid_connect_request )`: the
result and the new state. -/
def parse_transmit_window_from_connect_request (ll : bluetoe.link_layer)
    (valid_connect_request : List Nat) : Bool × bluetoe.link_layer :=
  let max_mimum_transmit_window_offset := delta_time.of_usec (10 * 1000)
  let us_per_digits := 1125
  let ll := { ll with
    transmit_window_offset_ := delta_time.of_usec (valid_connect_request.getD 21 0 * us_per_digits) }
  let ll := { ll with
    connection_interval_ := delta_time.of_usec (read_16 valid_connect_request 24 * us_per_digits) }
  let result := ll.transmit_window_offset_.le max_mimum_transmit_window_offset
    && ll.transmit_window_offset_.le ll.connection_interval_
  (result, ll)

/-- Embeds `link_layer::timeout()`. -/
def timeout (o : link_layer_options) (ll : bluetoe.link_layer) :
    Except fault (bluetoe.link_layer × List radio_call) :=
  if ll.state_ = link_layer_state.advertising then
    let ll := { ll with
      current_advertising_channel_ :=
        if ll.current_advertising_channel_ = last_advertising_channel then
          first_advertising_channel
        else
          (ll.current_advertising_channel_ + 1) % 4294967296 }
    let (next_time, ll) :=
      if ll.current_advertising_channel_ = first_advertising_channel then
        next_adv_event o ll
      else
        (delta_time.now, ll)
    .ok (ll, [radio_call.schedule_transmit_and_receive ll.current_advertising_channel_
      { buffer := buffer_name.adv_buffer_, size := ll.adv_size_ } next_time
      { buffer := buffer_name.receive_buffer_, size := 40 }])
  else if ll.state_ = link_layer_state.connected then
    .ok (ll, [])
  else
    .error fault.assertion

/-- Embeds `link_layer::received( receive )`. -/
def received (o : link_layer_options) (ll : bluetoe.link_layer) (receive : List Nat) :
    Except fault (bluetoe.link_layer × List radio_call) :=
  if ll.state_ = link_layer_state.advertising then
    if is_valid_scan_request ll receive then
      .ok (ll, [radio_call.schedule_transmit_and_receive ll.current_advertising_channel_
        { buffer := buffer_name.adv_response_buffer_, size := ll.adv_response_size_ }
        delta_time.now { buffer := buffer_name.nullptr, size := 0 }])
    else if is_valid_connect_request ll receive then
      -- channels_.reset( &receive.buffer[ 30 ], receive.buffer[ 35 ] & 0x1f )
      let r := ll.channels_.reset (receive.drop 30) (receive.getD 35 0 &&& 0x1f)
      let ll := { ll with channels_ := r.2 }
      if r.1 then
        let p := parse_transmit_window_from_connect_request ll receive
        let ll := p.2
        if p.1 then
          let ll := { ll with
            state_ := link_layer_state.connected
            current_advertising_channel_ := 0 }
          let ll := { ll with
            cumulated_sleep_clock_accuracy_ :=
              (sleep_clock_accuracy receive + o.accuracy_ppm) % 4294967296 }
          .ok (ll, [
            radio_call.set_access_address_and_crc_init (read_32 receive 14) (read_24 receive 18),
            radio_call.schedule_receive_and_transmit
              (ll.channels_.data_channel ll.current_advertising_channel_)
              ll.transmit_window_offset_ ll.transmit_window_size_
              { buffer := buffer_name.nullptr, size := 0 }
              { buffer := buffer_name.adv_response_buffer_, size := ll.adv_response_size_ }])
        else
          timeout o ll
      else
        timeout o ll
    else
      timeout o ll
  else if ll.state_ = link_layer_state.connected then
    .ok (ll, [])
  else
    .error fault.assertion

/-- Embeds `link_layer::run( server )`, up to the call of `ScheduledRadio::run()`, which hands
the control to the radio: from then on the radio calls `received` and `timeout`. -/
def run (o : link_layer_options) (server : server) (ll : bluetoe.link_layer) :
    Except fault (bluetoe.link_layer × List radio_call) := do
  if ll.state_ = link_layer_state.initial then
    let ll := { ll with state_ := link_layer_state.advertising }
    let ll ← fill_advertising_buffer o server ll
    let ll ← fill_advertising_response_buffer o ll
    pure (ll, [
      radio_call.set_access_address_and_crc_init advertising_radio_access_address
        advertising_crc_init,
      radio_call.schedule_transmit_and_receive ll.current_advertising_channel_
        { buffer := buffer_name.adv_buffer_, size := ll.adv_size_ } delta_time.now
        { buffer := buffer_name.receive_buffer_, size := 40 }])
  else
    pure (ll, [])

end link_layer

/-! ### Sequences of callbacks, and the examples of the link layer -/

/-- The first `n` consecutive calls of `timeout()`: the state after them and the calls of the
radio that the last of them made. -/
def link_layer.timeouts (o : link_layer_options) : Nat → bluetoe.link_layer →
    Except fault (bluetoe.link_layer × List radio_call)
  | 0, ll => .ok (ll, [])
  | n + 1, ll => do
    let r ← link_layer.timeouts o n ll
    link_layer.timeout o r.1

/-- The states that a link layer with the options `o` gets into: the constructed object, and
what `run( server )` and the callbacks `received` and `timeout` make of it. -/
inductive link_layer.reachable (o : link_layer_options) (server : server) :
    bluetoe.link_layer → Prop where
  | constructed (memory : bluetoe.link_layer) : reachable o server (link_layer.link_layer o memory)
  | run (ll ll2 : bluetoe.link_layer) (calls : List radio_call) :
      reachable o server ll → link_layer.run o server ll = .ok (ll2, calls) →
      reachable o server ll2
  | received (ll ll2 : bluetoe.link_layer) (receive : List Nat) (calls : List radio_call) :
      reachable o server ll → link_layer.received o ll receive = .ok (ll2, calls) →
      reachable o server ll2
  | timeout (ll ll2 : bluetoe.link_layer) (calls : List radio_call) :
      reachable o server ll → link_layer.timeout o ll = .ok (ll2, calls) →
      reachable o server ll2

/-- The perturbation, in ms, of the wrap number `k` (`k = 0` is the first one) to channel 37:
it starts with 7 and goes on in steps of 7 modulo 11. -/
def used_perturbation : Nat → Nat
  | 0 => 7
  | k + 1 => (used_perturbation k + 7) % 11

/-- The two arrays `adv_buffer_` and `adv_response_buffer_` have their 39 bytes. -/
def link_layer.well_sized (ll : bluetoe.link_layer) : Prop :=
  ll.adv_buffer_.length = 39 ∧ ll.adv_response_buffer_.length = 39

instance (ll : link_layer) : Decidable ll.well_sized := by
  unfold link_layer.well_sized; infer_instance

/-- An object of the size of a link layer, before the constructor: zeroed arrays, an empty
channel map, and 0x2A2A in every other member. -/
def raw_memory : link_layer :=
  { adv_buffer_ := List.replicate 39 0
    adv_size_ := 0x2A2A
    adv_response_buffer_ := List.replicate 39 0
    adv_response_size_ := 0x2A2A
    current_advertising_channel_ := 0x2A2A
    adv_perturbation_ := 0x2A2A
    address_ := []
    channels_ := { used := [], hop := 0 }
    cumulated_sleep_clock_accuracy_ := 0x2A2A
    transmit_window_offset_ := { usec := 0x2A2A }
    transmit_window_size_ := { usec := 0x2A2A }
    connection_interval_ := { usec := 0x2A2A }
    state_ := link_layer_state.connected }

/-- The address of the examples. -/
def example_address : List Nat := [0x47, 0x11, 0x08, 0x15, 0x0f, 0xc0]

/-- The default options with the address of the examples. -/
def example_options : link_layer_options := default_options example_address

/-- A scan request (`SCAN_REQ`, 12 bytes of payload) to the address of the examples. -/
def example_scan_request : List Nat :=
  [0x03, 0x0c,
   0x3c, 0x1c, 0x62, 0x92, 0xf0, 0x48,
   0x47, 0x11, 0x08, 0x15, 0x0f, 0xc0]

/-- A connect request (`CONNECT_REQ`, 34 bytes of payload) to the address of the examples:
access address 0xAF9AB35A, `rx[18..21] = 08 81 02`, `rx[21] = 3`, `rx[24..26] = 0x0018`, all
37 data channels, hop 10 and sleep clock accuracy 2 (150 ppm). -/
def example_connect_request : List Nat :=
  [0x45, 0x22,
   0x3c, 0x1c, 0x62, 0x92, 0xf0, 0x48,
   0x47, 0x11, 0x08, 0x15, 0x0f, 0xc0,
   0x5a, 0xb3, 0x9a, 0xaf,
   0x08, 0x81, 0x02,
   0x03,
   0x0b, 0x00,
   0x18, 0x00,
   0x00, 0x00,
   0x48, 0x00,
   0xff, 0xff, 0xff, 0xff, 0x1f,
   0xaa]

/-- What holds of the channel and of the perturbation in every state of the link layer that
can be reached. -/
def link_layer.advertising_invariant (ll : bluetoe.link_layer) : Prop :=
  ll.adv_perturbation_ < 11
    ∧ (ll.state_ = link_layer_state.initial → ll.current_advertising_channel_ = 37)
    ∧ (ll.state_ = link_layer_state.advertising →
        ll.current_advertising_channel_ = 37 ∨ ll.current_advertising_channel_ = 38
          ∨ ll.current_advertising_channel_ = 39)

/-- The little endian value of the three bytes `input[ i ]`, `input[ i + 1 ]`, `input[ i + 2 ]`. -/
def u24le (input : List Nat) (i : Nat) : Nat :=
  u16le input i + 65536 * input.getD (i + 2) 0

/-- The little endian value of the four bytes `input[ i ]` ... `input[ i + 3 ]`. -/
def u32le (input : List Nat) (i : Nat) : Nat :=
  u16le input i + 65536 * u16le input (i + 2)

/-- The conditions under which the code accepts the connect request `rx`: it is a valid
connect request, `channels_.reset` takes the channel map and the hop, and the transmit window
offset `rx[ 21 ]`, in the `scale` microseconds of a digit, is at most 10000 µs and at most the
connection interval `u16le(rx[24..26])`. -/
def link_layer.accepts (ll : bluetoe.link_layer) (rx : List Nat) (scale : Nat) : Prop :=
  (rx.length = 36 ∧ rx.getD 0 0 % 16 = 5 ∧ rx.getD 1 0 % 64 = 34
      ∧ (rx.drop 8).take 6 = ll.address_.take 6)
    ∧ (ll.channels_.reset (rx.drop 30) (rx.getD 35 0 % 32)).1 = true
    ∧ rx.getD 21 0 * scale ≤ 10000
    ∧ rx.getD 21 0 * scale ≤ u16le rx 24 * scale

instance (ll : bluetoe.link_layer) (rx : List Nat) (scale : Nat) :
    Decidable (link_layer.accepts ll rx scale) := by
  unfold link_layer.accepts; infer_instance

/-- The link layer of the examples after its construction on `raw_memory` and `run` with the
three attribute server: it advertises `40 09`, the address and the flags `02 01 06`. -/
def example_advertising : link_layer :=
  { raw_memory with
    adv_buffer_ := [0x40, 0x09, 0x47, 0x11, 0x08, 0x15, 0x0f, 0xc0, 0x02, 0x01, 0x06]
      ++ List.replicate 28 0
    adv_size_ := 11
    adv_response_buffer_ := [0x44, 0x06, 0x47, 0x11, 0x08, 0x15, 0x0f, 0xc0]
      ++ List.replicate 31 0
    adv_response_size_ := 8
    current_advertising_channel_ := 37
    adv_perturbation_ := 0
    address_ := example_address
    state_ := link_layer_state.advertising }

/-- The call programs a radio action: `schedule_transmit_and_receive` or
`schedule_receive_and_transmit`. -/
def radio_call.is_schedule : radio_call → Bool
  | radio_call.set_access_address_and_crc_init _ _ => false
  | radio_call.schedule_transmit_and_receive _ _ _ _ => true
  | radio_call.schedule_receive_and_transmit _ _ _ _ _ => true

/-- The advertising data of a server with the name `name` for a buffer of `s` bytes, in the
words of the specification: nothing if `s < 3`; otherwise the flags record `02 01 06`,
followed, when a non-empty name is configured and `s ≥ 6`, by the record
`{m + 1, type, name[0..m)}` with `m = min(len, s - 5)` and the type `0x09` for the complete
name (`m = len`) and `0x08` for a shortened one. -/
def advertising_records (name : Option (List Nat)) (s : Nat) : List Nat :=
  if s < 3 then
    []
  else
    [0x02, 0x01, 0x06] ++
      match name with
      | some n =>
        if n ≠ [] ∧ 6 ≤ s then
          [min n.length (s - 5) + 1, if min n.length (s - 5) = n.length then 0x09 else 0x08]
            ++ n.take (min n.length (s - 5))
        else
          []
      | none => []

/-- Split `bytes` into at most `n` AD records `[length][type][data]`, where `length` counts the
type and the data; the result is `none` when the bytes are not a sequence of such records. -/
def parse_ad_records : Nat → List Nat → Option (List (Nat × List Nat))
  | 0, bytes => if bytes = [] then some [] else none
  | n + 1, bytes =>
    match bytes with
    | [] => some []
    | len :: rest =>
      if len = 0 ∨ rest.length < len then
        none
      else
        (parse_ad_records n (rest.drop len)).map
          (fun records => (rest.getD 0 0, (rest.take len).drop 1) :: records)

/-- The three attribute server with the name `Temp`. -/
def named_temperature_service : server :=
  { small_temperature_service with name := some [0x54, 0x65, 0x6d, 0x70] }

/-- The three attribute server with a name of 255 characters `a`. -/
def long_named_service : server :=
  { small_temperature_service with name := some (List.replicate 255 0x61) }

/-- The size of the span that `collect_attributes::operator()` gives to the accessor:
`min( remaining, 255 ) - 2` for the `remaining = end_ - current_` bytes of the output. -/
def collect_attributes.span (it : collect_attributes) : Nat :=
  min (it.end_ - it.current_) 255 - 2

/-- The condition under which an attribute is included into a Read By Type response: at least
2 bytes of output are left, the accessor, given the span, returns `success`, or it returns
`read_truncated` and has written exactly 253 bytes, and the number of the bytes written plus 2
is the pair length, which the first included attribute fixes. -/
def collect_attributes.includes (it : collect_attributes) (attr : details_attribute)
    (handle : Nat) : Prop :=
  2 ≤ it.end_ - it.current_
    ∧ ((attr.access it.span handle).1 = attribute_access_result.success
        ∨ ((attr.access it.span handle).1 = attribute_access_result.read_truncated
            ∧ (attr.access it.span handle).2.length = 253))
    ∧ (attr.access it.span handle).2.length + 2
        = if it.first_ then (attr.access it.span handle).2.length + 2 else it.size_

instance (it : collect_attributes) (attr : details_attribute) (handle : Nat) :
    Decidable (it.includes attr handle) := by
  unfold collect_attributes.includes; infer_instance

/-- A value of 126 bytes, of the type `0x2A58`. -/
def long_value_attribute : details_attribute :=
  { uuid := 0x2A58, access := fun n _ => read_value (List.replicate 126 0x55) n }

/-! ## Theorems -/

/-! ### Stepping through `Except` -/

@[simp] theorem bind_ok {α β : Type} (a : α) (f : α → Except fault β) :
    (Except.ok a >>= f) = f a := rfl

@[simp] theorem bind_error {α β : Type} (e : fault) (f : α → Except fault β) :
    ((Except.error e : Except fault α) >>= f) = Except.error e := rfl

@[simp] theorem pure_eq_ok {α : Type} (a : α) : (pure a : Except fault α) = Except.ok a := rfl

@[simp] theorem throw_eq_error {α : Type} (e : fault) :
    (throw e : Except fault α) = Except.error e := rfl

/-! ### Reading the input, writing the output -/

theorem read_byte_cons (b : Nat) (rest : List Nat) : read_byte (b :: rest) 0 = .ok b := by
  simp [read_byte]

theorem read_byte_ok (input : List Nat) (i : Nat) (h : i < input.length) :
    read_byte input i = .ok (input.getD i 0) := by
  simp [read_byte, List.getD, List.getElem?_eq_getElem h]

theorem getD_lt_of_all_bytes (input : List Nat) (i : Nat) (hb : all_bytes input) :
    input.getD i 0 < 256 := by
  by_cases h : i < input.length
  · have := hb input[i] (List.getElem_mem _)
    simpa [List.getD, List.getElem?_eq_getElem h] using this
  · simp [List.getD, List.getElem?_eq_none (Nat.le_of_not_lt h)]

theorem u16le_lt (input : List Nat) (i : Nat) (hb : all_bytes input) : u16le input i < 65536 := by
  have h1 := getD_lt_of_all_bytes input i hb
  have h2 := getD_lt_of_all_bytes input (i + 1) hb
  unfold u16le
  omega

theorem read_handle_ok (input : List Nat) (i : Nat) (h : i + 1 < input.length)
    (hb : all_bytes input) : read_handle input i = .ok (u16le input i) := by
  have h1 := getD_lt_of_all_bytes input i hb
  have h2 := getD_lt_of_all_bytes input (i + 1) hb
  simp only [read_handle, read_byte_ok input i (by omega), read_byte_ok input (i + 1) h, bind_ok,
    pure_eq_ok, u16le]
  congr 1
  omega

theorem write_bytes_ok (output : List Nat) (pos : Nat) (bytes : List Nat)
    (h : pos + bytes.length ≤ output.length) :
    write_bytes output pos bytes
      = .ok (output.take pos ++ bytes ++ output.drop (pos + bytes.length)) := by
  simp [write_bytes, h]

theorem error_response_ok (opcode error_code handle : Nat) (output : List Nat) (out_size : Nat)
    (log : List event) (h5 : 5 ≤ out_size) (hlen : 5 ≤ output.length) :
    error_response opcode error_code handle { output := output, out_size := out_size, log := log }
      = .ok (false, {
          output := error_pdu opcode handle error_code ++ output.drop 5,
          out_size := 5, log := log }) := by
  have hw := write_bytes_ok output 0 [0x01, opcode, handle % 256, handle / 256 % 256, error_code]
    (by simpa using hlen)
  simp at hw
  simp [error_response, h5, hw, att_opcodes.error_response, error_pdu]

/-! ### The size and handle checks -/

theorem check_size_and_handle_range_eq (A B : Nat) (srv : server) (input output : List Nat)
    (out_size : Nat) (log : List event) (s0 e0 : Nat)
    (hA : 5 ≤ A) (hB : 5 ≤ B) (hin : 1 ≤ input.length) (hb : all_bytes input)
    (h5 : 5 ≤ out_size) (hlen : 5 ≤ output.length) :
    check_size_and_handle_range A B srv input
        { output := output, out_size := out_size, log := log } s0 e0
      = .ok (
        if input.length ≠ A ∧ input.length ≠ B then
          (false, { output := error_pdu (input.getD 0 0) 0 0x04 ++ output.drop 5,
                    out_size := 5, log := log }, s0, e0)
        else if u16le input 1 = 0 ∨ u16le input 1 > u16le input 3 then
          (false, { output := error_pdu (input.getD 0 0) (u16le input 1) 0x01 ++ output.drop 5,
                    out_size := 5, log := log }, u16le input 1, u16le input 3)
        else if u16le input 1 > srv.number_of_attributes then
          (false, { output := error_pdu (input.getD 0 0) (u16le input 1) 0x0A ++ output.drop 5,
                    out_size := 5, log := log }, u16le input 1, u16le input 3)
        else
          (true, { output := output, out_size := out_size, log := log },
            u16le input 1, u16le input 3)) := by
  have h0 := read_byte_ok input 0 (by omega)
  by_cases hsz : input.length ≠ A ∧ input.length ≠ B
  · simp [check_size_and_handle_range, hsz, h0, error_response_0,
      error_response_ok _ _ _ _ _ _ h5 hlen, att_error_codes.invalid_pdu]
  · have hl : 5 ≤ input.length := by
      by_cases h1 : input.length = A
      · omega
      · by_cases h2 : input.length = B
        · omega
        · exact absurd ⟨h1, h2⟩ hsz
    have hs := read_handle_ok input 1 (by omega) hb
    have he := read_handle_ok input 3 (by omega) hb
    by_cases hr : u16le input 1 = 0 ∨ u16le input 1 > u16le input 3
    · simp [check_size_and_handle_range, hsz, h0, hs, he, hr,
        error_response_ok _ _ _ _ _ _ h5 hlen, att_error_codes.invalid_handle]
    · by_cases hn : u16le input 1 > srv.number_of_attributes
      · simp [check_size_and_handle_range, hsz, h0, hs, he, hr, hn,
          error_response_ok _ _ _ _ _ _ h5 hlen, att_error_codes.attribute_not_found]
      · simp [check_size_and_handle_range, hsz, hs, he, hr, hn]

theorem check_size_and_handle_eq (A B : Nat) (srv : server) (input output : List Nat)
    (out_size : Nat) (log : List event) (h0 : Nat)
    (hA : 3 ≤ A) (hB : 3 ≤ B) (hin : 1 ≤ input.length) (hb : all_bytes input)
    (h5 : 5 ≤ out_size) (hlen : 5 ≤ output.length) :
    check_size_and_handle A B srv input
        { output := output, out_size := out_size, log := log } h0
      = .ok (
        if input.length ≠ A ∧ input.length ≠ B then
          (false, { output := error_pdu (input.getD 0 0) 0 0x04 ++ output.drop 5,
                    out_size := 5, log := log }, h0)
        else if u16le input 1 = 0 then
          (false, { output := error_pdu (input.getD 0 0) (u16le input 1) 0x01 ++ output.drop 5,
                    out_size := 5, log := log }, u16le input 1)
        else if u16le input 1 > srv.number_of_attributes then
          (false, { output := error_pdu (input.getD 0 0) (u16le input 1) 0x0A ++ output.drop 5,
                    out_size := 5, log := log }, u16le input 1)
        else
          (true, { output := output, out_size := out_size, log := log }, u16le input 1)) := by
  have hop := read_byte_ok input 0 (by omega)
  by_cases hsz : input.length ≠ A ∧ input.length ≠ B
  · simp [check_size_and_handle, hsz, hop, error_response_0,
      error_response_ok _ _ _ _ _ _ h5 hlen, att_error_codes.invalid_pdu]
  · have hl : 3 ≤ input.length := by
      by_cases h1 : input.length = A
      · omega
      · by_cases h2 : input.length = B
        · omega
        · exact absurd ⟨h1, h2⟩ hsz
    have hs := read_handle_ok input 1 (by omega) hb
    by_cases hr : u16le input 1 = 0
    · simp [check_size_and_handle, hsz, hop, hs, hr,
        error_response_ok _ _ _ _ _ _ h5 hlen, att_error_codes.invalid_handle]
    · by_cases hn : u16le input 1 > srv.number_of_attributes
      · simp [check_size_and_handle, hsz, hop, hs, hr, hn,
          error_response_ok _ _ _ _ _ _ h5 hlen, att_error_codes.attribute_not_found]
      · simp [check_size_and_handle, hsz, hs, hr, hn]

/-! ### The attribute table -/

theorem attributes_length (srv : server) :
    srv.attributes.length = srv.number_of_attributes := by
  simp [server.attributes, server.number_of_attributes, List.length_flatten,
    Function.comp_def]
  rfl

theorem attribute_at_ok (srv : server) (m : machine) (h : Nat) (a : details_attribute)
    (h1 : 1 ≤ h) (ha : srv.attributes[h - 1]? = some a) :
    attribute_at srv m ((h : Int) - 1)
      = .ok (a, { m with log := m.log ++ [event.attribute_at ((h : Int) - 1)] }) := by
  have h0 : (0 : Int) ≤ (h : Int) - 1 := by omega
  have ht : ((h : Int) - 1).toNat = h - 1 := by omega
  simp [attribute_at, h0, ht, ha]

theorem access_ok (attr : details_attribute) (output : List Nat) (out_size : Nat)
    (log : List event) (pos buffer_size handle : Nat)
    (h : pos + (attr.access buffer_size handle).2.length ≤ output.length) :
    access attr { output := output, out_size := out_size, log := log } pos buffer_size handle
      = .ok ((attr.access buffer_size handle).1, (attr.access buffer_size handle).2.length,
          { output := output.take pos ++ (attr.access buffer_size handle).2
              ++ output.drop (pos + (attr.access buffer_size handle).2.length),
            out_size := out_size,
            log := log ++ [event.access buffer_size handle] }) := by
  simp [access, write_bytes_ok _ _ _ h]

/-! ### The dispatch of `l2cap_input` -/

theorem l2cap_input_find_information (srv : server) (rest output : List Nat)
    (hout : 23 ≤ output.length) :
    l2cap_input srv (0x04 :: rest) output
      = handle_find_information_request srv (0x04 :: rest)
          { output := output, out_size := output.length, log := [] } := by
  simp [l2cap_input, default_att_mtu_size, read_byte, att_opcodes.find_information_request, hout]

theorem l2cap_input_read_by_type (srv : server) (rest output : List Nat)
    (hout : 23 ≤ output.length) :
    l2cap_input srv (0x08 :: rest) output
      = handle_read_by_type_request srv (0x08 :: rest)
          { output := output, out_size := output.length, log := [] } := by
  simp [l2cap_input, default_att_mtu_size, read_byte, att_opcodes.find_information_request,
    att_opcodes.read_by_type_request, hout]

theorem l2cap_input_read (srv : server) (rest output : List Nat)
    (hout : 23 ≤ output.length) :
    l2cap_input srv (0x0A :: rest) output
      = handle_read_request srv (0x0A :: rest)
          { output := output, out_size := output.length, log := [] } := by
  simp [l2cap_input, default_att_mtu_size, read_byte, att_opcodes.find_information_request,
    att_opcodes.read_by_type_request, att_opcodes.read_request, hout]

theorem l2cap_input_read_by_group_type (srv : server) (rest output : List Nat)
    (hout : 23 ≤ output.length) :
    l2cap_input srv (0x10 :: rest) output
      = handle_read_by_group_type_request srv (0x10 :: rest)
          { output := output, out_size := output.length, log := [] } := by
  simp [l2cap_input, default_att_mtu_size, read_byte, att_opcodes.find_information_request,
    att_opcodes.read_by_type_request, att_opcodes.read_request,
    att_opcodes.read_by_group_type_request, hout]

theorem l2cap_input_other (srv : server) (opcode : Nat) (rest output : List Nat)
    (h_op : opcode ≠ 0x04 ∧ opcode ≠ 0x08 ∧ opcode ≠ 0x0A ∧ opcode ≠ 0x10)
    (h_out : 23 ≤ output.length) :
    l2cap_input srv (opcode :: rest) output
      = .ok { output := error_pdu opcode 0 0x04 ++ output.drop 5, out_size := 5, log := [] } := by
  obtain ⟨h1, h2, h3, h4⟩ := h_op
  have h5 : 5 ≤ output.length := by omega
  simp [l2cap_input, default_att_mtu_size, read_byte, att_opcodes.find_information_request,
    att_opcodes.read_by_type_request, att_opcodes.read_request,
    att_opcodes.read_by_group_type_request, h1, h2, h3, h4, h_out, error_response_0,
    error_response_ok _ _ _ _ _ _ h5 h5, att_error_codes.invalid_pdu]

theorem all_bytes_cons (b : Nat) (l : List Nat) (hb : b < 256) (hl : all_bytes l) :
    all_bytes (b :: l) := by
  intro x hx
  rcases List.mem_cons.mp hx with h | h
  · omega
  · exact hl x h

/-! ### C1: unhandled opcodes -/

/-- C1: for every request of at least one byte whose first byte `opcode` is not one of the
handled opcodes `0x04`, `0x08`, `0x0A`, `0x10`, and every output buffer of at least 23 bytes,
`l2cap_input` returns, writes exactly the five bytes `01 opcode 00 00 04` at the start of the
buffer, leaves the rest of it alone, sets `out_size` to 5, and looks no attribute up. -/
theorem l2cap_input_unhandled_opcode (srv : server) (opcode : Nat) (rest output : List Nat)
    (h_op : opcode ≠ 0x04 ∧ opcode ≠ 0x08 ∧ opcode ≠ 0x0A ∧ opcode ≠ 0x10)
    (h_out : 23 ≤ output.length) :
    l2cap_input srv (opcode :: rest) output
      = .ok { output := [0x01, opcode, 0x00, 0x00, 0x04] ++ output.drop 5,
              out_size := 5, log := [] } := by
  rw [l2cap_input_other srv opcode rest output h_op h_out]
  simp [error_pdu]

/-- The Read Blob request `0C 02 00 00` of the tests, which is one byte short, is answered
with `01 0C 00 00 04`. -/
theorem l2cap_input_unhandled_opcode_witness :
    ((0x0C ≠ 0x04 ∧ 0x0C ≠ 0x08 ∧ 0x0C ≠ 0x0A ∧ 0x0C ≠ 0x10) ∧ 23 ≤ (buffer 23).length)
    ∧ l2cap_input small_temperature_service [0x0C, 0x02, 0x00, 0x00] (buffer 23)
      = .ok { output := [0x01, 0x0C, 0x00, 0x00, 0x04] ++ (buffer 23).drop 5,
              out_size := 5, log := [] } :=
  ⟨by decide,
   l2cap_input_unhandled_opcode small_temperature_service 0x0C [0x02, 0x00, 0x00] (buffer 23)
    (by decide) (by decide)⟩

/-! ### C3: the size and handle range check -/

/-- C3: `check_size_and_handle_range< A, B >` (with `A, B ≥ 5`, as in its three uses) decides
in this order: a size that is neither `A` nor `B` gives the Error Response `invalid_pdu (0x04)`
with handle `0x0000`; else, with `starting = u16le(in[1..3])` and `ending = u16le(in[3..5])`,
`starting == 0` or `starting > ending` gives `invalid_handle (0x01)` echoing `starting`; else
`starting > N` gives `attribute_not_found (0x0A)` echoing `starting`; in these cases the result
is `false`. Otherwise the result is `true`, the two out-parameters hold `starting` and
`ending`, and the output buffer and `out_size` are untouched. -/
theorem check_size_and_handle_range_decides (A B : Nat) (srv : server) (input output : List Nat)
    (out_size : Nat) (log : List event) (s0 e0 : Nat)
    (hA : 5 ≤ A) (hB : 5 ≤ B) (hin : 1 ≤ input.length) (hb : all_bytes input)
    (h5 : 5 ≤ out_size) (hlen : 5 ≤ output.length) :
    check_size_and_handle_range A B srv input
        { output := output, out_size := out_size, log := log } s0 e0
      = .ok (
        if input.length ≠ A ∧ input.length ≠ B then
          (false, { output := [0x01, input.getD 0 0, 0x00, 0x00, 0x04] ++ output.drop 5,
                    out_size := 5, log := log }, s0, e0)
        else if u16le input 1 = 0 ∨ u16le input 1 > u16le input 3 then
          (false, { output := [0x01, input.getD 0 0, input.getD 1 0, input.getD 2 0, 0x01]
                      ++ output.drop 5,
                    out_size := 5, log := log }, u16le input 1, u16le input 3)
        else if u16le input 1 > srv.number_of_attributes then
          (false, { output := [0x01, input.getD 0 0, input.getD 1 0, input.getD 2 0, 0x0A]
                      ++ output.drop 5,
                    out_size := 5, log := log }, u16le input 1, u16le input 3)
        else
          (true, { output := output, out_size := out_size, log := log },
            u16le input 1, u16le input 3)) := by
  rw [check_size_and_handle_range_eq A B srv input output out_size log s0 e0 hA hB hin hb h5 hlen]
  have h1 := getD_lt_of_all_bytes input 1 hb
  have h2 := getD_lt_of_all_bytes input 2 hb
  have hu : u16le input 1 = input.getD 1 0 + 256 * input.getD 2 0 := rfl
  have e1 : u16le input 1 % 256 = input.getD 1 0 := by omega
  have e2 : u16le input 1 / 256 % 256 = input.getD 2 0 := by omega
  simp [error_pdu, e1, e2]

/-- The Find Information request `04 02 00 03 00` passes the check of the three attribute
server with `starting = 2` and `ending = 3`. -/
theorem check_size_and_handle_range_decides_witness :
    (5 ≤ 5 ∧ 1 ≤ [0x04, 0x02, 0x00, 0x03, 0x00].length ∧ all_bytes [0x04, 0x02, 0x00, 0x03, 0x00]
      ∧ 5 ≤ 23 ∧ 5 ≤ (buffer 23).length)
    ∧ check_size_and_handle_range 5 5 small_temperature_service [0x04, 0x02, 0x00, 0x03, 0x00]
        { output := buffer 23, out_size := 23, log := [] } 0 0
      = .ok (true, { output := buffer 23, out_size := 23, log := [] }, 2, 3) :=
  ⟨by decide,
   (check_size_and_handle_range_decides 5 5 small_temperature_service
      [0x04, 0x02, 0x00, 0x03, 0x00] (buffer 23) 23 [] 0 0
      (by decide) (by decide) (by decide) (by decide) (by decide) (by decide)).trans (by decide)⟩

/-! ### C4: the errors of a Read request -/

theorem u16le_pair (a lo hi : Nat) (rest : List Nat) : u16le (a :: lo :: hi :: rest) 1 = lo + 256 * hi := by
  simp [u16le]

/-- C4: a Read request (opcode `0x0A`) whose size is not 3 is answered with the Error Response
`invalid_pdu (0x04)` with handle 0; a request `0A lo hi` with handle `h = lo + 256 * hi` is
answered with `01 0A 00 00 01` (`invalid_handle`) if `h == 0` and with `01 0A lo hi 0A`
(`attribute_not_found`) if `h > N`. In each of these cases the log of look-ups and accessor
calls is empty: no attribute is accessed. -/
theorem read_request_errors (srv : server) (output : List Nat) (hout : 23 ≤ output.length) :
    (∀ rest : List Nat, all_bytes rest → rest.length ≠ 2 →
      l2cap_input srv (0x0A :: rest) output
        = .ok { output := [0x01, 0x0A, 0x00, 0x00, 0x04] ++ output.drop 5,
                out_size := 5, log := [] })
    ∧ (∀ lo hi : Nat, lo < 256 → hi < 256 → lo + 256 * hi = 0 →
      l2cap_input srv [0x0A, lo, hi] output
        = .ok { output := [0x01, 0x0A, 0x00, 0x00, 0x01] ++ output.drop 5,
                out_size := 5, log := [] })
    ∧ (∀ lo hi : Nat, lo < 256 → hi < 256 → lo + 256 * hi > srv.number_of_attributes →
      l2cap_input srv [0x0A, lo, hi] output
        = .ok { output := [0x01, 0x0A, lo, hi, 0x0A] ++ output.drop 5,
                out_size := 5, log := [] }) := by
  have h5 : 5 ≤ output.length := by omega
  refine ⟨?_, ?_, ?_⟩
  · intro rest hb hl
    have hb2 : all_bytes (0x0A :: rest) := all_bytes_cons _ _ (by decide) hb
    rw [l2cap_input_read srv rest output hout]
    simp [handle_read_request,
      check_size_and_handle_eq 3 3 srv (0x0A :: rest) output output.length [] 0
        (by decide) (by decide) (by simp) hb2 h5 h5, hl, error_pdu]
  · intro lo hi hlo hhi h0
    have hz : lo = 0 ∧ hi = 0 := by omega
    obtain ⟨rfl, rfl⟩ := hz
    rw [l2cap_input_read srv [0, 0] output hout]
    simp [handle_read_request,
      check_size_and_handle_eq 3 3 srv [0x0A, 0, 0] output output.length [] 0
        (by decide) (by decide) (by simp) (by decide) h5 h5, u16le_pair, error_pdu]
  · intro lo hi hlo hhi hN
    have hb2 : all_bytes [0x0A, lo, hi] :=
      all_bytes_cons _ _ (by decide) (all_bytes_cons _ _ hlo (all_bytes_cons _ _ hhi (by simp [all_bytes])))
    have hne : ¬ (lo + 256 * hi = 0) := by omega
    have e1 : (lo + 256 * hi) % 256 = lo := by omega
    have e2 : (lo + 256 * hi) / 256 % 256 = hi := by omega
    rw [l2cap_input_read srv [lo, hi] output hout]
    simp [handle_read_request,
      check_size_and_handle_eq 3 3 srv [0x0A, lo, hi] output output.length [] 0
        (by decide) (by decide) (by simp) hb2 h5 h5, u16le_pair, hne, hN, error_pdu, e1, e2]

/-- On the three attribute server `0A 17 AA` is answered with `01 0A 17 AA 0A`, and `0A 00 00`
with `01 0A 00 00 01`. -/
theorem read_request_errors_witness :
    23 ≤ (buffer 23).length
    ∧ l2cap_input small_temperature_service [0x0A, 0x17, 0xAA] (buffer 23)
        = .ok { output := [0x01, 0x0A, 0x17, 0xAA, 0x0A] ++ (buffer 23).drop 5,
                out_size := 5, log := [] }
    ∧ l2cap_input small_temperature_service [0x0A, 0x00, 0x00] (buffer 23)
        = .ok { output := [0x01, 0x0A, 0x00, 0x00, 0x01] ++ (buffer 23).drop 5,
                out_size := 5, log := [] } :=
  ⟨by decide,
   (read_request_errors small_temperature_service (buffer 23) (by decide)).2.2 0x17 0xAA
      (by decide) (by decide) (by decide),
   (read_request_errors small_temperature_service (buffer 23) (by decide)).2.1 0x00 0x00
      (by decide) (by decide) (by decide)⟩

/-! ### C5: the Read request -/

theorem read_request_eq (srv : server) (lo hi : Nat) (output : List Nat)
    (attr : details_attribute)
    (hlo : lo < 256) (hhi : hi < 256) (hout : 23 ≤ output.length)
    (h1 : 1 ≤ lo + 256 * hi)
    (hattr : srv.attributes[lo + 256 * hi - 1]? = some attr)
    (hspan : (attr.access (output.length - 1) (lo + 256 * hi)).2.length ≤ output.length - 1) :
    l2cap_input srv [0x0A, lo, hi] output
      = .ok (
        if (attr.access (output.length - 1) (lo + 256 * hi)).1 = attribute_access_result.success
            ∨ (attr.access (output.length - 1) (lo + 256 * hi)).1
                = attribute_access_result.read_truncated then
          { output := [0x0B] ++ (attr.access (output.length - 1) (lo + 256 * hi)).2
              ++ output.drop (1 + (attr.access (output.length - 1) (lo + 256 * hi)).2.length),
            out_size := 1 + (attr.access (output.length - 1) (lo + 256 * hi)).2.length,
            log := [event.attribute_at ((lo + 256 * hi : Nat) - 1),
                    event.access (output.length - 1) (lo + 256 * hi)] }
        else
          { output := [0x01, 0x0A, lo, hi, 0x02]
              ++ (output.take 1 ++ (attr.access (output.length - 1) (lo + 256 * hi)).2
                  ++ output.drop (1 + (attr.access (output.length - 1) (lo + 256 * hi)).2.length)).drop 5,
            out_size := 5,
            log := [event.attribute_at ((lo + 256 * hi : Nat) - 1),
                    event.access (output.length - 1) (lo + 256 * hi)] }) := by
  have h5 : 5 ≤ output.length := by omega
  have hb2 : all_bytes [0x0A, lo, hi] :=
    all_bytes_cons _ _ (by decide) (all_bytes_cons _ _ hlo (all_bytes_cons _ _ hhi (by simp [all_bytes])))
  have hne : ¬ (lo + 256 * hi = 0) := by omega
  have hN : ¬ (lo + 256 * hi > srv.number_of_attributes) := by
    have := (List.getElem?_eq_some_iff.mp hattr).1
    rw [attributes_length] at this
    omega
  have e1 : (lo + 256 * hi) % 256 = lo := by omega
  have e2 : (lo + 256 * hi) / 256 % 256 = hi := by omega
  have hacc := access_ok attr output output.length [event.attribute_at ((lo + 256 * hi : Nat) - 1)]
    1 (output.length - 1) (lo + 256 * hi) (by omega)
  have hcast : ((lo + 256 * hi : Nat) : Int) - 1 = (lo : Int) + 256 * (hi : Int) - 1 := by
    push_cast; ring
  rw [l2cap_input_read srv [lo, hi] output hout]
  simp only [handle_read_request,
    check_size_and_handle_eq 3 3 srv [0x0A, lo, hi] output output.length [] 0
      (by decide) (by decide) (by simp) hb2 h5 h5, u16le_pair, hne, hN, bind_ok]
  simp only [List.length_cons, List.length_nil, ne_eq, not_true_eq_false, and_self, if_false,
    Bool.not_true, Bool.false_eq_true]
  rw [attribute_at_ok srv _ (lo + 256 * hi) attr h1 hattr]
  simp only [bind_ok, List.nil_append]
  rw [hacc]
  simp only [bind_ok]
  by_cases hrc : (attr.access (output.length - 1) (lo + 256 * hi)).1 = attribute_access_result.success
      ∨ (attr.access (output.length - 1) (lo + 256 * hi)).1 = attribute_access_result.read_truncated
  · rw [if_pos hrc, if_pos hrc]
    rw [write_bytes_ok _ 0 _ (by simp; omega)]
    cases output with
    | nil => simp at hout
    | cons b rest => simp [att_opcodes.read_response]
  · rw [if_neg hrc, if_neg hrc]
    rw [read_byte_cons]
    simp only [bind_ok]
    rw [error_response_ok _ _ _ _ _ _ (by omega) (by simp; omega)]
    simp [error_pdu, e1, e2, att_error_codes.read_not_permitted]

/-- C5: a Read request `0A lo hi` with a handle `h = lo + 256 * hi` in `[1, N]` looks attribute
`h` up (index `h - 1`) and calls its accessor once, with the span `out[1 .. out_size)` and the
handle `h`. With `success` or `read_truncated` the response is `0x0B` followed by the bytes
the accessor wrote, and `out_size = 1 + bytes_written`; with every other result the response
is exactly the Error Response `01 0A lo hi 02` (`read_not_permitted`). The accessor is assumed
to stay within its span. -/
theorem read_request_response (srv : server) (lo hi : Nat) (output : List Nat)
    (attr : details_attribute)
    (hlo : lo < 256) (hhi : hi < 256) (hout : 23 ≤ output.length)
    (h1 : 1 ≤ lo + 256 * hi)
    (hattr : srv.attributes[lo + 256 * hi - 1]? = some attr)
    (hspan : (attr.access (output.length - 1) (lo + 256 * hi)).2.length ≤ output.length - 1) :
    l2cap_input srv [0x0A, lo, hi] output
      = .ok (
        if (attr.access (output.length - 1) (lo + 256 * hi)).1 = attribute_access_result.success
            ∨ (attr.access (output.length - 1) (lo + 256 * hi)).1
                = attribute_access_result.read_truncated then
          { output := [0x0B] ++ (attr.access (output.length - 1) (lo + 256 * hi)).2
              ++ output.drop (1 + (attr.access (output.length - 1) (lo + 256 * hi)).2.length),
            out_size := 1 + (attr.access (output.length - 1) (lo + 256 * hi)).2.length,
            log := [event.attribute_at ((lo + 256 * hi : Nat) - 1),
                    event.access (output.length - 1) (lo + 256 * hi)] }
        else
          { output := [0x01, 0x0A, lo, hi, 0x02]
              ++ (output.take 1 ++ (attr.access (output.length - 1) (lo + 256 * hi)).2
                  ++ output.drop (1 + (attr.access (output.length - 1) (lo + 256 * hi)).2.length)).drop 5,
            out_size := 5,
            log := [event.attribute_at ((lo + 256 * hi : Nat) - 1),
                    event.access (output.length - 1) (lo + 256 * hi)] }) :=
  read_request_eq srv lo hi output attr hlo hhi hout h1 hattr hspan

/-- Reading the value of the three attribute server, `0A 03 00`, is answered with `0B` and the
four bytes of the value. -/
theorem read_request_response_witness :
    (0x03 < 256 ∧ 0x00 < 256 ∧ 23 ≤ (buffer 23).length ∧ 1 ≤ 0x03 + 256 * 0x00)
    ∧ l2cap_input small_temperature_service [0x0A, 0x03, 0x00] (buffer 23)
      = .ok { output := [0x0B, 0, 0, 0, 0] ++ (buffer 23).drop 5, out_size := 5,
              log := [event.attribute_at 2, event.access 22 3] } :=
  ⟨by decide,
   (read_request_response small_temperature_service 0x03 0x00 (buffer 23)
      { uuid := 1, access := fun n _ => read_value [0, 0, 0, 0] n }
      (by decide) (by decide) (by decide) (by decide) (by rfl) (by decide)).trans (by decide)⟩

/-! ### C9: Read By Group Type, unsupported group types -/

theorem read_by_group_type_check (srv : server) (rest output : List Nat)
    (hb : all_bytes rest) (hout : 23 ≤ output.length) :
    check_size_and_handle_range (5 + 2) (5 + 16) srv (0x10 :: rest)
        { output := output, out_size := output.length, log := [] } 0 0
      = .ok (
        if (0x10 :: rest).length ≠ 7 ∧ (0x10 :: rest).length ≠ 21 then
          (false, { output := error_pdu 0x10 0 0x04 ++ output.drop 5,
                    out_size := 5, log := [] }, 0, 0)
        else if u16le (0x10 :: rest) 1 = 0 ∨ u16le (0x10 :: rest) 1 > u16le (0x10 :: rest) 3 then
          (false, { output := error_pdu 0x10 (u16le (0x10 :: rest) 1) 0x01 ++ output.drop 5,
                    out_size := 5, log := [] }, u16le (0x10 :: rest) 1, u16le (0x10 :: rest) 3)
        else if u16le (0x10 :: rest) 1 > srv.number_of_attributes then
          (false, { output := error_pdu 0x10 (u16le (0x10 :: rest) 1) 0x0A ++ output.drop 5,
                    out_size := 5, log := [] }, u16le (0x10 :: rest) 1, u16le (0x10 :: rest) 3)
        else
          (true, { output := output, out_size := output.length, log := [] },
            u16le (0x10 :: rest) 1, u16le (0x10 :: rest) 3)) := by
  have h := check_size_and_handle_range_eq (5 + 2) (5 + 16) srv (0x10 :: rest) output output.length
    [] 0 0 (by decide) (by decide) (by simp) (all_bytes_cons _ _ (by decide) hb) (by omega) (by omega)
  simpa using h

/-- C9: a Read By Group Type request (opcode `0x10`) that passes the size and handle range
check, with `in_size == 21`, or with `in_size == 7` and a group type `u16le(in[5..7])` other
than `0x2800`, is answered with exactly the Error Response `01 10 starting_lo starting_hi 10`
(`unsupported_group_type`). The errors of the check come first: a size other than 7 and 21
gives `invalid_pdu`, `starting == 0` or `starting > ending` gives `invalid_handle`, and
`starting > N` gives `attribute_not_found`, whatever the group type is. -/
theorem read_by_group_type_unsupported (srv : server) (rest output : List Nat)
    (hb : all_bytes rest) (hout : 23 ≤ output.length) :
    ((0x10 :: rest).length ≠ 7 ∧ (0x10 :: rest).length ≠ 21 →
      l2cap_input srv (0x10 :: rest) output
        = .ok { output := error_pdu 0x10 0 0x04 ++ output.drop 5, out_size := 5, log := [] })
    ∧ ((0x10 :: rest).length = 7 ∨ (0x10 :: rest).length = 21 →
        u16le (0x10 :: rest) 1 = 0 ∨ u16le (0x10 :: rest) 1 > u16le (0x10 :: rest) 3 →
      l2cap_input srv (0x10 :: rest) output
        = .ok { output := error_pdu 0x10 (u16le (0x10 :: rest) 1) 0x01 ++ output.drop 5,
                out_size := 5, log := [] })
    ∧ ((0x10 :: rest).length = 7 ∨ (0x10 :: rest).length = 21 →
        1 ≤ u16le (0x10 :: rest) 1 → u16le (0x10 :: rest) 1 ≤ u16le (0x10 :: rest) 3 →
        u16le (0x10 :: rest) 1 > srv.number_of_attributes →
      l2cap_input srv (0x10 :: rest) output
        = .ok { output := error_pdu 0x10 (u16le (0x10 :: rest) 1) 0x0A ++ output.drop 5,
                out_size := 5, log := [] })
    ∧ ((0x10 :: rest).length = 21
          ∨ ((0x10 :: rest).length = 7 ∧ u16le (0x10 :: rest) 5 ≠ 0x2800) →
        1 ≤ u16le (0x10 :: rest) 1 → u16le (0x10 :: rest) 1 ≤ u16le (0x10 :: rest) 3 →
        u16le (0x10 :: rest) 1 ≤ srv.number_of_attributes →
      l2cap_input srv (0x10 :: rest) output
        = .ok { output := error_pdu 0x10 (u16le (0x10 :: rest) 1) 0x10 ++ output.drop 5,
                out_size := 5, log := [] }) := by
  have hchk := read_by_group_type_check srv rest output hb hout
  have hb2 : all_bytes (0x10 :: rest) := all_bytes_cons _ _ (by decide) hb
  refine ⟨?_, ?_, ?_, ?_⟩
  · intro hsz
    rw [l2cap_input_read_by_group_type srv rest output hout]
    simp only [handle_read_by_group_type_request, hchk, bind_ok, if_pos hsz]
    simp
  · intro hsz hr
    have hsz2 : ¬ ((0x10 :: rest).length ≠ 7 ∧ (0x10 :: rest).length ≠ 21) := by omega
    rw [l2cap_input_read_by_group_type srv rest output hout]
    simp only [handle_read_by_group_type_request, hchk, bind_ok, if_neg hsz2, if_pos hr]
    simp
  · intro hsz h1 h2 hN
    have hsz2 : ¬ ((0x10 :: rest).length ≠ 7 ∧ (0x10 :: rest).length ≠ 21) := by omega
    have hr : ¬ (u16le (0x10 :: rest) 1 = 0 ∨ u16le (0x10 :: rest) 1 > u16le (0x10 :: rest) 3) := by
      omega
    rw [l2cap_input_read_by_group_type srv rest output hout]
    simp only [handle_read_by_group_type_request, hchk, bind_ok, if_neg hsz2, if_neg hr, if_pos hN]
    simp
  · intro hty h1 h2 hN
    have hsz2 : ¬ ((0x10 :: rest).length ≠ 7 ∧ (0x10 :: rest).length ≠ 21) := by omega
    have hr : ¬ (u16le (0x10 :: rest) 1 = 0 ∨ u16le (0x10 :: rest) 1 > u16le (0x10 :: rest) 3) := by
      omega
    have hN2 : ¬ (u16le (0x10 :: rest) 1 > srv.number_of_attributes) := by omega
    have h5 : 5 ≤ output.length := by omega
    rw [l2cap_input_read_by_group_type srv rest output hout]
    simp only [handle_read_by_group_type_request, hchk, bind_ok, if_neg hsz2, if_neg hr, if_neg hN2]
    rcases hty with h21 | ⟨h7, hne⟩
    · simp [h21, read_byte_cons, error_response_ok _ _ _ _ _ _ h5 h5,
        att_error_codes.unsupported_group_type]
    · have h21 : ¬ ((0x10 :: rest).length = 5 + 16) := by omega
      have hrd := read_handle_ok (0x10 :: rest) 5 (by omega) hb2
      simp [h21, hrd, hne, gatt_uuids.primary_service, read_byte_cons,
        error_response_ok _ _ _ _ _ _ h5 h5, att_error_codes.unsupported_group_type]

/-- A request for the group type `0x2803` on the three attribute server, `10 01 00 FF FF 03 28`,
is answered with `01 10 01 00 10`. -/
theorem read_by_group_type_unsupported_witness :
    (all_bytes [0x01, 0x00, 0xFF, 0xFF, 0x03, 0x28] ∧ 23 ≤ (buffer 23).length)
    ∧ l2cap_input small_temperature_service [0x10, 0x01, 0x00, 0xFF, 0xFF, 0x03, 0x28] (buffer 23)
      = .ok { output := [0x01, 0x10, 0x01, 0x00, 0x10] ++ (buffer 23).drop 5,
              out_size := 5, log := [] } :=
  ⟨by decide,
   ((read_by_group_type_unsupported small_temperature_service
      [0x01, 0x00, 0xFF, 0xFF, 0x03, 0x28] (buffer 23) (by decide) (by decide)).2.2.2
      (by decide) (by decide) (by decide) (by decide)).trans (by decide)⟩

/-! ### Storing into the output buffer -/

theorem write_bytes_splice (output : List Nat) (pos : Nat) (bytes : List Nat)
    (h : pos + bytes.length ≤ output.length) :
    write_bytes output pos bytes = .ok (splice output pos bytes) := by
  simp [write_bytes, splice, h]

theorem splice_nil (output : List Nat) (pos : Nat) : splice output pos [] = output := by
  simp [splice]

theorem splice_length (output : List Nat) (pos : Nat) (bytes : List Nat)
    (h : pos + bytes.length ≤ output.length) : (splice output pos bytes).length = output.length := by
  simp [splice]
  omega

theorem splice_append (p q t bytes : List Nat) (h : q.length = bytes.length) :
    splice (p ++ (q ++ t)) p.length bytes = p ++ (bytes ++ t) := by
  simp [splice, ← h]

theorem split_at (output : List Nat) (pos n : Nat) (h : pos + n ≤ output.length) :
    ∃ p q t, output = p ++ (q ++ t) ∧ p.length = pos ∧ q.length = n :=
  ⟨output.take pos, (output.drop pos).take n, (output.drop pos).drop n,
    by simp, by simp; omega, by simp; omega⟩

theorem splice_splice (output : List Nat) (pos : Nat) (b1 b2 : List Nat)
    (h : pos + b1.length + b2.length ≤ output.length) :
    splice (splice output pos b1) (pos + b1.length) b2 = splice output pos (b1 ++ b2) := by
  obtain ⟨p, q, t, rfl, hp, hq⟩ := split_at output pos (b1.length + b2.length) (by omega)
  obtain ⟨q1, q2, t2, rfl, hq1, hq2⟩ := split_at q b1.length b2.length (by omega)
  simp only [List.nil_append, List.take_zero, List.length_append] at hq
  have ht2 : t2 = [] := by
    apply List.eq_nil_of_length_eq_zero
    omega
  subst ht2
  subst hp
  have e1 : splice (p ++ (q1 ++ (q2 ++ []) ++ t)) p.length b1 = p ++ (b1 ++ (q2 ++ t)) := by
    have := splice_append p q1 (q2 ++ t) b1 hq1
    simpa using this
  have e2 : splice (p ++ (b1 ++ (q2 ++ t))) (p.length + b1.length) b2 = p ++ (b1 ++ (b2 ++ t)) := by
    have := splice_append (p ++ b1) q2 t b2 hq2
    simpa using this
  have e3 : splice (p ++ (q1 ++ (q2 ++ []) ++ t)) p.length (b1 ++ b2) = p ++ (b1 ++ (b2 ++ t)) := by
    have := splice_append p (q1 ++ q2) t (b1 ++ b2) (by simp [hq1, hq2])
    simpa using this
  rw [e1, e2, e3]

theorem splice_take (output : List Nat) (pos : Nat) (bytes : List Nat) (h : pos ≤ output.length) :
    (splice output pos bytes).take (pos + bytes.length) = output.take pos ++ bytes := by
  have h1 : (output.take pos ++ bytes).length = pos + bytes.length := by simp; omega
  unfold splice
  rw [List.take_append_of_le_length (by omega), List.take_of_length_le (by omega)]

/-! ### The data model -/

theorem attribute_of_handle (srv : server) (h : Nat) (h1 : 1 ≤ h)
    (hN : h ≤ srv.number_of_attributes) : ∃ a, srv.attributes[h - 1]? = some a := by
  have hl : h - 1 < srv.attributes.length := by rw [attributes_length]; omega
  exact ⟨srv.attributes[h - 1], List.getElem?_eq_getElem hl⟩

theorem declaration_of_128_bit (srv : server) (hinv : srv.data_model_invariant) (h : Nat)
    (a : details_attribute) (h1 : 1 ≤ h) (hN : h ≤ srv.number_of_attributes)
    (ha : srv.attributes[h - 1]? = some a) (hu : a.uuid = srv.internal_128bit_uuid) :
    2 ≤ h ∧ ∃ d, srv.attributes[h - 2]? = some d ∧ d.uuid = gatt_uuids.characteristic
      ∧ (d.access 19 1).2.length = 19 := by
  have hi := hinv (h - 1) (by omega)
  unfold server.declaration_ok at hi
  rw [ha] at hi
  simp only [hu, if_true] at hi
  by_cases h0 : h - 1 = 0
  · simp [h0] at hi
  · simp only [h0, if_false] at hi
    have e : h - 1 - 1 = h - 2 := by omega
    rw [e] at hi
    cases hd : srv.attributes[h - 2]? with
    | none => simp [hd] at hi
    | some d =>
      simp [hd] at hi
      exact ⟨by omega, d, rfl, hi.1, hi.2⟩

theorem handles_of_width_nil (srv : server) (only_16_bit : Bool) (starting ending : Nat)
    (h : ¬ (starting ≤ ending ∧ starting ≤ srv.number_of_attributes)) :
    srv.handles_of_width only_16_bit starting ending = [] := by
  have e : min ending srv.number_of_attributes + 1 - starting = 0 := by omega
  simp [server.handles_of_width, e]

theorem handles_of_width_cons (srv : server) (only_16_bit : Bool) (starting ending : Nat)
    (h : starting ≤ ending ∧ starting ≤ srv.number_of_attributes) :
    srv.handles_of_width only_16_bit starting ending
      = if srv.is_16_bit starting = only_16_bit then
          starting :: srv.handles_of_width only_16_bit (starting + 1) ending
        else
          srv.handles_of_width only_16_bit (starting + 1) ending := by
  have e : min ending srv.number_of_attributes + 1 - starting
      = (min ending srv.number_of_attributes + 1 - (starting + 1)) + 1 := by omega
  unfold server.handles_of_width
  rw [e, List.range'_succ, List.filter_cons]
  by_cases hw : srv.is_16_bit starting = only_16_bit
  · simp [hw]
  · simp [hw]

theorem uuid_bytes_length (srv : server) (hinv : srv.data_model_invariant) (h : Nat)
    (h1 : 1 ≤ h) (hN : h ≤ srv.number_of_attributes) :
    (srv.uuid_bytes h).length = tuple_size (srv.is_16_bit h) - 2 := by
  obtain ⟨a, ha⟩ := attribute_of_handle srv h h1 hN
  unfold server.uuid_bytes server.is_16_bit tuple_size
  rw [ha]
  by_cases hu : a.uuid = srv.internal_128bit_uuid
  · obtain ⟨_, d, hd, _, hlen⟩ := declaration_of_128_bit srv hinv h a h1 hN ha hu
    simp [hu, hd, hlen]
  · simp [hu]

theorem handle_uuid_tuple_length (srv : server) (hinv : srv.data_model_invariant) (h : Nat)
    (h1 : 1 ≤ h) (hN : h ≤ srv.number_of_attributes) :
    (srv.handle_uuid_tuple h).length = tuple_size (srv.is_16_bit h) := by
  have := uuid_bytes_length srv hinv h h1 hN
  unfold server.handle_uuid_tuple
  simp only [List.length_append, List.length_cons, List.length_nil, this]
  unfold tuple_size
  split <;> omega

/-! ### The loop of Find Information -/

theorem collect_step_exit (srv : server) (end_ : Nat) (only_16_bit : Bool) (out_end fuel start out : Nat)
    (m : machine)
    (h : ¬ (start ≤ end_ ∧ start ≤ srv.number_of_attributes ∧ out_end - out ≥ tuple_size only_16_bit)) :
    collect_handle_uuid_tuples_loop srv end_ only_16_bit out_end (fuel + 1) start out m
      = .ok (out, m) := by
  have h' : ¬ (start ≤ end_ ∧ start ≤ srv.number_of_attributes
      ∧ out_end - out ≥ if only_16_bit then 2 + 2 else 2 + 16) := by
    cases only_16_bit <;> simpa [tuple_size] using h
  rw [collect_handle_uuid_tuples_loop]
  simp only [h', if_false, pure_eq_ok]

theorem collect_step_skip (srv : server) (end_ : Nat) (only_16_bit : Bool) (out_end fuel start out : Nat)
    (output : List Nat) (out_size : Nat) (log : List event) (a : details_attribute)
    (h : start ≤ end_ ∧ start ≤ srv.number_of_attributes ∧ out_end - out ≥ tuple_size only_16_bit)
    (h1 : 1 ≤ start) (ha : srv.attributes[start - 1]? = some a)
    (hw : ¬ (only_16_bit = decide (a.uuid ≠ srv.internal_128bit_uuid))) :
    collect_handle_uuid_tuples_loop srv end_ only_16_bit out_end (fuel + 1) start out
        { output := output, out_size := out_size, log := log }
      = collect_handle_uuid_tuples_loop srv end_ only_16_bit out_end fuel ((start + 1) % 65536) out
        { output := output, out_size := out_size,
          log := log ++ [event.attribute_at ((start : Int) - 1)] } := by
  have h' : (start ≤ end_ ∧ start ≤ srv.number_of_attributes
      ∧ out_end - out ≥ if only_16_bit then 2 + 2 else 2 + 16) := by
    cases only_16_bit <;> simpa [tuple_size] using h
  rw [collect_handle_uuid_tuples_loop]
  simp only [h', if_true, attribute_at_ok srv _ start a h1 ha, bind_ok, hw, if_false]
  simp
theorem collect_step_emit (srv : server) (hinv : srv.data_model_invariant) (end_ : Nat)
    (only_16_bit : Bool) (out_end fuel start out : Nat)
    (output : List Nat) (out_size : Nat) (log : List event) (a : details_attribute)
    (h : start ≤ end_ ∧ start ≤ srv.number_of_attributes ∧ out_end - out ≥ tuple_size only_16_bit)
    (h1 : 1 ≤ start) (ha : srv.attributes[start - 1]? = some a)
    (hw : only_16_bit = decide (a.uuid ≠ srv.internal_128bit_uuid))
    (ho : out ≤ out_end) (hlen : out_end ≤ output.length) :
    ∃ log', collect_handle_uuid_tuples_loop srv end_ only_16_bit out_end (fuel + 1) start out
        { output := output, out_size := out_size, log := log }
      = collect_handle_uuid_tuples_loop srv end_ only_16_bit out_end fuel ((start + 1) % 65536)
        (out + tuple_size only_16_bit)
        { output := splice output out (srv.handle_uuid_tuple start), out_size := out_size,
          log := log' } := by
  have h' : (start ≤ end_ ∧ start ≤ srv.number_of_attributes
      ∧ out_end - out ≥ if only_16_bit then 2 + 2 else 2 + 16) := by
    cases only_16_bit <;> simpa [tuple_size] using h
  have hts : tuple_size only_16_bit = if only_16_bit then 2 + 2 else 2 + 16 := by
    cases only_16_bit <;> rfl
  rw [collect_handle_uuid_tuples_loop]
  simp only [h', if_true, attribute_at_ok srv _ start a h1 ha, bind_ok]
  by_cases hu : a.uuid = srv.internal_128bit_uuid
  · -- a 128 bit attribute
    obtain ⟨h2, d, hd, hdu, hdl⟩ := declaration_of_128_bit srv hinv start a h1 h.2.1 ha hu
    have hcond := h'
    have hw2 : only_16_bit = false := by simp [hw, hu]
    subst hw2
    have h18 : out_end - out ≥ 18 := by simpa [tuple_size] using h.2.2
    clear h h' hts
    have hidx : (0 : Int) ≤ (start : Int) - 2 := by omega
    have htn : ((start : Int) - 2).toNat = start - 2 := by omega
    have hat : ∀ m : machine, attribute_at srv m ((start : Int) - 2)
        = .ok (d, { m with log := m.log ++ [event.attribute_at ((start : Int) - 2)] }) := by
      intro m
      simp [attribute_at, hidx, htn, hd]
    have hsp : (splice output out [start % 256, start / 256 % 256]).length = output.length :=
      splice_length _ _ _ (by simp; omega)
    have htup : srv.handle_uuid_tuple start
        = [start % 256, start / 256 % 256] ++ ((d.access 19 1).2.drop 3).take 16 := by
      simp [server.handle_uuid_tuple, server.uuid_bytes, ha, hu, hd]
    have hl16 : (((d.access 19 1).2.drop 3).take 16).length = 16 := by simp [hdl]
    refine ⟨?_, ?_⟩
    swap
    simp only [hu, ne_eq, not_true_eq_false, decide_False, if_true, Bool.false_eq_true, if_false,
      write_handle, write_bytes_splice output out [start % 256, start / 256 % 256] (by simp; omega),
      bind_ok, hat, write_128bit_uuid, hdu, throw_eq_error, hdl, pure_eq_ok]
    rw [write_bytes_splice _ (out + 2) _ (by rw [hsp, hl16]; omega)]
    simp only [bind_ok]
    have := splice_splice output out [start % 256, start / 256 % 256]
      (((d.access 19 1).2.drop 3).take 16) (by simp [hdl]; omega)
    simp only [List.length_cons, List.length_nil] at this
    rw [this, htup, if_pos ⟨trivial, trivial, trivial⟩]
    exact rfl
  · -- a 16 bit attribute
    have hw2 : only_16_bit = true := by simp [hw, hu]
    subst hw2
    have h4 : out_end - out ≥ 4 := by simpa [tuple_size] using h.2.2
    clear h h' hts
    have hsp : (splice output out [start % 256, start / 256 % 256]).length = output.length :=
      splice_length _ _ _ (by simp; omega)
    have htup : srv.handle_uuid_tuple start
        = [start % 256, start / 256 % 256] ++ [a.uuid % 256, a.uuid / 256 % 256] := by
      simp [server.handle_uuid_tuple, server.uuid_bytes, ha, hu]
    refine ⟨?_, ?_⟩
    swap
    simp only [hu, ne_eq, not_false_eq_true, decide_True, if_true,
      write_handle, write_bytes_splice output out [start % 256, start / 256 % 256] (by simp; omega),
      bind_ok, write_16bit_uuid]
    rw [write_bytes_splice _ (out + 2) _ (by rw [hsp]; simp; omega)]
    simp only [bind_ok]
    have := splice_splice output out [start % 256, start / 256 % 256]
      [a.uuid % 256, a.uuid / 256 % 256] (by simp; omega)
    simp only [List.length_cons, List.length_nil] at this
    rw [this, htup, if_pos ⟨trivial, trivial, trivial⟩]
    exact rfl
theorem tuple_size_pos (b : Bool) : 0 < tuple_size b := by
  cases b <;> decide

theorem is_16_bit_eq (srv : server) (h : Nat) (a : details_attribute)
    (ha : srv.attributes[h - 1]? = some a) :
    srv.is_16_bit h = decide (a.uuid ≠ srv.internal_128bit_uuid) := by
  simp [server.is_16_bit, ha]

theorem mem_handles_of_width (srv : server) (only_16_bit : Bool) (starting ending h : Nat)
    (hm : h ∈ srv.handles_of_width only_16_bit starting ending) :
    starting ≤ h ∧ h ≤ ending ∧ h ≤ srv.number_of_attributes ∧ srv.is_16_bit h = only_16_bit := by
  unfold server.handles_of_width at hm
  rw [List.mem_filter, List.mem_range'_1] at hm
  obtain ⟨⟨h1, h2⟩, h3⟩ := hm
  refine ⟨h1, by omega, by omega, by simpa using h3⟩

theorem flatMap_length_of_const (f : Nat → List Nat) (n : Nat) :
    ∀ l : List Nat, (∀ h ∈ l, (f h).length = n) → (l.flatMap f).length = n * l.length
  | [], _ => by simp
  | x :: xs, hl => by
    have ih := flatMap_length_of_const f n xs (fun h hh => hl h (List.mem_cons_of_mem _ hh))
    rw [List.flatMap_cons, List.length_append, ih, hl x (List.mem_cons_self _ _), List.length_cons,
      Nat.mul_succ, Nat.add_comm]

theorem tuples_length (srv : server) (hinv : srv.data_model_invariant) (only_16_bit : Bool)
    (starting ending k : Nat) (h1 : 1 ≤ starting) :
    (((srv.handles_of_width only_16_bit starting ending).take k).flatMap
        srv.handle_uuid_tuple).length
      = tuple_size only_16_bit * ((srv.handles_of_width only_16_bit starting ending).take k).length := by
  apply flatMap_length_of_const
  intro h hm
  obtain ⟨ha, _, hc, hd⟩ := mem_handles_of_width srv only_16_bit starting ending h
    (List.mem_of_mem_take hm)
  rw [handle_uuid_tuple_length srv hinv h (by omega) hc, hd]

theorem collect_handle_uuid_tuples_loop_eq (srv : server) (hinv : srv.data_model_invariant)
    (hN : srv.number_of_attributes ≤ 65534) (end_ : Nat) (only_16_bit : Bool) (out_end : Nat) :
    ∀ (fuel start out : Nat) (output : List Nat) (out_size : Nat) (log : List event),
      1 ≤ start → min end_ srv.number_of_attributes + 1 - start < fuel →
      out ≤ out_end → out_end ≤ output.length →
      ∃ log', collect_handle_uuid_tuples_loop srv end_ only_16_bit out_end fuel start out
          { output := output, out_size := out_size, log := log }
        = .ok (out + tuple_size only_16_bit
                * ((srv.handles_of_width only_16_bit start end_).take
                    ((out_end - out) / tuple_size only_16_bit)).length,
               { output := splice output out
                  (((srv.handles_of_width only_16_bit start end_).take
                    ((out_end - out) / tuple_size only_16_bit)).flatMap srv.handle_uuid_tuple),
                 out_size := out_size, log := log' }) := by
  intro fuel
  induction fuel with
  | zero => intro start out output out_size log _ hf; omega
  | succ n ih =>
    intro start out output out_size log h1 hf ho hlen
    have hpos := tuple_size_pos only_16_bit
    by_cases hc : start ≤ end_ ∧ start ≤ srv.number_of_attributes
        ∧ out_end - out ≥ tuple_size only_16_bit
    · obtain ⟨a, ha⟩ := attribute_of_handle srv start h1 hc.2.1
      have hmod : (start + 1) % 65536 = start + 1 := by omega
      have hcons := handles_of_width_cons srv only_16_bit start end_ ⟨hc.1, hc.2.1⟩
      have h16 := is_16_bit_eq srv start a ha
      by_cases hw : only_16_bit = decide (a.uuid ≠ srv.internal_128bit_uuid)
      · obtain ⟨log1, e1⟩ := collect_step_emit srv hinv end_ only_16_bit out_end n start out
          output out_size log a hc h1 ha hw ho hlen
        have htl : (srv.handle_uuid_tuple start).length = tuple_size only_16_bit := by
          rw [handle_uuid_tuple_length srv hinv start h1 hc.2.1, h16, hw]
        obtain ⟨log2, e2⟩ := ih (start + 1) (out + tuple_size only_16_bit)
          (splice output out (srv.handle_uuid_tuple start)) out_size log1 (by omega) (by omega)
          (by omega) (by rw [splice_length _ _ _ (by omega)]; exact hlen)
        refine ⟨log2, ?_⟩
        rw [e1, hmod, e2]
        have hK : (out_end - out) / tuple_size only_16_bit
            = (out_end - (out + tuple_size only_16_bit)) / tuple_size only_16_bit + 1 := by
          have : out_end - out = (out_end - (out + tuple_size only_16_bit)) + tuple_size only_16_bit := by
            omega
          rw [this, Nat.add_div_right _ hpos]
        have hw' : srv.is_16_bit start = only_16_bit := by rw [h16, hw]
        rw [hcons, if_pos hw', hK, List.take_succ_cons, List.flatMap_cons, List.length_cons]
        have hfit : tuple_size only_16_bit
            * ((srv.handles_of_width only_16_bit (start + 1) end_).take
                ((out_end - (out + tuple_size only_16_bit)) / tuple_size only_16_bit)).length
            ≤ out_end - (out + tuple_size only_16_bit) := by
          calc _ ≤ tuple_size only_16_bit
                * ((out_end - (out + tuple_size only_16_bit)) / tuple_size only_16_bit) :=
                Nat.mul_le_mul_left _ (by simp [List.length_take])
            _ ≤ _ := Nat.mul_div_le _ _
        have hs := splice_splice output out (srv.handle_uuid_tuple start)
          (((srv.handles_of_width only_16_bit (start + 1) end_).take
            ((out_end - (out + tuple_size only_16_bit)) / tuple_size only_16_bit)).flatMap
              srv.handle_uuid_tuple)
          (by rw [tuples_length srv hinv only_16_bit (start + 1) end_ _ (by omega), htl]; omega)
        rw [htl] at hs
        rw [hs, Nat.mul_succ]
        congr 2
        omega
      · have e1 := collect_step_skip srv end_ only_16_bit out_end n start out output out_size log a
          hc h1 ha hw
        obtain ⟨log2, e2⟩ := ih (start + 1) out output out_size
          (log ++ [event.attribute_at ((start : Int) - 1)]) (by omega) (by omega) ho hlen
        refine ⟨log2, ?_⟩
        have hw' : ¬ (srv.is_16_bit start = only_16_bit) := by
          rw [h16]
          exact fun h => hw h.symm
        rw [e1, hmod, e2, hcons, if_neg hw']
    · refine ⟨log, ?_⟩
      rw [collect_step_exit srv end_ only_16_bit out_end n start out _ hc]
      have hnil : (srv.handles_of_width only_16_bit start end_).take
          ((out_end - out) / tuple_size only_16_bit) = [] := by
        by_cases hr : start ≤ end_ ∧ start ≤ srv.number_of_attributes
        · have hlt : out_end - out < tuple_size only_16_bit := by
            by_contra hge
            exact hc ⟨hr.1, hr.2, by omega⟩
          rw [Nat.div_eq_of_lt hlt, List.take_zero]
        · rw [handles_of_width_nil srv only_16_bit start end_ hr, List.take_nil]
      rw [hnil]
      simp [splice_nil]

/-! ### Find Information -/

theorem find_information_eq (srv : server) (rest output : List Nat)
    (hinv : srv.data_model_invariant) (hN : srv.number_of_attributes ≤ 65534)
    (hb : all_bytes rest) (hsz : rest.length = 4) (hout : 23 ≤ output.length)
    (h1 : 1 ≤ u16le (0x04 :: rest) 1) (h2 : u16le (0x04 :: rest) 1 ≤ u16le (0x04 :: rest) 3)
    (h3 : u16le (0x04 :: rest) 1 ≤ srv.number_of_attributes) :
    ∃ log, l2cap_input srv (0x04 :: rest) output
      = .ok {
          output := [0x05, uuid_format (srv.is_16_bit (u16le (0x04 :: rest) 1))]
            ++ (srv.find_information_handles (u16le (0x04 :: rest) 1) (u16le (0x04 :: rest) 3)
                  output.length).flatMap srv.handle_uuid_tuple
            ++ output.drop (2 + tuple_size (srv.is_16_bit (u16le (0x04 :: rest) 1))
                * (srv.find_information_handles (u16le (0x04 :: rest) 1) (u16le (0x04 :: rest) 3)
                    output.length).length),
          out_size := 2 + tuple_size (srv.is_16_bit (u16le (0x04 :: rest) 1))
            * (srv.find_information_handles (u16le (0x04 :: rest) 1) (u16le (0x04 :: rest) 3)
                output.length).length,
          log := log } := by
  have hb2 : all_bytes (0x04 :: rest) := all_bytes_cons _ _ (by decide) hb
  have h5 : 5 ≤ output.length := by omega
  have hchk := check_size_and_handle_range_eq 5 5 srv (0x04 :: rest) output output.length [] 0 0
    (by decide) (by decide) (by simp) hb2 h5 h5
  have hs1 : ¬ ((0x04 :: rest).length ≠ 5 ∧ (0x04 :: rest).length ≠ 5) := by simp [hsz]
  have hs2 : ¬ (u16le (0x04 :: rest) 1 = 0 ∨ u16le (0x04 :: rest) 1 > u16le (0x04 :: rest) 3) := by
    omega
  have hs3 : ¬ (u16le (0x04 :: rest) 1 > srv.number_of_attributes) := by omega
  rw [if_neg hs1, if_neg hs2, if_neg hs3] at hchk
  generalize u16le (0x04 :: rest) 1 = s at *
  generalize u16le (0x04 :: rest) 3 = e at *
  obtain ⟨a, ha⟩ := attribute_of_handle srv s h1 h3
  have h16 := is_16_bit_eq srv s a ha
  rw [l2cap_input_find_information srv rest output hout]
  simp only [handle_find_information_request, hchk, bind_ok, Bool.not_true, Bool.false_eq_true,
    if_false, attribute_at_ok srv _ s a h1 ha, ← h16]
  have hne : 0 + 1 ≠ 0 + output.length := by omega
  have hw1 := write_bytes_splice output 0 [att_opcodes.find_information_response] (by simp; omega)
  have hl1 : (splice output 0 [att_opcodes.find_information_response]).length = output.length :=
    splice_length _ _ _ (by simp; omega)
  have hw2 := write_bytes_splice (splice output 0 [att_opcodes.find_information_response]) (0 + 1)
    [if srv.is_16_bit s = true then att_uuid_format.short_16bit else att_uuid_format.long_128bit]
    (by rw [hl1]; simp; omega)
  have hs12 := splice_splice output 0 [att_opcodes.find_information_response]
    [if srv.is_16_bit s = true then att_uuid_format.short_16bit else att_uuid_format.long_128bit]
    (by simp; omega)
  simp only [List.length_cons, List.length_nil] at hs12
  rw [hs12] at hw2
  have hl2 : (splice output 0 ([att_opcodes.find_information_response]
      ++ [if srv.is_16_bit s = true then att_uuid_format.short_16bit
          else att_uuid_format.long_128bit])).length = output.length :=
    splice_length _ _ _ (by simp; omega)
  obtain ⟨log', hloop⟩ := collect_handle_uuid_tuples_loop_eq srv hinv hN e (srv.is_16_bit s)
    (0 + output.length) loop_fuel s (0 + 1 + 1)
    (splice output 0 ([att_opcodes.find_information_response]
      ++ [if srv.is_16_bit s = true then att_uuid_format.short_16bit
          else att_uuid_format.long_128bit]))
    output.length ([] ++ [event.attribute_at ((s : Int) - 1)]) h1
    (by unfold loop_fuel; omega) (by omega) (by rw [hl2]; omega)
  have hH : (srv.handles_of_width (srv.is_16_bit s) s e).take
      ((output.length - 2) / tuple_size (srv.is_16_bit s))
      = srv.find_information_handles s e output.length := rfl
  have hk : 0 + output.length - (0 + 1 + 1) = output.length - 2 := by omega
  rw [hk, hH] at hloop
  have hTlen : ((srv.find_information_handles s e output.length).flatMap
      srv.handle_uuid_tuple).length
      = tuple_size (srv.is_16_bit s) * (srv.find_information_handles s e output.length).length := by
    rw [← hH]
    exact tuples_length srv hinv _ s e _ h1
  have hfit : tuple_size (srv.is_16_bit s)
      * (srv.find_information_handles s e output.length).length ≤ output.length - 2 := by
    rw [← hH]
    calc _ ≤ tuple_size (srv.is_16_bit s) * ((output.length - 2) / tuple_size (srv.is_16_bit s)) :=
          Nat.mul_le_mul_left _ (List.length_take_le _ _)
      _ ≤ _ := Nat.mul_div_le _ _
  generalize srv.find_information_handles s e output.length = H at *
  have hs3 := splice_splice output 0 ([att_opcodes.find_information_response]
      ++ [if srv.is_16_bit s = true then att_uuid_format.short_16bit
          else att_uuid_format.long_128bit])
    (H.flatMap srv.handle_uuid_tuple)
    (by rw [hTlen]; simp; omega)
  simp only [List.length_cons, List.length_nil, List.length_append] at hs3
  have e0 : 0 + (0 + 1 + (0 + 1)) = 0 + 1 + 1 := by omega
  rw [e0] at hs3
  refine ⟨log', ?_⟩
  simp only [pure_eq_ok, bind_ok, hw1, if_pos hne, hw2, collect_handle_uuid_tuples, hloop, hs3]
  simp [splice, att_opcodes.find_information_response, uuid_format, att_uuid_format.short_16bit,
    att_uuid_format.long_128bit, hTlen]
  congr 1
  omega
/-! ### C6: the Find Information response -/

/-- C6: a Find Information request `04 s_lo s_hi e_lo e_hi` that passes the size and handle
range check (`1 ≤ starting ≤ ending`, `starting ≤ N`) is answered with `[0x05][format]`
followed by `(handle, uuid)` tuples, where `format` is `0x02` if attribute `starting` has
`uuid == internal_128bit_uuid` and `0x01` otherwise; `out_size` is the length of this response;
every emitted tuple is the one of an attribute with a handle in `[starting, min(ending, N)]`
whose UUID has the width of attribute `starting`. The server satisfies the invariant of the data
model and has at most 65534 attributes. -/
theorem find_information_emits (srv : server) (rest output : List Nat) (a : details_attribute)
    (hinv : srv.data_model_invariant) (hN : srv.number_of_attributes ≤ 65534)
    (hb : all_bytes rest) (hsz : rest.length = 4) (hout : 23 ≤ output.length)
    (h1 : 1 ≤ u16le (0x04 :: rest) 1) (h2 : u16le (0x04 :: rest) 1 ≤ u16le (0x04 :: rest) 3)
    (ha : srv.attributes[u16le (0x04 :: rest) 1 - 1]? = some a) :
    (∃ log, l2cap_input srv (0x04 :: rest) output
      = .ok {
          output := [0x05, if a.uuid = srv.internal_128bit_uuid then 0x02 else 0x01]
            ++ (srv.find_information_handles (u16le (0x04 :: rest) 1) (u16le (0x04 :: rest) 3)
                  output.length).flatMap srv.handle_uuid_tuple
            ++ output.drop (2 + ((srv.find_information_handles (u16le (0x04 :: rest) 1)
                  (u16le (0x04 :: rest) 3) output.length).flatMap srv.handle_uuid_tuple).length),
          out_size := 2 + ((srv.find_information_handles (u16le (0x04 :: rest) 1)
                  (u16le (0x04 :: rest) 3) output.length).flatMap srv.handle_uuid_tuple).length,
          log := log })
    ∧ ∀ h ∈ srv.find_information_handles (u16le (0x04 :: rest) 1) (u16le (0x04 :: rest) 3)
          output.length,
        u16le (0x04 :: rest) 1 ≤ h ∧ h ≤ min (u16le (0x04 :: rest) 3) srv.number_of_attributes
        ∧ ∃ b, srv.attributes[h - 1]? = some b
            ∧ (b.uuid = srv.internal_128bit_uuid ↔ a.uuid = srv.internal_128bit_uuid)
            ∧ (srv.handle_uuid_tuple h).length
                = (if a.uuid = srv.internal_128bit_uuid then 18 else 4) := by
  have h3 : u16le (0x04 :: rest) 1 ≤ srv.number_of_attributes := by
    have := (List.getElem?_eq_some_iff.mp ha).1
    rw [attributes_length] at this
    omega
  have h16 := is_16_bit_eq srv _ a ha
  constructor
  · obtain ⟨log, hl⟩ := find_information_eq srv rest output hinv hN hb hsz hout h1 h2 h3
    refine ⟨log, ?_⟩
    rw [hl]
    have hT := tuples_length srv hinv (srv.is_16_bit (u16le (0x04 :: rest) 1))
      (u16le (0x04 :: rest) 1) (u16le (0x04 :: rest) 3)
      ((output.length - 2) / tuple_size (srv.is_16_bit (u16le (0x04 :: rest) 1))) h1
    have hfmt : uuid_format (srv.is_16_bit (u16le (0x04 :: rest) 1))
        = if a.uuid = srv.internal_128bit_uuid then 0x02 else 0x01 := by
      rw [h16]
      by_cases hu : a.uuid = srv.internal_128bit_uuid <;> simp [uuid_format, hu]
    unfold server.find_information_handles
    rw [hT, hfmt]
  · intro h hm
    obtain ⟨m1, m2, m3, m4⟩ := mem_handles_of_width srv _ _ _ h (List.mem_of_mem_take hm)
    obtain ⟨b, hb'⟩ := attribute_of_handle srv h (by omega) m3
    refine ⟨m1, by omega, b, hb', ?_, ?_⟩
    · have := is_16_bit_eq srv h b hb'
      rw [this, h16] at m4
      by_cases hu : a.uuid = srv.internal_128bit_uuid <;>
        by_cases hv : b.uuid = srv.internal_128bit_uuid <;> simp [hu, hv] at m4 ⊢
    · rw [handle_uuid_tuple_length srv hinv h (by omega) m3, m4, h16]
      by_cases hu : a.uuid = srv.internal_128bit_uuid <;> simp [tuple_size, hu]

/-- On the three attribute server, where handle 2 is a `0x2803` declaration and handle 3 a 128
bit value, `04 02 00 03 00` is answered with `05 01 02 00 03 28`. -/
theorem find_information_emits_witness :
    (small_temperature_service.data_model_invariant
      ∧ small_temperature_service.number_of_attributes ≤ 65534
      ∧ all_bytes [0x02, 0x00, 0x03, 0x00] ∧ [0x02, 0x00, 0x03, 0x00].length = 4
      ∧ 23 ≤ (buffer 23).length
      ∧ 1 ≤ u16le [0x04, 0x02, 0x00, 0x03, 0x00] 1
      ∧ u16le [0x04, 0x02, 0x00, 0x03, 0x00] 1 ≤ u16le [0x04, 0x02, 0x00, 0x03, 0x00] 3)
    ∧ ∃ log, l2cap_input small_temperature_service [0x04, 0x02, 0x00, 0x03, 0x00] (buffer 23)
        = .ok { output := [0x05, 0x01, 0x02, 0x00, 0x03, 0x28] ++ (buffer 23).drop 6,
                out_size := 6, log := log } :=
  ⟨by decide,
   (find_information_emits small_temperature_service [0x02, 0x00, 0x03, 0x00] (buffer 23)
      { uuid := 0x2803,
        access := fun n h =>
          read_value ([0x02, (h + 1) % 256, (h + 1) / 256 % 256] ++ temperature_service_uuid) n }
      (by decide) (by decide) (by decide) (by decide) (by decide) (by decide) (by decide)
      (by rfl)).1.imp
    (fun log h => h.trans (by
      simp only [Except.ok.injEq, machine.mk.injEq, and_true]
      exact ⟨by decide, by decide⟩))⟩
/-! ### C7: parsing a Find Information response -/

theorem u16le_handle (h : Nat) (hh : h < 65536) (tail : List Nat) :
    u16le ([h % 256, h / 256 % 256] ++ tail) 0 = h := by
  simp [u16le]
  omega

theorem parse_tuples_flatMap (srv : server) (size : Nat) (hs : 2 ≤ size) :
    ∀ (H : List Nat) (n : Nat), H.length ≤ n →
      (∀ h ∈ H, h < 65536 ∧ (srv.handle_uuid_tuple h).length = size) →
      parse_tuples size n (H.flatMap srv.handle_uuid_tuple)
        = H.map (fun h => (h, srv.uuid_bytes h))
  | [], n, _, _ => by
    cases n with
    | zero => rfl
    | succ n =>
      have : (0 : Nat) < size := by omega
      simp [parse_tuples, this]
  | h :: t, n, hn, hall => by
    cases n with
    | zero => simp at hn
    | succ n =>
      obtain ⟨hh, hl⟩ := hall h (List.mem_cons_self _ _)
      have ih := parse_tuples_flatMap srv size hs t n (by simpa using hn)
        (fun x hx => hall x (List.mem_cons_of_mem _ hx))
      have hc : ¬ ((srv.handle_uuid_tuple h ++ t.flatMap srv.handle_uuid_tuple).length < size
          ∨ size < 2) := by
        simp only [List.length_append, hl]
        omega
      have hu : u16le (srv.handle_uuid_tuple h ++ t.flatMap srv.handle_uuid_tuple) 0 = h := by
        unfold server.handle_uuid_tuple
        rw [List.append_assoc]
        exact u16le_handle h hh _
      have htk : (srv.handle_uuid_tuple h ++ t.flatMap srv.handle_uuid_tuple).take size
          = srv.handle_uuid_tuple h := by
        rw [List.take_append_of_le_length (by omega), List.take_of_length_le (by omega)]
      have hdr : (srv.handle_uuid_tuple h ++ t.flatMap srv.handle_uuid_tuple).drop size
          = t.flatMap srv.handle_uuid_tuple := by
        rw [← hl, List.drop_left]
      have hd2 : (srv.handle_uuid_tuple h).drop 2 = srv.uuid_bytes h := by
        simp [server.handle_uuid_tuple]
      rw [List.flatMap_cons, parse_tuples, if_neg hc, hu, htk, hdr, hd2, ih, List.map_cons]

/-- C7, as amended: for every successful Find Information request, parsing the `(handle, uuid)`
tuples of the emitted response reproduces exactly the first `k` attributes, in handle order,
of the subset of the attribute table in the requested handle range whose UUID width matches
the chosen format, each with its own handle and UUID and nothing else, where `k` is the number
of tuples that fit behind the two header bytes, `(capacity - 2) / tuple size`, or the size of the
subset if that is smaller. -/
theorem find_information_round_trip (srv : server) (rest output : List Nat)
    (hinv : srv.data_model_invariant) (hN : srv.number_of_attributes ≤ 65534)
    (hb : all_bytes rest) (hsz : rest.length = 4) (hout : 23 ≤ output.length)
    (h1 : 1 ≤ u16le (0x04 :: rest) 1) (h2 : u16le (0x04 :: rest) 1 ≤ u16le (0x04 :: rest) 3)
    (h3 : u16le (0x04 :: rest) 1 ≤ srv.number_of_attributes) :
    ∃ m, l2cap_input srv (0x04 :: rest) output = .ok m
      ∧ parse_find_information_response (m.output.take m.out_size)
        = ((srv.handles_of_width (srv.is_16_bit (u16le (0x04 :: rest) 1))
              (u16le (0x04 :: rest) 1) (u16le (0x04 :: rest) 3)).take
            ((output.length - 2) / tuple_size (srv.is_16_bit (u16le (0x04 :: rest) 1)))).map
          (fun h => (h, srv.uuid_bytes h)) := by
  obtain ⟨log, hl⟩ := find_information_eq srv rest output hinv hN hb hsz hout h1 h2 h3
  refine ⟨_, hl, ?_⟩
  have hT := tuples_length srv hinv (srv.is_16_bit (u16le (0x04 :: rest) 1))
    (u16le (0x04 :: rest) 1) (u16le (0x04 :: rest) 3)
    ((output.length - 2) / tuple_size (srv.is_16_bit (u16le (0x04 :: rest) 1))) h1
  have hall : ∀ h ∈ (srv.handles_of_width (srv.is_16_bit (u16le (0x04 :: rest) 1))
        (u16le (0x04 :: rest) 1) (u16le (0x04 :: rest) 3)).take
        ((output.length - 2) / tuple_size (srv.is_16_bit (u16le (0x04 :: rest) 1))),
      h < 65536 ∧ (srv.handle_uuid_tuple h).length
        = tuple_size (srv.is_16_bit (u16le (0x04 :: rest) 1)) := by
    intro h hm
    obtain ⟨m1, _, m3, m4⟩ := mem_handles_of_width srv _ _ _ h (List.mem_of_mem_take hm)
    exact ⟨by omega, by rw [handle_uuid_tuple_length srv hinv h (by omega) m3, m4]⟩
  have hpos := tuple_size_pos (srv.is_16_bit (u16le (0x04 :: rest) 1))
  unfold server.find_information_handles at hl ⊢
  generalize (srv.handles_of_width (srv.is_16_bit (u16le (0x04 :: rest) 1))
        (u16le (0x04 :: rest) 1) (u16le (0x04 :: rest) 3)).take
        ((output.length - 2) / tuple_size (srv.is_16_bit (u16le (0x04 :: rest) 1))) = H at *
  have htake : (([0x05, uuid_format (srv.is_16_bit (u16le (0x04 :: rest) 1))]
      ++ H.flatMap srv.handle_uuid_tuple
      ++ output.drop (2 + tuple_size (srv.is_16_bit (u16le (0x04 :: rest) 1)) * H.length)).take
        (2 + tuple_size (srv.is_16_bit (u16le (0x04 :: rest) 1)) * H.length))
      = 0x05 :: uuid_format (srv.is_16_bit (u16le (0x04 :: rest) 1))
          :: H.flatMap srv.handle_uuid_tuple := by
    rw [List.take_append_of_le_length (by simp [hT]; omega),
      List.take_of_length_le (by simp [hT]; omega)]
    rfl
  simp only [htake, parse_find_information_response]
  have hsize : (if uuid_format (srv.is_16_bit (u16le (0x04 :: rest) 1)) = 0x01 then 4 else 18)
      = tuple_size (srv.is_16_bit (u16le (0x04 :: rest) 1)) := by
    cases srv.is_16_bit (u16le (0x04 :: rest) 1) <;> simp [uuid_format, tuple_size]
  rw [hsize]
  apply parse_tuples_flatMap srv _ (by cases srv.is_16_bit (u16le (0x04 :: rest) 1) <;> simp [tuple_size])
  · rw [hT]
    exact Nat.le_mul_of_pos_left _ hpos
  · exact hall

/-- The request `04 01 00 FF FF` on the three attribute server: all three attributes fit. -/
theorem find_information_round_trip_witness :
    (small_temperature_service.data_model_invariant
      ∧ small_temperature_service.number_of_attributes ≤ 65534
      ∧ all_bytes [0x01, 0x00, 0xFF, 0xFF] ∧ [0x01, 0x00, 0xFF, 0xFF].length = 4
      ∧ 23 ≤ (buffer 23).length
      ∧ 1 ≤ u16le [0x04, 0x01, 0x00, 0xFF, 0xFF] 1
      ∧ u16le [0x04, 0x01, 0x00, 0xFF, 0xFF] 1 ≤ u16le [0x04, 0x01, 0x00, 0xFF, 0xFF] 3
      ∧ u16le [0x04, 0x01, 0x00, 0xFF, 0xFF] 1 ≤ small_temperature_service.number_of_attributes)
    ∧ ∃ m, l2cap_input small_temperature_service [0x04, 0x01, 0x00, 0xFF, 0xFF] (buffer 23) = .ok m
        ∧ parse_find_information_response (m.output.take m.out_size)
          = [(1, [0x00, 0x28]), (2, [0x03, 0x28])] :=
  ⟨by decide,
   (find_information_round_trip small_temperature_service [0x01, 0x00, 0xFF, 0xFF] (buffer 23)
      (by decide) (by decide) (by decide) (by decide) (by decide) (by decide) (by decide)
      (by decide)).imp
    (fun _ h => ⟨h.1, h.2.trans (by decide)⟩)⟩

/-- C7 as stated fails: of the seven 16 bit attributes of `three_characteristics_service` the
response to `04 01 00 FF FF` into 23 bytes holds the first five; parsing it does not give the
attributes with the handles 6 and 7. -/
theorem find_information_round_trip_counterexample :
    l2cap_input three_characteristics_service [0x04, 0x01, 0x00, 0xFF, 0xFF] (buffer 23)
      = .ok { output := [0x05, 0x01, 0x01, 0x00, 0x00, 0x28, 0x02, 0x00, 0x03, 0x28, 0x03, 0x00,
                0x1C, 0x2A, 0x04, 0x00, 0x03, 0x28, 0x05, 0x00, 0x1D, 0x2A, 0x00],
              out_size := 22,
              log := [event.attribute_at 0, event.attribute_at 0, event.attribute_at 1,
                event.attribute_at 2, event.attribute_at 3, event.attribute_at 4] }
    ∧ parse_find_information_response
        [0x05, 0x01, 0x01, 0x00, 0x00, 0x28, 0x02, 0x00, 0x03, 0x28, 0x03, 0x00,
          0x1C, 0x2A, 0x04, 0x00, 0x03, 0x28, 0x05, 0x00, 0x1D, 0x2A]
      = [(1, [0x00, 0x28]), (2, [0x03, 0x28]), (3, [0x1C, 0x2A]), (4, [0x03, 0x28]),
          (5, [0x1D, 0x2A])]
    ∧ (three_characteristics_service.handles_of_width
          (three_characteristics_service.is_16_bit 1) 1 0xFFFF).map
        (fun h => (h, three_characteristics_service.uuid_bytes h))
      = [(1, [0x00, 0x28]), (2, [0x03, 0x28]), (3, [0x1C, 0x2A]), (4, [0x03, 0x28]),
          (5, [0x1D, 0x2A]), (6, [0x03, 0x28]), (7, [0x1E, 0x2A])]
    ∧ parse_find_information_response
        [0x05, 0x01, 0x01, 0x00, 0x00, 0x28, 0x02, 0x00, 0x03, 0x28, 0x03, 0x00,
          0x1C, 0x2A, 0x04, 0x00, 0x03, 0x28, 0x05, 0x00, 0x1D, 0x2A]
      ≠ (three_characteristics_service.handles_of_width
          (three_characteristics_service.is_16_bit 1) 1 0xFFFF).map
        (fun h => (h, three_characteristics_service.uuid_bytes h)) := by
  refine ⟨by decide, by decide, by decide, by decide⟩
/-! ### The loop of Read By Group Type -/

theorem service_uuid_bytes_length (u : service_uuid) :
    u.bytes.length = attribute_data_size u.is_128bit - 4 := by
  cases u <;> simp [service_uuid.bytes, service_uuid.is_128bit, attribute_data_size]

theorem service_tuple_length (p : Nat × service) :
    (service_tuple p).length = attribute_data_size p.2.uuid.is_128bit := by
  have := service_uuid_bytes_length p.2.uuid
  unfold service_tuple
  simp only [List.length_append, List.length_cons, List.length_nil, this]
  unfold attribute_data_size
  split <;> omega

theorem read_primary_service_response_eq (svc : service) (output : List Nat) (out_size : Nat)
    (log : List event) (out end_ index : Nat) (w : Bool)
    (h1 : 1 ≤ index) (hn : index + svc.number_of_attributes ≤ 65536)
    (ho : out ≤ end_) (hlen : end_ ≤ output.length) :
    svc.read_primary_service_response { output := output, out_size := out_size, log := log }
        out end_ index w
      = .ok (
        if w = svc.uuid.is_128bit ∧ end_ - out ≥ attribute_data_size w then
          (out + attribute_data_size w,
            { output := splice output out (service_tuple (index, svc)),
              out_size := out_size, log := log })
        else
          (out, { output := output, out_size := out_size, log := log })) := by
  have hsz : (if w = true then 16 + 4 else 2 + 4) = attribute_data_size w := by
    cases w <;> rfl
  have hend : (index + svc.number_of_attributes + 65535) % 65536
      = index + svc.number_of_attributes - 1 := by omega
  unfold service.read_primary_service_response
  simp only [hsz]
  by_cases hc : w = svc.uuid.is_128bit ∧ end_ - out ≥ attribute_data_size w
  · have hl := service_tuple_length (index, svc)
    simp only [] at hl
    rw [← hc.1] at hl
    have hw := write_bytes_splice output out (service_tuple (index, svc)) (by omega)
    unfold service_tuple at hw hl ⊢
    simp only [] at hw hl ⊢
    rw [if_pos hc, if_pos hc, hend, hw]
    rfl
  · rw [if_neg hc, if_neg hc]
    rfl
theorem each_collecting (svc : service) (output : List Nat) (out_size : Nat) (log : List event)
    (out end_ index s e : Nat) (w : Bool)
    (h1 : 1 ≤ index) (hn : index + svc.number_of_attributes ≤ 65535)
    (ho : out ≤ end_) (hlen : end_ ≤ output.length) :
    collect_primary_services.each
        { output_ := out, end_ := end_, index_ := index, starting_handle_ := s,
          ending_handle_ := e, first_ := false, is_128bit_uuid_ := w }
        { output := output, out_size := out_size, log := log } svc
      = .ok (
        if (s ≤ index ∧ index ≤ e) ∧ svc.uuid.is_128bit = w ∧ end_ - out ≥ attribute_data_size w then
          ({ output_ := out + attribute_data_size w, end_ := end_,
             index_ := index + svc.number_of_attributes, starting_handle_ := s,
             ending_handle_ := e, first_ := false, is_128bit_uuid_ := w },
           { output := splice output out (service_tuple (index, svc)),
             out_size := out_size, log := log })
        else
          ({ output_ := out, end_ := end_,
             index_ := index + svc.number_of_attributes, starting_handle_ := s,
             ending_handle_ := e, first_ := false, is_128bit_uuid_ := w },
           { output := output, out_size := out_size, log := log })) := by
  have hmod : (index + svc.number_of_attributes) % 65536 = index + svc.number_of_attributes := by
    omega
  have hr := read_primary_service_response_eq svc output out_size log out end_ index w h1
    (by omega) ho hlen
  unfold collect_primary_services.each
  by_cases hin : s ≤ index ∧ index ≤ e
  · by_cases hc : w = svc.uuid.is_128bit ∧ end_ - out ≥ attribute_data_size w
    · have hc' : (s ≤ index ∧ index ≤ e) ∧ svc.uuid.is_128bit = w
          ∧ end_ - out ≥ attribute_data_size w := ⟨hin, hc.1.symm, hc.2⟩
      rw [if_pos hc] at hr
      simp only [if_pos hin, Bool.false_eq_true, if_false, pure_eq_ok, bind_ok, hr, hmod,
        if_pos hc']
    · have hc' : ¬ ((s ≤ index ∧ index ≤ e) ∧ svc.uuid.is_128bit = w
          ∧ end_ - out ≥ attribute_data_size w) := fun h => hc ⟨h.2.1.symm, h.2.2⟩
      rw [if_neg hc] at hr
      simp only [if_pos hin, Bool.false_eq_true, if_false, pure_eq_ok, bind_ok, hr, hmod,
        if_neg hc']
  · have hc' : ¬ ((s ≤ index ∧ index ≤ e) ∧ svc.uuid.is_128bit = w
        ∧ end_ - out ≥ attribute_data_size w) := fun h => hin h.1
    simp only [if_neg hin, pure_eq_ok, bind_ok, hmod, if_neg hc']

theorem each_first_skip (svc : service) (m : machine) (out end_ index s e : Nat) (w : Bool)
    (hn : index + svc.number_of_attributes ≤ 65535) (hin : ¬ (s ≤ index ∧ index ≤ e)) :
    collect_primary_services.each
        { output_ := out, end_ := end_, index_ := index, starting_handle_ := s,
          ending_handle_ := e, first_ := true, is_128bit_uuid_ := w } m svc
      = .ok ({ output_ := out, end_ := end_,
               index_ := index + svc.number_of_attributes, starting_handle_ := s,
               ending_handle_ := e, first_ := true, is_128bit_uuid_ := w }, m) := by
  have hmod : (index + svc.number_of_attributes) % 65536 = index + svc.number_of_attributes := by
    omega
  unfold collect_primary_services.each
  simp only [if_neg hin, pure_eq_ok, bind_ok, hmod]

theorem each_first (svc : service) (output : List Nat) (out_size : Nat) (log : List event)
    (out end_ index s e : Nat) (w : Bool) (hin : s ≤ index ∧ index ≤ e)
    (hlen : 2 ≤ output.length) :
    collect_primary_services.each
        { output_ := out, end_ := end_, index_ := index, starting_handle_ := s,
          ending_handle_ := e, first_ := true, is_128bit_uuid_ := w }
        { output := output, out_size := out_size, log := log } svc
      = collect_primary_services.each
        { output_ := out, end_ := end_, index_ := index, starting_handle_ := s,
          ending_handle_ := e, first_ := false, is_128bit_uuid_ := svc.uuid.is_128bit }
        { output := splice output 1 [attribute_data_size svc.uuid.is_128bit],
          out_size := out_size, log := log } svc := by
  have hsz : (if svc.uuid.is_128bit = true then 16 + 4 else 2 + 4)
      = attribute_data_size svc.uuid.is_128bit := by
    cases svc.uuid.is_128bit <;> rfl
  have hw := write_bytes_splice output 1 [attribute_data_size svc.uuid.is_128bit] (by simp; omega)
  unfold collect_primary_services.each
  simp only [if_pos hin, if_true, hsz, hw, bind_ok, pure_eq_ok, Bool.false_eq_true, if_false]
theorem attribute_data_size_pos (w : Bool) : 0 < attribute_data_size w := by
  cases w <;> decide

theorem service_tuples_length (w : Bool) :
    ∀ l : List (Nat × service), (∀ p ∈ l, p.2.uuid.is_128bit = w) →
      (l.flatMap service_tuple).length = attribute_data_size w * l.length
  | [], _ => by simp
  | x :: xs, hl => by
    have ih := service_tuples_length w xs (fun p hp => hl p (List.mem_cons_of_mem _ hp))
    rw [List.flatMap_cons, List.length_append, ih, service_tuple_length,
      hl x (List.mem_cons_self _ _), List.length_cons, Nat.mul_succ, Nat.add_comm]

theorem for_each_collecting (s e end_ : Nat) (w : Bool) :
    ∀ (svcs : List service) (index out : Nat) (output : List Nat) (out_size : Nat)
      (log : List event),
      1 ≤ index → index + (svcs.map service.number_of_attributes).sum ≤ 65535 →
      out ≤ end_ → end_ ≤ output.length →
      for_each
          { output_ := out, end_ := end_, index_ := index, starting_handle_ := s,
            ending_handle_ := e, first_ := false, is_128bit_uuid_ := w }
          { output := output, out_size := out_size, log := log } svcs
        = .ok (
          { output_ := out + attribute_data_size w
              * (((service_bases index svcs).filter
                    (fun p => decide (s ≤ p.1 ∧ p.1 ≤ e) && (p.2.uuid.is_128bit == w))).take
                  ((end_ - out) / attribute_data_size w)).length,
            end_ := end_,
            index_ := index + (svcs.map service.number_of_attributes).sum,
            starting_handle_ := s, ending_handle_ := e, first_ := false, is_128bit_uuid_ := w },
          { output := splice output out
              ((((service_bases index svcs).filter
                    (fun p => decide (s ≤ p.1 ∧ p.1 ≤ e) && (p.2.uuid.is_128bit == w))).take
                  ((end_ - out) / attribute_data_size w)).flatMap service_tuple),
            out_size := out_size, log := log })
  | [], index, out, output, out_size, log, _, _, _, _ => by
    simp [for_each, service_bases, splice_nil]
  | svc :: rest, index, out, output, out_size, log, h1, hn, ho, hlen => by
    have hpos := attribute_data_size_pos w
    simp only [List.map_cons, List.sum_cons] at hn
    have hstep := each_collecting svc output out_size log out end_ index s e w h1 (by omega) ho hlen
    rw [for_each, hstep]
    by_cases hc : (s ≤ index ∧ index ≤ e) ∧ svc.uuid.is_128bit = w
        ∧ end_ - out ≥ attribute_data_size w
    · have htl : (service_tuple (index, svc)).length = attribute_data_size w := by
        rw [service_tuple_length]
        simp only [hc.2.1]
      have ih := for_each_collecting s e end_ w rest (index + svc.number_of_attributes)
        (out + attribute_data_size w) (splice output out (service_tuple (index, svc))) out_size log
        (by omega) (by omega) (by omega) (by rw [splice_length _ _ _ (by omega)]; exact hlen)
      have hK : (end_ - out) / attribute_data_size w
          = (end_ - (out + attribute_data_size w)) / attribute_data_size w + 1 := by
        have : end_ - out = (end_ - (out + attribute_data_size w)) + attribute_data_size w := by
          omega
        rw [this, Nat.add_div_right _ hpos]
      have hkeep : (decide (s ≤ index ∧ index ≤ e) && (svc.uuid.is_128bit == w)) = true := by
        simp [hc.1, hc.2.1]
      rw [if_pos hc, bind_ok]
      dsimp only
      have hfil : ((index, svc) :: service_bases (index + svc.number_of_attributes) rest).filter
          (fun p => decide (s ≤ p.1 ∧ p.1 ≤ e) && (p.2.uuid.is_128bit == w))
          = (index, svc) :: (service_bases (index + svc.number_of_attributes) rest).filter
              (fun p => decide (s ≤ p.1 ∧ p.1 ≤ e) && (p.2.uuid.is_128bit == w)) := by
        rw [List.filter_cons]
        simp only [hkeep, if_true]
      rw [ih, service_bases, hfil, hK,
        List.take_succ_cons, List.flatMap_cons, List.length_cons]
      have hfit : attribute_data_size w
          * (((service_bases (index + svc.number_of_attributes) rest).filter
                (fun p => decide (s ≤ p.1 ∧ p.1 ≤ e) && (p.2.uuid.is_128bit == w))).take
              ((end_ - (out + attribute_data_size w)) / attribute_data_size w)).length
          ≤ end_ - (out + attribute_data_size w) := by
        calc _ ≤ attribute_data_size w
              * ((end_ - (out + attribute_data_size w)) / attribute_data_size w) :=
              Nat.mul_le_mul_left _ (List.length_take_le _ _)
          _ ≤ _ := Nat.mul_div_le _ _
      have hrl := service_tuples_length w
        (((service_bases (index + svc.number_of_attributes) rest).filter
            (fun p => decide (s ≤ p.1 ∧ p.1 ≤ e) && (p.2.uuid.is_128bit == w))).take
          ((end_ - (out + attribute_data_size w)) / attribute_data_size w))
        (by
          intro p hp
          have := (List.mem_filter.mp (List.mem_of_mem_take hp)).2
          simp at this
          exact this.2)
      have hs := splice_splice output out (service_tuple (index, svc)) _
        (by rw [hrl, htl]; omega)
      rw [htl] at hs
      rw [hs, Nat.mul_succ]
      simp only [List.map_cons, List.sum_cons]
      congr 3 <;> omega
    · have ih := for_each_collecting s e end_ w rest (index + svc.number_of_attributes)
        out output out_size log (by omega) (by omega) ho hlen
      rw [if_neg hc, bind_ok]
      dsimp only
      rw [ih, service_bases]
      by_cases hkeep : (decide (s ≤ index ∧ index ≤ e) && (svc.uuid.is_128bit == w)) = true
      · have hlt : end_ - out < attribute_data_size w := by
          by_contra hge
          simp at hkeep
          exact hc ⟨hkeep.1, hkeep.2, by omega⟩
        rw [Nat.div_eq_of_lt hlt]
        simp [Nat.add_assoc]
      · have hfil : ((index, svc) :: service_bases (index + svc.number_of_attributes) rest).filter
            (fun p => decide (s ≤ p.1 ∧ p.1 ≤ e) && (p.2.uuid.is_128bit == w))
            = (service_bases (index + svc.number_of_attributes) rest).filter
                (fun p => decide (s ≤ p.1 ∧ p.1 ≤ e) && (p.2.uuid.is_128bit == w)) := by
          rw [List.filter_cons]
          simp only [hkeep, if_false, Bool.false_eq_true]
        rw [hfil]
        simp [Nat.add_assoc]
theorem for_each_first_none (s e end_ out : Nat) :
    ∀ (svcs : List service) (index : Nat) (m : machine),
      index + (svcs.map service.number_of_attributes).sum ≤ 65535 →
      (service_bases index svcs).filter (fun p => decide (s ≤ p.1 ∧ p.1 ≤ e)) = [] →
      for_each
          { output_ := out, end_ := end_, index_ := index, starting_handle_ := s,
            ending_handle_ := e, first_ := true, is_128bit_uuid_ := true } m svcs
        = .ok (
          { output_ := out, end_ := end_,
            index_ := index + (svcs.map service.number_of_attributes).sum,
            starting_handle_ := s, ending_handle_ := e, first_ := true, is_128bit_uuid_ := true },
          m)
  | [], index, m, _, _ => by
    simp [for_each]
  | svc :: rest, index, m, hn, hnil => by
    simp only [List.map_cons, List.sum_cons] at hn
    rw [service_bases, List.filter_cons] at hnil
    by_cases hin : s ≤ index ∧ index ≤ e
    · simp [hin] at hnil
    · simp only [hin, decide_False, Bool.false_eq_true, if_false] at hnil
      have ih := for_each_first_none s e end_ out rest (index + svc.number_of_attributes) m
        (by omega) hnil
      rw [for_each, each_first_skip svc m out end_ index s e true (by omega) hin, bind_ok]
      dsimp only
      rw [ih]
      simp [Nat.add_assoc]

theorem for_each_first_some (s e end_ out : Nat) (ho : out ≤ end_) :
    ∀ (svcs : List service) (index : Nat) (output : List Nat) (out_size : Nat) (log : List event)
      (p : Nat × service) (tl : List (Nat × service)),
      1 ≤ index → index + (svcs.map service.number_of_attributes).sum ≤ 65535 →
      end_ ≤ output.length → 2 ≤ output.length →
      (service_bases index svcs).filter (fun p => decide (s ≤ p.1 ∧ p.1 ≤ e)) = p :: tl →
      for_each
          { output_ := out, end_ := end_, index_ := index, starting_handle_ := s,
            ending_handle_ := e, first_ := true, is_128bit_uuid_ := true }
          { output := output, out_size := out_size, log := log } svcs
        = .ok (
          { output_ := out + attribute_data_size p.2.uuid.is_128bit
              * (((service_bases index svcs).filter
                    (fun q => decide (s ≤ q.1 ∧ q.1 ≤ e)
                      && (q.2.uuid.is_128bit == p.2.uuid.is_128bit))).take
                  ((end_ - out) / attribute_data_size p.2.uuid.is_128bit)).length,
            end_ := end_,
            index_ := index + (svcs.map service.number_of_attributes).sum,
            starting_handle_ := s, ending_handle_ := e, first_ := false,
            is_128bit_uuid_ := p.2.uuid.is_128bit },
          { output := splice (splice output 1 [attribute_data_size p.2.uuid.is_128bit]) out
              ((((service_bases index svcs).filter
                    (fun q => decide (s ≤ q.1 ∧ q.1 ≤ e)
                      && (q.2.uuid.is_128bit == p.2.uuid.is_128bit))).take
                  ((end_ - out) / attribute_data_size p.2.uuid.is_128bit)).flatMap service_tuple),
            out_size := out_size, log := log })
  | [], index, output, out_size, log, p, tl, _, _, _, _, hsel => by
    simp [service_bases] at hsel
  | svc :: rest, index, output, out_size, log, p, tl, h1, hn, hlen, h2, hsel => by
    by_cases hin : s ≤ index ∧ index ≤ e
    · have hp : p = (index, svc) := by
        rw [service_bases, List.filter_cons] at hsel
        simp only [hin, and_self, decide_True, if_true] at hsel
        exact (List.cons.inj hsel).1.symm
      subst hp
      have hcol := for_each_collecting s e end_ svc.uuid.is_128bit (svc :: rest) index out
        (splice output 1 [attribute_data_size svc.uuid.is_128bit]) out_size log h1 hn ho
        (by rw [splice_length _ _ _ (by simp; omega)]; exact hlen)
      rw [for_each] at hcol ⊢
      rw [each_first svc output out_size log out end_ index s e true hin h2]
      exact hcol
    · simp only [List.map_cons, List.sum_cons] at hn
      rw [service_bases, List.filter_cons] at hsel
      simp only [hin, decide_False, Bool.false_eq_true, if_false] at hsel
      have ih := for_each_first_some s e end_ out ho rest (index + svc.number_of_attributes)
        output out_size log p tl (by omega) (by omega) hlen h2 hsel
      have hfil : ((index, svc) :: service_bases (index + svc.number_of_attributes) rest).filter
          (fun q => decide (s ≤ q.1 ∧ q.1 ≤ e) && (q.2.uuid.is_128bit == p.2.uuid.is_128bit))
          = (service_bases (index + svc.number_of_attributes) rest).filter
              (fun q => decide (s ≤ q.1 ∧ q.1 ≤ e)
                && (q.2.uuid.is_128bit == p.2.uuid.is_128bit)) := by
        rw [List.filter_cons]
        simp [hin]
      rw [for_each, each_first_skip svc _ out end_ index s e true (by omega) hin, bind_ok]
      dsimp only
      rw [ih, service_bases, hfil]
      simp [Nat.add_assoc]
theorem services_of_width_filter (w : Bool) (s e : Nat) (l : List (Nat × service)) :
    services_of_width w (l.filter (fun p => decide (s ≤ p.1 ∧ p.1 ≤ e)))
      = l.filter (fun q => decide (s ≤ q.1 ∧ q.1 ≤ e) && (q.2.uuid.is_128bit == w)) := by
  unfold services_of_width
  rw [List.filter_filter]
  congr 1
  funext q
  exact Bool.and_comm _ _

theorem read_by_group_type_eq (srv : server) (rest output : List Nat)
    (hN : srv.number_of_attributes ≤ 65534)
    (hb : all_bytes rest) (hsz : rest.length = 6) (hout : 23 ≤ output.length)
    (h1 : 1 ≤ u16le (0x10 :: rest) 1) (h2 : u16le (0x10 :: rest) 1 ≤ u16le (0x10 :: rest) 3)
    (h3 : u16le (0x10 :: rest) 1 ≤ srv.number_of_attributes)
    (hty : u16le (0x10 :: rest) 5 = 0x2800) :
    (srv.services_starting_in (u16le (0x10 :: rest) 1) (u16le (0x10 :: rest) 3) = [] →
      l2cap_input srv (0x10 :: rest) output
        = .ok { output := error_pdu 0x10 (u16le (0x10 :: rest) 1) 0x0A ++ output.drop 5,
                out_size := 5, log := [] })
    ∧ (∀ p tl, srv.services_starting_in (u16le (0x10 :: rest) 1) (u16le (0x10 :: rest) 3)
          = p :: tl →
      l2cap_input srv (0x10 :: rest) output
        = .ok {
            output := [0x11, attribute_data_size p.2.uuid.is_128bit]
              ++ ((services_of_width p.2.uuid.is_128bit (p :: tl)).take
                    ((output.length - 2) / attribute_data_size p.2.uuid.is_128bit)).flatMap
                  service_tuple
              ++ output.drop (2 + attribute_data_size p.2.uuid.is_128bit
                  * ((services_of_width p.2.uuid.is_128bit (p :: tl)).take
                      ((output.length - 2) / attribute_data_size p.2.uuid.is_128bit)).length),
            out_size := 2 + attribute_data_size p.2.uuid.is_128bit
                  * ((services_of_width p.2.uuid.is_128bit (p :: tl)).take
                      ((output.length - 2) / attribute_data_size p.2.uuid.is_128bit)).length,
            log := [] }
        ∧ 1 ≤ ((services_of_width p.2.uuid.is_128bit (p :: tl)).take
                ((output.length - 2) / attribute_data_size p.2.uuid.is_128bit)).length) := by
  have hchk := read_by_group_type_check srv rest output hb hout
  have hb2 : all_bytes (0x10 :: rest) := all_bytes_cons _ _ (by decide) hb
  have hs1 : ¬ ((0x10 :: rest).length ≠ 7 ∧ (0x10 :: rest).length ≠ 21) := by simp [hsz]
  have hs2 : ¬ (u16le (0x10 :: rest) 1 = 0 ∨ u16le (0x10 :: rest) 1 > u16le (0x10 :: rest) 3) := by
    omega
  have hs3 : ¬ (u16le (0x10 :: rest) 1 > srv.number_of_attributes) := by omega
  rw [if_neg hs1, if_neg hs2, if_neg hs3] at hchk
  have h21 : ¬ ((0x10 :: rest).length = 5 + 16) := by simp [hsz]
  have hrd := read_handle_ok (0x10 :: rest) 5 (by simp [hsz]) hb2
  rw [hty] at hrd
  have h5 : 5 ≤ output.length := by omega
  have hw0 := write_bytes_splice output 0 [att_opcodes.read_by_group_type_response]
    (by simp; omega)
  have hl0 : (splice output 0 [att_opcodes.read_by_group_type_response]).length = output.length :=
    splice_length _ _ _ (by simp; omega)
  generalize u16le (0x10 :: rest) 1 = s at *
  generalize u16le (0x10 :: rest) 3 = e at *
  have hstart : l2cap_input srv (0x10 :: rest) output
      = (do
          let (c, m) ← for_each
            { output_ := 0 + 1 + 1, end_ := 0 + output.length, index_ := 1, starting_handle_ := s,
              ending_handle_ := e, first_ := true, is_128bit_uuid_ := true }
            { output := splice output 0 [att_opcodes.read_by_group_type_response],
              out_size := output.length, log := [] } srv.services
          if c.output_ = 0 + 1 + 1 then do
            let (_, m) ← error_response 0x10 att_error_codes.attribute_not_found s m
            pure m
          else
            pure { m with out_size := c.output_ - 0 }) := by
    rw [l2cap_input_read_by_group_type srv rest output hout]
    simp only [handle_read_by_group_type_request, hchk, bind_ok, Bool.not_true,
      Bool.false_eq_true, if_false, if_neg h21, hrd, pure_eq_ok, gatt_uuids.primary_service,
      ne_eq, not_true_eq_false, decide_False, hw0, read_byte_cons]
  constructor
  · intro hnone
    have hfe := for_each_first_none s e (0 + output.length) (0 + 1 + 1) srv.services 1
      { output := splice output 0 [att_opcodes.read_by_group_type_response],
        out_size := output.length, log := [] }
      (by have : (srv.services.map service.number_of_attributes).sum
            = srv.number_of_attributes := rfl
          omega) hnone
    rw [hstart, hfe]
    simp only [bind_ok, if_true]
    rw [error_response_ok _ _ _ _ _ _ (by omega) (by rw [hl0]; omega)]
    simp [splice, att_error_codes.attribute_not_found]
  · intro p tl hsel
    have hfe := for_each_first_some s e (0 + output.length) (0 + 1 + 1) (by omega) srv.services 1
      (splice output 0 [att_opcodes.read_by_group_type_response]) output.length [] p tl
      (by omega)
      (by have : (srv.services.map service.number_of_attributes).sum
            = srv.number_of_attributes := rfl
          omega)
      (by rw [hl0]; omega) (by rw [hl0]; omega) hsel
    have hE : (service_bases 1 srv.services).filter
        (fun q => decide (s ≤ q.1 ∧ q.1 ≤ e) && (q.2.uuid.is_128bit == p.2.uuid.is_128bit))
        = services_of_width p.2.uuid.is_128bit (p :: tl) := by
      rw [← hsel, server.services_starting_in, services_of_width_filter]
    have hk : 0 + output.length - (0 + 1 + 1) = output.length - 2 := by omega
    rw [hE, hk] at hfe
    have hpos := attribute_data_size_pos p.2.uuid.is_128bit
    have hle20 : attribute_data_size p.2.uuid.is_128bit ≤ 20 := by
      cases p.2.uuid.is_128bit <;> decide
    have hK1 : 1 ≤ (output.length - 2) / attribute_data_size p.2.uuid.is_128bit := by
      rw [Nat.le_div_iff_mul_le hpos]
      omega
    have hhead : services_of_width p.2.uuid.is_128bit (p :: tl)
        = p :: services_of_width p.2.uuid.is_128bit tl := by
      simp [services_of_width]
    have hne : 1 ≤ ((services_of_width p.2.uuid.is_128bit (p :: tl)).take
        ((output.length - 2) / attribute_data_size p.2.uuid.is_128bit)).length := by
      rw [hhead, List.length_take, List.length_cons]
      omega
    have hall : ∀ q ∈ (services_of_width p.2.uuid.is_128bit (p :: tl)).take
        ((output.length - 2) / attribute_data_size p.2.uuid.is_128bit),
        q.2.uuid.is_128bit = p.2.uuid.is_128bit := by
      intro q hq
      have := (List.mem_filter.mp (List.mem_of_mem_take hq)).2
      simpa using this
    have hTl := service_tuples_length p.2.uuid.is_128bit _ hall
    have hfit : attribute_data_size p.2.uuid.is_128bit
        * ((services_of_width p.2.uuid.is_128bit (p :: tl)).take
            ((output.length - 2) / attribute_data_size p.2.uuid.is_128bit)).length
        ≤ output.length - 2 := by
      calc _ ≤ attribute_data_size p.2.uuid.is_128bit
            * ((output.length - 2) / attribute_data_size p.2.uuid.is_128bit) :=
            Nat.mul_le_mul_left _ (List.length_take_le _ _)
        _ ≤ _ := Nat.mul_div_le _ _
    refine ⟨?_, hne⟩
    generalize (services_of_width p.2.uuid.is_128bit (p :: tl)).take
        ((output.length - 2) / attribute_data_size p.2.uuid.is_128bit) = E at *
    have hs12 := splice_splice output 0 [att_opcodes.read_by_group_type_response]
      [attribute_data_size p.2.uuid.is_128bit] (by simp; omega)
    simp only [List.length_cons, List.length_nil] at hs12
    have hs3 := splice_splice output 0 ([att_opcodes.read_by_group_type_response]
        ++ [attribute_data_size p.2.uuid.is_128bit]) (E.flatMap service_tuple)
      (by rw [hTl]; simp; omega)
    simp only [List.length_cons, List.length_nil, List.length_append] at hs3
    have e0 : 0 + (0 + 1 + (0 + 1)) = 0 + 1 + 1 := by omega
    have e1 : 0 + (0 + 1) = 1 := by omega
    rw [e0] at hs3
    rw [e1] at hs12
    have hbegin : ¬ (0 + 1 + 1 + attribute_data_size p.2.uuid.is_128bit * E.length = 0 + 1 + 1) := by
      have : 1 ≤ attribute_data_size p.2.uuid.is_128bit * E.length :=
        Nat.mul_pos hpos hne
      omega
    rw [hstart, hfe]
    simp only [bind_ok, if_neg hbegin, hs12, hs3, pure_eq_ok]
    simp [splice, att_opcodes.read_by_group_type_response, hTl]
    congr 1
    omega
/-! ### C10: the services of a Read By Group Type response -/

/-- C10, as amended: for every valid Read By Group Type request for primary services (type
`0x2800`) with the range `[starting, ending]`, the services that are emitted are those whose
first handle `base` lies in `[starting, ending]` (`base` is 1 plus the attribute counts of the
preceding services) and whose UUID has the width of the first such service, in declaration
order, as far as the output capacity allows: the first `(capacity - 2) / attribute_data_length`
of them. If no service starts in the range, the response is the Error Response
`attribute_not_found`: a service that the range only intersects (`base < starting`) is not
reported. -/
theorem read_by_group_type_services (srv : server) (rest output : List Nat)
    (hN : srv.number_of_attributes ≤ 65534)
    (hb : all_bytes rest) (hsz : rest.length = 6) (hout : 23 ≤ output.length)
    (h1 : 1 ≤ u16le (0x10 :: rest) 1) (h2 : u16le (0x10 :: rest) 1 ≤ u16le (0x10 :: rest) 3)
    (h3 : u16le (0x10 :: rest) 1 ≤ srv.number_of_attributes)
    (hty : u16le (0x10 :: rest) 5 = 0x2800) :
    (∀ p tl,
      (service_bases 1 srv.services).filter
          (fun q => decide (u16le (0x10 :: rest) 1 ≤ q.1 ∧ q.1 ≤ u16le (0x10 :: rest) 3))
        = p :: tl →
      ∃ m, l2cap_input srv (0x10 :: rest) output = .ok m
        ∧ m.output.take m.out_size
          = [0x11, attribute_data_size p.2.uuid.is_128bit]
            ++ (((p :: tl).filter (fun q => q.2.uuid.is_128bit == p.2.uuid.is_128bit)).take
                  ((output.length - 2) / attribute_data_size p.2.uuid.is_128bit)).flatMap
                service_tuple)
    ∧ ((service_bases 1 srv.services).filter
          (fun q => decide (u16le (0x10 :: rest) 1 ≤ q.1 ∧ q.1 ≤ u16le (0x10 :: rest) 3))
        = [] →
      l2cap_input srv (0x10 :: rest) output
        = .ok { output := [0x01, 0x10, u16le (0x10 :: rest) 1 % 256,
                  u16le (0x10 :: rest) 1 / 256 % 256, 0x0A] ++ output.drop 5,
                out_size := 5, log := [] }) := by
  obtain ⟨hnone, hsome⟩ := read_by_group_type_eq srv rest output hN hb hsz hout h1 h2 h3 hty
  constructor
  · intro p tl hsel
    obtain ⟨hl, _⟩ := hsome p tl hsel
    refine ⟨_, hl, ?_⟩
    have hall : ∀ q ∈ (services_of_width p.2.uuid.is_128bit (p :: tl)).take
        ((output.length - 2) / attribute_data_size p.2.uuid.is_128bit),
        q.2.uuid.is_128bit = p.2.uuid.is_128bit := by
      intro q hq
      have := (List.mem_filter.mp (List.mem_of_mem_take hq)).2
      simpa using this
    have hTl := service_tuples_length p.2.uuid.is_128bit _ hall
    have hE : (p :: tl).filter (fun q => q.2.uuid.is_128bit == p.2.uuid.is_128bit)
        = services_of_width p.2.uuid.is_128bit (p :: tl) := rfl
    rw [hE]
    generalize (services_of_width p.2.uuid.is_128bit (p :: tl)).take
        ((output.length - 2) / attribute_data_size p.2.uuid.is_128bit) = E at *
    simp only []
    rw [List.take_append_of_le_length (by simp [hTl]; omega),
      List.take_of_length_le (by simp [hTl]; omega)]
  · intro hsel
    rw [hnone hsel]
    rfl

/-- The three attribute server answers `10 01 00 FF FF 00 28` with the tuple of its one
service, which starts at handle 1 and ends at handle 3. -/
theorem read_by_group_type_services_witness :
    (small_temperature_service.number_of_attributes ≤ 65534
      ∧ all_bytes [0x01, 0x00, 0xFF, 0xFF, 0x00, 0x28]
      ∧ [0x01, 0x00, 0xFF, 0xFF, 0x00, 0x28].length = 6 ∧ 23 ≤ (buffer 23).length
      ∧ 1 ≤ u16le [0x10, 0x01, 0x00, 0xFF, 0xFF, 0x00, 0x28] 1
      ∧ u16le [0x10, 0x01, 0x00, 0xFF, 0xFF, 0x00, 0x28] 1
          ≤ u16le [0x10, 0x01, 0x00, 0xFF, 0xFF, 0x00, 0x28] 3
      ∧ u16le [0x10, 0x01, 0x00, 0xFF, 0xFF, 0x00, 0x28] 1
          ≤ small_temperature_service.number_of_attributes
      ∧ u16le [0x10, 0x01, 0x00, 0xFF, 0xFF, 0x00, 0x28] 5 = 0x2800)
    ∧ ∃ m, l2cap_input small_temperature_service [0x10, 0x01, 0x00, 0xFF, 0xFF, 0x00, 0x28]
          (buffer 23) = .ok m
        ∧ m.output.take m.out_size
          = [0x11, 0x14, 0x01, 0x00, 0x03, 0x00] ++ temperature_service_uuid :=
  ⟨by decide,
   ((read_by_group_type_services small_temperature_service
      [0x01, 0x00, 0xFF, 0xFF, 0x00, 0x28] (buffer 23)
      (by decide) (by decide) (by decide) (by decide) (by decide) (by decide) (by decide)
      (by decide)).1 _ _ rfl).imp
    (fun _ h => ⟨h.1, h.2.trans (by decide)⟩)⟩

/-- C10 as stated fails: the one service of the three attribute server covers the handles
`[1, 3]`, which the range `[2, 0xFFFF]` of the request `10 02 00 FF FF 00 28` intersects, and
the response is the Error Response `01 10 02 00 0A` (`attribute_not_found`), not the service. -/
theorem read_by_group_type_services_counterexample :
    (service_bases 1 small_temperature_service.services).map
        (fun p => (p.1, p.1 + p.2.number_of_attributes - 1)) = [(1, 3)]
    ∧ (u16le [0x10, 0x02, 0x00, 0xFF, 0xFF, 0x00, 0x28] 1 = 2
      ∧ u16le [0x10, 0x02, 0x00, 0xFF, 0xFF, 0x00, 0x28] 3 = 0xFFFF
      ∧ u16le [0x10, 0x02, 0x00, 0xFF, 0xFF, 0x00, 0x28] 5 = 0x2800)
    ∧ (1 < 2 ∧ 2 ≤ 3)
    ∧ l2cap_input small_temperature_service [0x10, 0x02, 0x00, 0xFF, 0xFF, 0x00, 0x28] (buffer 23)
      = .ok { output := [0x01, 0x10, 0x02, 0x00, 0x0A] ++ (buffer 23).drop 5,
              out_size := 5, log := [] } := by
  refine ⟨by decide, by decide, by decide, by decide⟩
/-! ### Every request is answered with one response that fits -/

theorem error_is_response (capacity opcode handle code : Nat) (tail : List Nat) (log : List event)
    (h : 5 ≤ capacity) :
    is_response capacity
      { output := error_pdu opcode handle code ++ tail, out_size := 5, log := log } := by
  simp [is_response, error_pdu, h]

theorem find_information_total (srv : server) (rest output : List Nat)
    (hinv : srv.data_model_invariant) (hN : srv.number_of_attributes ≤ 65534)
    (hb : all_bytes rest) (hout : 23 ≤ output.length) :
    ∃ m, l2cap_input srv (0x04 :: rest) output = .ok m ∧ is_response output.length m := by
  have hb2 : all_bytes (0x04 :: rest) := all_bytes_cons _ _ (by decide) hb
  have h5 : 5 ≤ output.length := by omega
  have hchk := check_size_and_handle_range_eq 5 5 srv (0x04 :: rest) output output.length [] 0 0
    (by decide) (by decide) (by simp) hb2 h5 h5
  by_cases hs1 : (0x04 :: rest).length ≠ 5 ∧ (0x04 :: rest).length ≠ 5
  · rw [if_pos hs1] at hchk
    refine ⟨_, ?_, error_is_response output.length 0x04 0 0x04 (output.drop 5) [] h5⟩
    rw [l2cap_input_find_information srv rest output hout]
    simp [handle_find_information_request, hchk]
  · rw [if_neg hs1] at hchk
    by_cases hs2 : u16le (0x04 :: rest) 1 = 0 ∨ u16le (0x04 :: rest) 1 > u16le (0x04 :: rest) 3
    · rw [if_pos hs2] at hchk
      refine ⟨_, ?_, error_is_response output.length 0x04 (u16le (0x04 :: rest) 1) 0x01
        (output.drop 5) [] h5⟩
      rw [l2cap_input_find_information srv rest output hout]
      simp [handle_find_information_request, hchk]
    · rw [if_neg hs2] at hchk
      by_cases hs3 : u16le (0x04 :: rest) 1 > srv.number_of_attributes
      · rw [if_pos hs3] at hchk
        refine ⟨_, ?_, error_is_response output.length 0x04 (u16le (0x04 :: rest) 1) 0x0A
          (output.drop 5) [] h5⟩
        rw [l2cap_input_find_information srv rest output hout]
        simp [handle_find_information_request, hchk]
      · have hsz : rest.length = 4 := by
          simp at hs1
          omega
        obtain ⟨log, hl⟩ := find_information_eq srv rest output hinv hN hb hsz hout
          (by omega) (by omega) (by omega)
        refine ⟨_, hl, ?_⟩
        have hfit : tuple_size (srv.is_16_bit (u16le (0x04 :: rest) 1))
            * (srv.find_information_handles (u16le (0x04 :: rest) 1) (u16le (0x04 :: rest) 3)
                output.length).length ≤ output.length - 2 := by
          unfold server.find_information_handles
          calc _ ≤ tuple_size (srv.is_16_bit (u16le (0x04 :: rest) 1))
                * ((output.length - 2) / tuple_size (srv.is_16_bit (u16le (0x04 :: rest) 1))) :=
                Nat.mul_le_mul_left _ (List.length_take_le _ _)
            _ ≤ _ := Nat.mul_div_le _ _
        refine ⟨?_, ?_, by simp⟩
        · simp only []
          omega
        · simp only []
          omega

theorem read_total (srv : server) (rest output : List Nat)
    (hspan : ∀ a ∈ srv.attributes, a.respects_span)
    (hb : all_bytes rest) (hout : 23 ≤ output.length) :
    ∃ m, l2cap_input srv (0x0A :: rest) output = .ok m ∧ is_response output.length m := by
  have hb2 : all_bytes (0x0A :: rest) := all_bytes_cons _ _ (by decide) hb
  have h5 : 5 ≤ output.length := by omega
  have hchk := check_size_and_handle_eq 3 3 srv (0x0A :: rest) output output.length [] 0
    (by decide) (by decide) (by simp) hb2 h5 h5
  by_cases hs1 : (0x0A :: rest).length ≠ 3 ∧ (0x0A :: rest).length ≠ 3
  · rw [if_pos hs1] at hchk
    refine ⟨_, ?_, error_is_response output.length 0x0A 0 0x04 (output.drop 5) [] h5⟩
    rw [l2cap_input_read srv rest output hout]
    simp [handle_read_request, hchk]
  · rw [if_neg hs1] at hchk
    by_cases hs2 : u16le (0x0A :: rest) 1 = 0
    · rw [if_pos hs2] at hchk
      refine ⟨_, ?_, error_is_response output.length 0x0A (u16le (0x0A :: rest) 1) 0x01
        (output.drop 5) [] h5⟩
      rw [l2cap_input_read srv rest output hout]
      simp [handle_read_request, hchk]
    · rw [if_neg hs2] at hchk
      by_cases hs3 : u16le (0x0A :: rest) 1 > srv.number_of_attributes
      · rw [if_pos hs3] at hchk
        refine ⟨_, ?_, error_is_response output.length 0x0A (u16le (0x0A :: rest) 1) 0x0A
          (output.drop 5) [] h5⟩
        rw [l2cap_input_read srv rest output hout]
        simp [handle_read_request, hchk]
      · have hsz : rest.length = 2 := by
          simp at hs1
          omega
        match rest, hsz, hb with
        | [lo, hi], _, hb =>
          have hlo : lo < 256 := hb lo (by simp)
          have hhi : hi < 256 := hb hi (by simp)
          rw [u16le_pair] at hs2 hs3
          obtain ⟨a, ha⟩ := attribute_of_handle srv (lo + 256 * hi) (by omega) (by omega)
          have hsp := hspan a (List.getElem?_mem ha) (output.length - 1) (lo + 256 * hi)
          have hl := read_request_eq srv lo hi output a hlo hhi hout (by omega) ha hsp
          refine ⟨_, hl, ?_⟩
          split
          · refine ⟨?_, ?_, by simp⟩
            · simp only []
              omega
            · simp only []
              omega
          · refine ⟨by simp, by simp; omega, by simp⟩
theorem read_by_group_type_total (srv : server) (rest output : List Nat)
    (hN : srv.number_of_attributes ≤ 65534)
    (hb : all_bytes rest) (hout : 23 ≤ output.length) :
    ∃ m, l2cap_input srv (0x10 :: rest) output = .ok m ∧ is_response output.length m := by
  have hb2 : all_bytes (0x10 :: rest) := all_bytes_cons _ _ (by decide) hb
  have h5 : 5 ≤ output.length := by omega
  have hchk := read_by_group_type_check srv rest output hb hout
  by_cases hs1 : (0x10 :: rest).length ≠ 7 ∧ (0x10 :: rest).length ≠ 21
  · rw [if_pos hs1] at hchk
    refine ⟨_, ?_, error_is_response output.length 0x10 0 0x04 (output.drop 5) [] h5⟩
    rw [l2cap_input_read_by_group_type srv rest output hout]
    simp [handle_read_by_group_type_request, hchk]
  · rw [if_neg hs1] at hchk
    by_cases hs2 : u16le (0x10 :: rest) 1 = 0 ∨ u16le (0x10 :: rest) 1 > u16le (0x10 :: rest) 3
    · rw [if_pos hs2] at hchk
      refine ⟨_, ?_, error_is_response output.length 0x10 (u16le (0x10 :: rest) 1) 0x01
        (output.drop 5) [] h5⟩
      rw [l2cap_input_read_by_group_type srv rest output hout]
      simp [handle_read_by_group_type_request, hchk]
    · rw [if_neg hs2] at hchk
      by_cases hs3 : u16le (0x10 :: rest) 1 > srv.number_of_attributes
      · rw [if_pos hs3] at hchk
        refine ⟨_, ?_, error_is_response output.length 0x10 (u16le (0x10 :: rest) 1) 0x0A
          (output.drop 5) [] h5⟩
        rw [l2cap_input_read_by_group_type srv rest output hout]
        simp [handle_read_by_group_type_request, hchk]
      · rw [if_neg hs3] at hchk
        by_cases h21 : (0x10 :: rest).length = 5 + 16
        · refine ⟨_, ?_, error_is_response output.length 0x10 (u16le (0x10 :: rest) 1) 0x10
            (output.drop 5) [] h5⟩
          rw [l2cap_input_read_by_group_type srv rest output hout]
          simp only [handle_read_by_group_type_request, hchk, bind_ok]
          simp [h21, read_byte_cons, error_response_ok _ _ _ _ _ _ h5 h5,
            att_error_codes.unsupported_group_type]
        · have hsz : rest.length = 6 := by
            simp at hs1 h21
            omega
          have hrd := read_handle_ok (0x10 :: rest) 5 (by simp [hsz]) hb2
          by_cases hty : u16le (0x10 :: rest) 5 = 0x2800
          · obtain ⟨hnone, hsome⟩ := read_by_group_type_eq srv rest output hN hb hsz hout
              (by omega) (by omega) (by omega) hty
            cases hsel : srv.services_starting_in (u16le (0x10 :: rest) 1)
                (u16le (0x10 :: rest) 3) with
            | nil =>
              exact ⟨_, hnone hsel, error_is_response output.length 0x10 _ 0x0A _ [] h5⟩
            | cons p tl =>
              obtain ⟨hl, hne⟩ := hsome p tl hsel
              refine ⟨_, hl, ?_⟩
              have hfit : attribute_data_size p.2.uuid.is_128bit
                  * ((services_of_width p.2.uuid.is_128bit (p :: tl)).take
                      ((output.length - 2) / attribute_data_size p.2.uuid.is_128bit)).length
                  ≤ output.length - 2 := by
                calc _ ≤ attribute_data_size p.2.uuid.is_128bit
                      * ((output.length - 2) / attribute_data_size p.2.uuid.is_128bit) :=
                      Nat.mul_le_mul_left _ (List.length_take_le _ _)
                  _ ≤ _ := Nat.mul_div_le _ _
              refine ⟨?_, ?_, by simp⟩
              · simp only []
                omega
              · simp only []
                omega
          · refine ⟨_, ?_, error_is_response output.length 0x10 (u16le (0x10 :: rest) 1) 0x10
              (output.drop 5) [] h5⟩
            rw [l2cap_input_read_by_group_type srv rest output hout]
            simp only [handle_read_by_group_type_request, hchk, bind_ok]
            simp [h21, hrd, hty, gatt_uuids.primary_service, read_byte_cons,
              error_response_ok _ _ _ _ _ _ h5 h5, att_error_codes.unsupported_group_type]
/-! ### The loop of Read By Type stays within the buffer -/

theorem collect_attributes_call_ok (it : collect_attributes) (output : List Nat) (out_size : Nat)
    (log : List event) (handle : Nat) (attr : details_attribute) (hsp : attr.respects_span)
    (hc : it.current_ ≤ it.end_) (hend : it.end_ ≤ output.length) :
    ∃ it' output' log', it.call { output := output, out_size := out_size, log := log } handle attr
        = .ok (it', { output := output', out_size := out_size, log := log' })
      ∧ it'.begin_ = it.begin_ ∧ it'.end_ = it.end_ ∧ it.current_ ≤ it'.current_
      ∧ it'.current_ ≤ it.end_ ∧ output'.length = output.length := by
  obtain ⟨begin_, current_, end_, size_, first_⟩ := it
  simp only [] at hc hend
  unfold collect_attributes.call
  simp only []
  by_cases hroom : end_ - current_ ≥ 2
  · have hlen := hsp (min (end_ - current_) (253 + 2) - 2) handle
    have hacc := access_ok attr output out_size log (current_ + 2)
      (min (end_ - current_) (253 + 2) - 2) handle (by omega)
    simp only [if_pos hroom, hacc, bind_ok]
    generalize attr.access (min (end_ - current_) (253 + 2) - 2) handle = r at *
    have hl1 : (output.take (current_ + 2) ++ r.2 ++ output.drop (current_ + 2 + r.2.length)).length
        = output.length := by
      simp
      omega
    have hmod : r.2.length % 256 = r.2.length := by omega
    have hw := write_bytes_splice
      (output.take (current_ + 2) ++ r.2 ++ output.drop (current_ + 2 + r.2.length))
      current_ [handle % 256, handle / 256 % 256] (by rw [hl1]; simp; omega)
    have hl2 := splice_length
      (output.take (current_ + 2) ++ r.2 ++ output.drop (current_ + 2 + r.2.length))
      current_ [handle % 256, handle / 256 % 256] (by rw [hl1]; simp; omega)
    by_cases hrc : r.1 = attribute_access_result.success
        ∨ (r.1 = attribute_access_result.read_truncated ∧ r.2.length = 253)
    · have hassert : ¬ ¬ r.2.length ≤ 253 := by omega
      simp only [if_pos hrc, if_neg hassert, pure_eq_ok, bind_ok]
      cases first_
      · simp only [Bool.false_eq_true, if_false]
        by_cases hsize : r.2.length + 2 = size_
        · simp only [if_pos hsize, write_handle, hw, bind_ok, hmod]
          exact ⟨_, _, _, rfl, rfl, rfl, by simp only []; omega, by simp only []; omega,
            hl2.trans hl1⟩
        · simp only [if_neg hsize]
          exact ⟨_, _, _, rfl, rfl, rfl, Nat.le_refl _, hc, hl1⟩
      · have hsize : r.2.length + 2 = (r.2.length + 2) % 256 := by omega
        simp only [if_true, if_pos hsize, write_handle, hw, bind_ok, hmod]
        exact ⟨_, _, _, rfl, rfl, rfl, by simp only []; omega, by simp only []; omega,
          hl2.trans hl1⟩
    · simp only [if_neg hrc, pure_eq_ok]
      exact ⟨_, _, _, rfl, rfl, rfl, Nat.le_refl _, hc, hl1⟩
  · simp only [if_neg hroom, pure_eq_ok]
    exact ⟨_, _, _, rfl, rfl, rfl, Nat.le_refl _, hc, rfl⟩
theorem all_attributes_loop_ok (srv : server) (hspan : ∀ a ∈ srv.attributes, a.respects_span)
    (hN : srv.number_of_attributes ≤ 65534) (ending_handle : Nat)
    (filter : Nat → details_attribute → Bool) (out_size : Nat) :
    ∀ (fuel starting_handle : Nat) (it : collect_attributes) (output : List Nat)
      (log : List event),
      1 ≤ starting_handle →
      min ending_handle srv.number_of_attributes + 1 - starting_handle < fuel →
      it.current_ ≤ it.end_ → it.end_ ≤ output.length →
      ∃ it' output' log',
        all_attributes_loop srv ending_handle filter fuel starting_handle it
            { output := output, out_size := out_size, log := log }
          = .ok (it', { output := output', out_size := out_size, log := log' })
        ∧ it'.begin_ = it.begin_ ∧ it'.end_ = it.end_ ∧ it.current_ ≤ it'.current_
        ∧ it'.current_ ≤ it.end_ ∧ output'.length = output.length := by
  intro fuel
  induction fuel with
  | zero => intro _ _ _ _ _ hf; omega
  | succ n ih =>
    intro starting_handle it output log h1 hf hc hend
    rw [all_attributes_loop]
    by_cases hcond : starting_handle ≤ ending_handle ∧ starting_handle ≤ srv.number_of_attributes
    · obtain ⟨a, ha⟩ := attribute_of_handle srv starting_handle h1 hcond.2
      have hmod : (starting_handle + 1) % 65536 = starting_handle + 1 := by omega
      simp only [if_pos hcond, attribute_at_ok srv _ starting_handle a h1 ha, bind_ok, hmod]
      by_cases hfl : filter starting_handle a = true
      · obtain ⟨it1, output1, log1, hcall, hb1, he1, hc1, hc2, hl1⟩ :=
          collect_attributes_call_ok it output out_size
            (log ++ [event.attribute_at ((starting_handle : Int) - 1)]) starting_handle a
            (hspan a (List.getElem?_mem ha)) hc hend
        obtain ⟨it2, output2, log2, hloop, hb2, he2, hc3, hc4, hl2⟩ :=
          ih (starting_handle + 1) it1 output1 log1 (by omega) (by omega) (by omega)
            (by omega)
        simp only [if_pos hfl, hcall, bind_ok, hloop]
        exact ⟨it2, output2, log2, rfl, by omega, by omega, by omega, by omega, by omega⟩
      · obtain ⟨it2, output2, log2, hloop, hb2, he2, hc3, hc4, hl2⟩ :=
          ih (starting_handle + 1) it output
            (log ++ [event.attribute_at ((starting_handle : Int) - 1)]) (by omega) (by omega)
            hc hend
        simp only [if_neg hfl, hloop]
        exact ⟨it2, output2, log2, rfl, hb2, he2, hc3, hc4, hl2⟩
    · simp only [if_neg hcond, pure_eq_ok]
      exact ⟨it, output, log, rfl, rfl, rfl, Nat.le_refl _, hc, rfl⟩

theorem read_by_type_total (srv : server) (rest output : List Nat)
    (hspan : ∀ a ∈ srv.attributes, a.respects_span)
    (hN : srv.number_of_attributes ≤ 65534)
    (hb : all_bytes rest) (hout : 23 ≤ output.length) :
    ∃ m, l2cap_input srv (0x08 :: rest) output = .ok m ∧ is_response output.length m := by
  have hb2 : all_bytes (0x08 :: rest) := all_bytes_cons _ _ (by decide) hb
  have h5 : 5 ≤ output.length := by omega
  have hchk := check_size_and_handle_range_eq (5 + 2) (5 + 16) srv (0x08 :: rest) output
    output.length [] 0 0 (by decide) (by decide) (by simp) hb2 h5 h5
  by_cases hs1 : (0x08 :: rest).length ≠ 5 + 2 ∧ (0x08 :: rest).length ≠ 5 + 16
  · rw [if_pos hs1] at hchk
    refine ⟨_, ?_, error_is_response output.length 0x08 0 0x04 (output.drop 5) [] h5⟩
    rw [l2cap_input_read_by_type srv rest output hout]
    simp [handle_read_by_type_request, hchk]
  · rw [if_neg hs1] at hchk
    by_cases hs2 : u16le (0x08 :: rest) 1 = 0 ∨ u16le (0x08 :: rest) 1 > u16le (0x08 :: rest) 3
    · rw [if_pos hs2] at hchk
      refine ⟨_, ?_, error_is_response output.length 0x08 (u16le (0x08 :: rest) 1) 0x01
        (output.drop 5) [] h5⟩
      rw [l2cap_input_read_by_type srv rest output hout]
      simp [handle_read_by_type_request, hchk]
    · rw [if_neg hs2] at hchk
      by_cases hs3 : u16le (0x08 :: rest) 1 > srv.number_of_attributes
      · rw [if_pos hs3] at hchk
        refine ⟨_, ?_, error_is_response output.length 0x08 (u16le (0x08 :: rest) 1) 0x0A
          (output.drop 5) [] h5⟩
        rw [l2cap_input_read_by_type srv rest output hout]
        simp [handle_read_by_type_request, hchk]
      · rw [if_neg hs3] at hchk
        obtain ⟨it, output1, log1, hloop, hb1, he1, hc1, hc2, hl1⟩ :=
          all_attributes_loop_ok srv hspan hN (u16le (0x08 :: rest) 3)
            (srv.uuid_filter ((0x08 :: rest).drop 5) ((0x08 :: rest).length == 5 + 16))
            output.length loop_fuel (u16le (0x08 :: rest) 1)
            { begin_ := 2, current_ := 2, end_ := output.length, size_ := 0, first_ := true }
            output [] (by omega) (by unfold loop_fuel; omega) (by simp only []; omega)
            (by simp only []; omega)
        simp only [] at hb1 he1 hc1 hc2
        rw [l2cap_input_read_by_type srv rest output hout]
        simp only [handle_read_by_type_request, hchk, bind_ok, Bool.not_true, Bool.false_eq_true,
          if_false, all_attributes, hloop]
        by_cases hempty : it.empty = true
        · simp only [hempty, Bool.not_true, Bool.false_eq_true, if_false, read_byte_cons, bind_ok]
          rw [error_response_ok _ _ _ _ _ _ (by omega) (by omega)]
          exact ⟨_, rfl, error_is_response output.length 0x08 _ 0x0A _ _ h5⟩
        · have hw1 := write_bytes_splice output1 0 [att_opcodes.read_by_type_response]
            (by simp; omega)
          have hl2 := splice_length output1 0 [att_opcodes.read_by_type_response] (by simp; omega)
          have hw2 := write_bytes_splice (splice output1 0 [att_opcodes.read_by_type_response]) 1
            [it.data_size] (by rw [hl2]; simp; omega)
          have hs12 := splice_splice output1 0 [att_opcodes.read_by_type_response] [it.data_size]
            (by simp; omega)
          simp only [List.length_cons, List.length_nil] at hs12
          have e1 : 0 + (0 + 1) = 1 := by omega
          rw [e1] at hs12
          simp only [hempty, Bool.not_false, if_true, hw1, hw2, hs12, bind_ok, pure_eq_ok]
          refine ⟨_, rfl, ?_, ?_, ?_⟩
          · simp only []
            omega
          · simp only [collect_attributes.size]
            have := Nat.mod_le (it.current_ - it.begin_) 256
            omega
          · simp [splice, att_opcodes.read_by_type_response]
/-! ### C2: one response that fits -/

theorem read_value_length (value : List Nat) (buffer_size : Nat) :
    (read_value value buffer_size).2.length ≤ buffer_size := by
  unfold read_value
  split
  · assumption
  · simp [List.length_take]

/-- C2: for every request of at least one byte and every output buffer of `c ≥ 23` bytes, on a
server whose accessors write no more bytes than the span they are given (and that satisfies the
invariant of the data model, with at most 65534 attributes), `l2cap_input` returns, leaves
`out_size` in `[1, c]`, and `output[0]` is one of the response opcodes `0x01`, `0x05`, `0x09`,
`0x0B`, `0x11`. -/
theorem l2cap_input_one_response (srv : server) (input output : List Nat)
    (hin : 1 ≤ input.length) (hb : all_bytes input) (hout : 23 ≤ output.length)
    (hspan : ∀ a ∈ srv.attributes, a.respects_span)
    (hinv : srv.data_model_invariant) (hN : srv.number_of_attributes ≤ 65534) :
    ∃ m, l2cap_input srv input output = .ok m
      ∧ 1 ≤ m.out_size ∧ m.out_size ≤ output.length
      ∧ m.output.getD 0 0 ∈ [0x01, 0x05, 0x09, 0x0B, 0x11] := by
  match input, hin, hb with
  | opcode :: rest, _, hb =>
    have hrest : all_bytes rest := fun b hb' => hb b (List.mem_cons_of_mem _ hb')
    by_cases h4 : opcode = 0x04
    · subst h4
      exact find_information_total srv rest output hinv hN hrest hout
    · by_cases h8 : opcode = 0x08
      · subst h8
        exact read_by_type_total srv rest output hspan hN hrest hout
      · by_cases hA : opcode = 0x0A
        · subst hA
          exact read_total srv rest output hspan hrest hout
        · by_cases h10 : opcode = 0x10
          · subst h10
            exact read_by_group_type_total srv rest output hN hrest hout
          · refine ⟨_, l2cap_input_other srv opcode rest output ⟨h4, h8, hA, h10⟩ hout, ?_⟩
            exact error_is_response output.length opcode 0 0x04 _ [] (by omega)

/-- The Read By Type request `08 01 00 FF FF 03 28` on the three attribute server. -/
theorem l2cap_input_one_response_witness :
    (1 ≤ [0x08, 0x01, 0x00, 0xFF, 0xFF, 0x03, 0x28].length
      ∧ all_bytes [0x08, 0x01, 0x00, 0xFF, 0xFF, 0x03, 0x28]
      ∧ 23 ≤ (buffer 23).length
      ∧ (∀ a ∈ small_temperature_service.attributes, a.respects_span)
      ∧ small_temperature_service.data_model_invariant
      ∧ small_temperature_service.number_of_attributes ≤ 65534)
    ∧ ∃ m, l2cap_input small_temperature_service [0x08, 0x01, 0x00, 0xFF, 0xFF, 0x03, 0x28]
          (buffer 23) = .ok m
        ∧ 1 ≤ m.out_size ∧ m.out_size ≤ (buffer 23).length
        ∧ m.output.getD 0 0 ∈ [0x01, 0x05, 0x09, 0x0B, 0x11] :=
  have hspan : ∀ a ∈ small_temperature_service.attributes, a.respects_span := by
    intro a ha
    simp only [small_temperature_service, server.attributes, List.map_cons, List.map_nil,
      List.flatten_cons, List.flatten_nil, List.append_nil, List.mem_cons, List.mem_singleton,
      List.not_mem_nil, or_false] at ha
    rcases ha with rfl | rfl | rfl <;> exact fun n _ => read_value_length _ n
  ⟨⟨by decide, by decide, by decide, hspan, by decide, by decide⟩,
   l2cap_input_one_response small_temperature_service [0x08, 0x01, 0x00, 0xFF, 0xFF, 0x03, 0x28]
    (buffer 23) (by decide) (by decide) (by decide) hspan (by decide) (by decide)⟩

/-! ### C8: the `out_size` of a Read By Type response -/

set_option maxRecDepth 100000

/-- C8, at an input where the code departs from it. The two values of type `0x2A58` of `long_values_service` are 126 bytes
long. For the request `08 01 00 FF FF 58 2A` and an output buffer of 258 bytes both attributes
are included: `09 80` is followed by two tuples of 128 bytes. `collect_attributes::size()`
returns the 256 bytes of the tuples as a `std::uint8_t`, that is 0, and `out_size` is 2: the
response that is reported holds `09 80` and no tuple. -/
theorem read_by_type_truncated_size :
    l2cap_input long_values_service [0x08, 0x01, 0x00, 0xFF, 0xFF, 0x58, 0x2A] (buffer 258)
      = .ok { output := [0x09, 0x80] ++ ([0x03, 0x00] ++ List.replicate 126 0x55)
                ++ ([0x05, 0x00] ++ List.replicate 126 0x66),
              out_size := 2,
              log := [event.attribute_at 0, event.attribute_at 1, event.attribute_at 2,
                event.access 253 3, event.attribute_at 3, event.attribute_at 4,
                event.access 126 5] } := by
  decide
/-! ### C11: the format of a Read By Group Type response -/

/-- C11: for every valid Read By Group Type request for primary services, if a service starts
in the range the response is successful: `out[0] = 0x11`, `out[1]` (the attribute data length)
is 20 if the first emitted service, the first that starts in the range, has a 128 bit UUID and
6 if it has a 16 bit UUID, and what follows are tuples `[start_handle][end_handle][service
UUID]`, little endian, the first of them the one of that service, each of them `out[1]` bytes
long. When no tuple is written the response is the Error Response `attribute_not_found`
(`0x0A`) echoing `starting`. -/
theorem read_by_group_type_format (srv : server) (rest output : List Nat)
    (hN : srv.number_of_attributes ≤ 65534)
    (hb : all_bytes rest) (hsz : rest.length = 6) (hout : 23 ≤ output.length)
    (h1 : 1 ≤ u16le (0x10 :: rest) 1) (h2 : u16le (0x10 :: rest) 1 ≤ u16le (0x10 :: rest) 3)
    (h3 : u16le (0x10 :: rest) 1 ≤ srv.number_of_attributes)
    (hty : u16le (0x10 :: rest) 5 = 0x2800) :
    (∀ p tl,
      srv.services_starting_in (u16le (0x10 :: rest) 1) (u16le (0x10 :: rest) 3) = p :: tl →
      ∃ m more, l2cap_input srv (0x10 :: rest) output = .ok m
        ∧ m.output.take m.out_size
          = [0x11, if p.2.uuid.is_128bit then 20 else 6]
            ++ (p :: more).flatMap
                (fun q => [q.1 % 256, q.1 / 256 % 256,
                    (q.1 + q.2.number_of_attributes - 1) % 256,
                    (q.1 + q.2.number_of_attributes - 1) / 256 % 256] ++ q.2.uuid.bytes)
        ∧ ∀ q ∈ p :: more,
            ([q.1 % 256, q.1 / 256 % 256,
                (q.1 + q.2.number_of_attributes - 1) % 256,
                (q.1 + q.2.number_of_attributes - 1) / 256 % 256] ++ q.2.uuid.bytes).length
              = (if p.2.uuid.is_128bit then 20 else 6))
    ∧ (srv.services_starting_in (u16le (0x10 :: rest) 1) (u16le (0x10 :: rest) 3) = [] →
      l2cap_input srv (0x10 :: rest) output
        = .ok { output := [0x01, 0x10, u16le (0x10 :: rest) 1 % 256,
                  u16le (0x10 :: rest) 1 / 256 % 256, 0x0A] ++ output.drop 5,
                out_size := 5, log := [] }) := by
  obtain ⟨hnone, hsome⟩ := read_by_group_type_eq srv rest output hN hb hsz hout h1 h2 h3 hty
  constructor
  · intro p tl hsel
    obtain ⟨hl, hne⟩ := hsome p tl hsel
    have hhead : services_of_width p.2.uuid.is_128bit (p :: tl)
        = p :: services_of_width p.2.uuid.is_128bit tl := by
      simp [services_of_width]
    have hpos := attribute_data_size_pos p.2.uuid.is_128bit
    have hK : (output.length - 2) / attribute_data_size p.2.uuid.is_128bit
        = ((output.length - 2) / attribute_data_size p.2.uuid.is_128bit - 1) + 1 := by
      have hle20 : attribute_data_size p.2.uuid.is_128bit ≤ 20 := by
        cases p.2.uuid.is_128bit <;> decide
      have : 1 ≤ (output.length - 2) / attribute_data_size p.2.uuid.is_128bit := by
        rw [Nat.le_div_iff_mul_le hpos]
        omega
      omega
    have hads : attribute_data_size p.2.uuid.is_128bit
        = (if p.2.uuid.is_128bit then 20 else 6) := by
      cases p.2.uuid.is_128bit <;> rfl
    have hall : ∀ q ∈ (services_of_width p.2.uuid.is_128bit (p :: tl)).take
        ((output.length - 2) / attribute_data_size p.2.uuid.is_128bit),
        q.2.uuid.is_128bit = p.2.uuid.is_128bit := by
      intro q hq
      have := (List.mem_filter.mp (List.mem_of_mem_take hq)).2
      simpa using this
    have hTl := service_tuples_length p.2.uuid.is_128bit _ hall
    rw [hhead, hK, List.take_succ_cons] at hall hTl hl
    refine ⟨_, (services_of_width p.2.uuid.is_128bit tl).take
        ((output.length - 2) / attribute_data_size p.2.uuid.is_128bit - 1), hl, ?_, ?_⟩
    · simp only []
      generalize (services_of_width p.2.uuid.is_128bit tl).take
        ((output.length - 2) / attribute_data_size p.2.uuid.is_128bit - 1) = more at *
      have hlen : ([0x11, attribute_data_size p.2.uuid.is_128bit]
          ++ (p :: more).flatMap service_tuple).length
          = 2 + attribute_data_size p.2.uuid.is_128bit * (p :: more).length := by
        simp only [List.length_append, hTl, List.length_cons, List.length_nil]
      rw [List.take_append_of_le_length (by omega), List.take_of_length_le (by omega), hads]
      rfl
    · intro q hq
      have := service_tuple_length q
      rw [hall q hq, hads] at this
      exact this
  · intro hsel
    rw [hnone hsel]
    rfl

/-- The three attribute server, whose one service has a 128 bit UUID, answers
`10 01 00 FF FF 00 28` with `11 14 01 00 03 00` and the 16 bytes of the UUID. -/
theorem read_by_group_type_format_witness :
    (small_temperature_service.number_of_attributes ≤ 65534
      ∧ all_bytes [0x01, 0x00, 0xFF, 0xFF, 0x00, 0x28]
      ∧ [0x01, 0x00, 0xFF, 0xFF, 0x00, 0x28].length = 6 ∧ 23 ≤ (buffer 23).length
      ∧ 1 ≤ u16le [0x10, 0x01, 0x00, 0xFF, 0xFF, 0x00, 0x28] 1
      ∧ u16le [0x10, 0x01, 0x00, 0xFF, 0xFF, 0x00, 0x28] 1
          ≤ u16le [0x10, 0x01, 0x00, 0xFF, 0xFF, 0x00, 0x28] 3
      ∧ u16le [0x10, 0x01, 0x00, 0xFF, 0xFF, 0x00, 0x28] 1
          ≤ small_temperature_service.number_of_attributes
      ∧ u16le [0x10, 0x01, 0x00, 0xFF, 0xFF, 0x00, 0x28] 5 = 0x2800)
    ∧ (∃ m, l2cap_input small_temperature_service [0x10, 0x01, 0x00, 0xFF, 0xFF, 0x00, 0x28]
          (buffer 23) = .ok m
        ∧ (m.output.take m.out_size).take 6 = [0x11, 0x14, 0x01, 0x00, 0x03, 0x00]
        ∧ (m.output.take m.out_size).drop 6
            = [0xA9, 0x3C, 0xC7, 0x5B, 0xED, 0x4E, 0x8A, 0xA2, 0x9F, 0x49, 0xE2, 0x0D, 0x94,
                0x40, 0x8B, 0x8C]) :=
  ⟨by decide,
   match (read_by_group_type_format small_temperature_service
      [0x01, 0x00, 0xFF, 0xFF, 0x00, 0x28] (buffer 23)
      (by decide) (by decide) (by decide) (by decide) (by decide) (by decide) (by decide)
      (by decide)).1 _ _ rfl with
   | ⟨m, _, hm, _, _⟩ => ⟨m, hm, by
      have hd : l2cap_input small_temperature_service [0x10, 0x01, 0x00, 0xFF, 0xFF, 0x00, 0x28]
          (buffer 23) = .ok { output := [0x11, 0x14, 0x01, 0x00, 0x03, 0x00]
            ++ temperature_service_uuid ++ [0], out_size := 22, log := [] } := by decide
      have := hm.symm.trans hd
      simp only [Except.ok.injEq] at this
      subst this
      exact ⟨by decide, by decide⟩⟩⟩
/-! ### C12, C13, C14: Read Blob requests -/

/-- C12, at the inputs of the tests `no_such_handle` and `invalid_handle`, where the code
departs from it: `l2cap_input` has no case for the opcode `0x0C`, so the well-sized Read Blob
requests for the handles `0xAA17`, `0x0004` and `0x0000` on the three attribute server are
answered by the default branch with `01 0C 00 00 04` (`invalid_pdu`), not with
`attribute_not_found` or `invalid_handle`. -/
theorem read_blob_handle_errors_unhandled :
    l2cap_input small_temperature_service [0x0C, 0x17, 0xAA, 0x00, 0x00] (buffer 23)
      = .ok { output := [0x01, 0x0C, 0x00, 0x00, 0x04] ++ (buffer 23).drop 5,
              out_size := 5, log := [] }
    ∧ l2cap_input small_temperature_service [0x0C, 0x04, 0x00, 0x00, 0x00] (buffer 23)
      = .ok { output := [0x01, 0x0C, 0x00, 0x00, 0x04] ++ (buffer 23).drop 5,
              out_size := 5, log := [] }
    ∧ l2cap_input small_temperature_service [0x0C, 0x00, 0x00, 0x00, 0x00] (buffer 23)
      = .ok { output := [0x01, 0x0C, 0x00, 0x00, 0x04] ++ (buffer 23).drop 5,
              out_size := 5, log := [] } := by
  refine ⟨by decide, by decide, by decide⟩

/-- C13, at the inputs of the tests `not_readable` and `read_behind_end`, where the code departs
from it: the Read Blob request for the unreadable value at handle 3 and the one with offset 5
into the four byte value at handle 3 are both answered with `01 0C 00 00 04` (`invalid_pdu`);
no attribute is looked up, and neither `read_not_permitted` nor `invalid_offset` is sent. -/
theorem read_blob_access_errors_unhandled :
    l2cap_input unreadable_blob_server [0x0C, 0x03, 0x00, 0x00, 0x00] (buffer 23)
      = .ok { output := [0x01, 0x0C, 0x00, 0x00, 0x04] ++ (buffer 23).drop 5,
              out_size := 5, log := [] }
    ∧ l2cap_input small_temperature_service [0x0C, 0x03, 0x00, 0x05, 0x00] (buffer 23)
      = .ok { output := [0x01, 0x0C, 0x00, 0x00, 0x04] ++ (buffer 23).drop 5,
              out_size := 5, log := [] } := by
  refine ⟨by decide, by decide⟩

/-- C14, at the inputs of the tests `read_starting_at_0`, `read_starting_at_10` and
`read_starting_at_50`, where the code departs from it: the Read Blob requests for the 50 byte
value at handle 3 of `blob_server` with the offsets 0, 10 and 50 are answered with
`01 0C 00 00 04` (`invalid_pdu`); no response starts with `0x0D` and no byte of the value is
sent. -/
theorem read_blob_value_unhandled :
    l2cap_input blob_server [0x0C, 0x03, 0x00, 0x00, 0x00] (buffer 23)
      = .ok { output := [0x01, 0x0C, 0x00, 0x00, 0x04] ++ (buffer 23).drop 5,
              out_size := 5, log := [] }
    ∧ l2cap_input blob_server [0x0C, 0x03, 0x00, 0x0A, 0x00] (buffer 23)
      = .ok { output := [0x01, 0x0C, 0x00, 0x00, 0x04] ++ (buffer 23).drop 5,
              out_size := 5, log := [] }
    ∧ l2cap_input blob_server [0x0C, 0x03, 0x00, 0x32, 0x00] (buffer 23)
      = .ok { output := [0x01, 0x0C, 0x00, 0x00, 0x04] ++ (buffer 23).drop 5,
              out_size := 5, log := [] } := by
  refine ⟨by decide, by decide, by decide⟩
/-! ### The link layer: advertising -/

theorem timeout_of_channel_39 (o : link_layer_options) (ll : link_layer)
    (hs : ll.state_ = link_layer_state.advertising) (hc : ll.current_advertising_channel_ = 39)
    (hp : ll.adv_perturbation_ < 11) :
    link_layer.timeout o ll = .ok
      ({ ll with current_advertising_channel_ := 37
                 adv_perturbation_ := (ll.adv_perturbation_ + 7) % 11 },
       [radio_call.schedule_transmit_and_receive 37
          { buffer := buffer_name.adv_buffer_, size := ll.adv_size_ }
          (o.adv_interval.add (delta_time.msec ((ll.adv_perturbation_ + 7) % 11)))
          { buffer := buffer_name.receive_buffer_, size := 40 }]) := by
  have h1 : (ll.adv_perturbation_ + 7) % 4294967296 = ll.adv_perturbation_ + 7 :=
    Nat.mod_eq_of_lt (by omega)
  simp [link_layer.timeout, link_layer.next_adv_event, hs, hc, h1,
    link_layer.last_advertising_channel, link_layer.first_advertising_channel,
    link_layer.max_adv_perturbation_]

theorem timeout_of_channel_below (o : link_layer_options) (ll : link_layer)
    (hs : ll.state_ = link_layer_state.advertising)
    (hc : ll.current_advertising_channel_ = 37 ∨ ll.current_advertising_channel_ = 38) :
    link_layer.timeout o ll = .ok
      ({ ll with current_advertising_channel_ := ll.current_advertising_channel_ + 1 },
       [radio_call.schedule_transmit_and_receive (ll.current_advertising_channel_ + 1)
          { buffer := buffer_name.adv_buffer_, size := ll.adv_size_ }
          delta_time.now
          { buffer := buffer_name.receive_buffer_, size := 40 }]) := by
  rcases hc with hc | hc <;>
  simp [link_layer.timeout, hs, hc,
    link_layer.last_advertising_channel, link_layer.first_advertising_channel]

/-- The state after `n` timeouts that follow `run`. -/
theorem timeouts_state (o : link_layer_options) (s : link_layer)
    (hs : s.state_ = link_layer_state.advertising) (hc : s.current_advertising_channel_ = 37)
    (hp : s.adv_perturbation_ < 11) (n : Nat) :
    ∃ calls, link_layer.timeouts o n s = .ok
      ({ s with current_advertising_channel_ := 37 + n % 3
                adv_perturbation_ := (s.adv_perturbation_ + 7 * (n / 3)) % 11 }, calls) := by
  induction n with
  | zero =>
    refine ⟨[], ?_⟩
    have h1 : (s.adv_perturbation_ + 7 * (0 / 3)) % 11 = s.adv_perturbation_ := by
      simp; omega
    cases s
    simp only [link_layer.timeouts] at *
    subst hc
    simp [h1]
    omega
  | succ n ih =>
    obtain ⟨calls, ih⟩ := ih
    simp only [link_layer.timeouts, ih, bind, Except.bind]
    have h3 : n % 3 = 0 ∨ n % 3 = 1 ∨ n % 3 = 2 := by omega
    rcases h3 with h3 | h3 | h3
    · have e1 : (n + 1) % 3 = 1 := by omega
      have e2 : (n + 1) / 3 = n / 3 := by omega
      rw [timeout_of_channel_below o
        { s with current_advertising_channel_ := 37 + n % 3,
                 adv_perturbation_ := (s.adv_perturbation_ + 7 * (n / 3)) % 11 } hs (by simp [h3])]
      simp [h3, e1, e2]
    · have e1 : (n + 1) % 3 = 2 := by omega
      have e2 : (n + 1) / 3 = n / 3 := by omega
      rw [timeout_of_channel_below o
        { s with current_advertising_channel_ := 37 + n % 3,
                 adv_perturbation_ := (s.adv_perturbation_ + 7 * (n / 3)) % 11 } hs (by simp [h3])]
      simp [h3, e1, e2]
    · have e1 : (n + 1) % 3 = 0 := by omega
      have e2 : (n + 1) / 3 = n / 3 + 1 := by omega
      rw [timeout_of_channel_39 o
        { s with current_advertising_channel_ := 37 + n % 3,
                 adv_perturbation_ := (s.adv_perturbation_ + 7 * (n / 3)) % 11 } hs (by simp [h3]) (Nat.mod_lt _ (by decide))]
      have e3 : ((s.adv_perturbation_ + 7 * (n / 3)) % 11 + 7) % 11
          = (s.adv_perturbation_ + 7 * (n / 3 + 1)) % 11 := by omega
      simp [e1, e2, e3]

/-- The calls of the timeout number `n + 1` after `run`. -/
theorem timeouts_calls (o : link_layer_options) (s : link_layer)
    (hs : s.state_ = link_layer_state.advertising) (hc : s.current_advertising_channel_ = 37)
    (hp : s.adv_perturbation_ < 11) (n : Nat) :
    link_layer.timeouts o (n + 1) s = .ok
      ({ s with current_advertising_channel_ := 37 + (n + 1) % 3
                adv_perturbation_ := (s.adv_perturbation_ + 7 * ((n + 1) / 3)) % 11 },
       [radio_call.schedule_transmit_and_receive (37 + (n + 1) % 3)
          { buffer := buffer_name.adv_buffer_, size := s.adv_size_ }
          (if (n + 1) % 3 = 0 then
            o.adv_interval.add
              (delta_time.msec ((s.adv_perturbation_ + 7 * ((n + 1) / 3)) % 11))
           else delta_time.now)
          { buffer := buffer_name.receive_buffer_, size := 40 }]) := by
  obtain ⟨calls, ih⟩ := timeouts_state o s hs hc hp n
  simp only [link_layer.timeouts, ih, bind, Except.bind]
  have h3 : n % 3 = 0 ∨ n % 3 = 1 ∨ n % 3 = 2 := by omega
  rcases h3 with h3 | h3 | h3
  · have e1 : (n + 1) % 3 = 1 := by omega
    have e2 : (n + 1) / 3 = n / 3 := by omega
    rw [timeout_of_channel_below o
        { s with current_advertising_channel_ := 37 + n % 3,
                 adv_perturbation_ := (s.adv_perturbation_ + 7 * (n / 3)) % 11 } hs (by simp [h3])]
    simp [h3, e1, e2]
  · have e1 : (n + 1) % 3 = 2 := by omega
    have e2 : (n + 1) / 3 = n / 3 := by omega
    rw [timeout_of_channel_below o
        { s with current_advertising_channel_ := 37 + n % 3,
                 adv_perturbation_ := (s.adv_perturbation_ + 7 * (n / 3)) % 11 } hs (by simp [h3])]
    simp [h3, e1, e2]
  · have e1 : (n + 1) % 3 = 0 := by omega
    have e2 : (n + 1) / 3 = n / 3 + 1 := by omega
    rw [timeout_of_channel_39 o
        { s with current_advertising_channel_ := 37 + n % 3,
                 adv_perturbation_ := (s.adv_perturbation_ + 7 * (n / 3)) % 11 } hs (by simp [h3]) (Nat.mod_lt _ (by decide))]
    have e3 : ((s.adv_perturbation_ + 7 * (n / 3)) % 11 + 7) % 11
        = (s.adv_perturbation_ + 7 * (n / 3 + 1)) % 11 := by omega
    simp [e1, e2, e3]

theorem write_bytes_total (output : List Nat) (pos : Nat) (bytes : List Nat)
    (h : pos + bytes.length ≤ output.length) :
    ∃ b, write_bytes output pos bytes = .ok b ∧ b.length = output.length :=
  ⟨_, write_bytes_splice output pos bytes h, splice_length output pos bytes h⟩

/-- The advertising data fit into the buffer they are given: `advertising_data` returns, keeps
the size of the memory, and reports at most `buffer_size` bytes. -/
theorem advertising_data_ok (srv : server) (buffer : List Nat) (begin_ buffer_size : Nat)
    (h : begin_ + buffer_size ≤ buffer.length) :
    ∃ b n, srv.advertising_data buffer begin_ buffer_size = .ok (b, n)
      ∧ b.length = buffer.length ∧ n ≤ buffer_size := by
  unfold server.advertising_data
  by_cases h3 : buffer_size ≥ 3
  · obtain ⟨b1, hb1, hl1⟩ := write_bytes_total buffer begin_ [2, gap_types.flags, 6]
      (by simp; omega)
    simp only [h3, if_true, hb1, bind, Except.bind, pure, Except.pure]
    cases hn : srv.name with
    | none => exact ⟨_, _, rfl, hl1, by omega⟩
    | some name =>
      simp only []
      by_cases h2 : begin_ + buffer_size - (begin_ + 3) > 2
      · simp only [h2, if_true]
        by_cases h0 : name.length > 0
        · simp only [h0, if_true]
          obtain ⟨b2, hb2, hl2⟩ := write_bytes_total b1 (begin_ + 3)
            [(min name.length (begin_ + buffer_size - (begin_ + 3) - 2) + 1) % 256,
              if min name.length (begin_ + buffer_size - (begin_ + 3) - 2) = name.length
              then gap_types.complete_local_name else gap_types.shortened_local_name]
            (by simp; omega)
          obtain ⟨b3, hb3, hl3⟩ := write_bytes_total b2 (begin_ + 3 + 2)
            (name.take (min name.length (begin_ + buffer_size - (begin_ + 3) - 2)))
            (by simp; omega)
          simp only [hb2, hb3]
          exact ⟨_, _, rfl, by omega, by omega⟩
        · simp only [h0, if_false]
          exact ⟨_, _, rfl, hl1, by omega⟩
      · simp only [h2, if_false]
        exact ⟨_, _, rfl, hl1, by omega⟩
  · simp only [h3, if_false, bind, Except.bind, pure, Except.pure]
    cases hn : srv.name with
    | none => exact ⟨_, _, rfl, rfl, by omega⟩
    | some name =>
      simp only []
      by_cases h2 : begin_ + buffer_size - begin_ > 2
      · omega
      · simp only [h2, if_false]
        exact ⟨_, _, rfl, rfl, by omega⟩

theorem fill_advertising_buffer_ok (o : link_layer_options) (srv : server) (ll : link_layer)
    (hw : ll.adv_buffer_.length = 39) (ha : ll.address_.length = 6) :
    ∃ b n, link_layer.fill_advertising_buffer o srv ll
        = .ok { ll with adv_buffer_ := b, adv_size_ := n } ∧ b.length = 39 := by
  obtain ⟨a1, ha1, hl1⟩ := write_bytes_total ll.adv_buffer_ 0 [link_layer.adv_ind_pdu_type_code]
    (by simp; omega)
  have tail : ∀ a2 : List Nat, a2.length = 39 →
      ∃ b n, (do
        let (adv_buffer_, size) ← srv.advertising_data a2
          (link_layer.advertising_pdu_header_size + link_layer.address_length)
          link_layer.max_advertising_data_size
        let adv_buffer_ ← write_bytes adv_buffer_ 1 [(link_layer.address_length + size) % 256]
        let adv_buffer_ ← write_bytes adv_buffer_ 2 ll.address_
        (pure { ll with
          adv_buffer_ := adv_buffer_
          adv_size_ := link_layer.advertising_pdu_header_size + adv_buffer_.getD 1 0 }
          : Except fault link_layer))
        = .ok { ll with adv_buffer_ := b, adv_size_ := n } ∧ b.length = 39 := by
    intro a2 hl2
    obtain ⟨a3, n, ha3, hl3, _⟩ := advertising_data_ok srv a2
      (link_layer.advertising_pdu_header_size + link_layer.address_length)
      link_layer.max_advertising_data_size
      (by simp [link_layer.advertising_pdu_header_size, link_layer.address_length,
            link_layer.max_advertising_data_size]; omega)
    obtain ⟨a4, ha4, hl4⟩ := write_bytes_total a3 1 [(link_layer.address_length + n) % 256]
      (by simp; omega)
    obtain ⟨a5, ha5, hl5⟩ := write_bytes_total a4 2 ll.address_ (by omega)
    simp only [ha3, ha4, ha5, bind, Except.bind, pure, Except.pure]
    exact ⟨_, _, rfl, by omega⟩
  unfold link_layer.fill_advertising_buffer
  simp only [ha1, bind, Except.bind, pure, Except.pure] at tail ⊢
  by_cases hr : o.is_random = true
  · obtain ⟨a2, ha2, hl2⟩ := write_bytes_total a1 0
      [a1.getD 0 0 ||| link_layer.header_txaddr_field] (by simp; omega)
    simp only [hr, if_true, ha2]
    exact tail a2 (by omega)
  · simp only [hr]
    exact tail a1 (by omega)

theorem fill_advertising_response_buffer_ok (o : link_layer_options) (ll : link_layer)
    (hw : ll.adv_response_buffer_.length = 39) (ha : ll.address_.length = 6) :
    ∃ b n, link_layer.fill_advertising_response_buffer o ll
        = .ok { ll with adv_response_buffer_ := b, adv_response_size_ := n } ∧ b.length = 39 := by
  obtain ⟨r1, hr1, hm1⟩ := write_bytes_total ll.adv_response_buffer_ 0
    [link_layer.scan_response_pdu_type_code] (by simp; omega)
  have tail : ∀ r2 : List Nat, r2.length = 39 →
      ∃ b n, (do
        let buffer ← write_bytes r2 1 [link_layer.address_length]
        let buffer ← write_bytes buffer 2 ll.address_
        (pure { ll with
          adv_response_buffer_ := buffer
          adv_response_size_ := link_layer.advertising_pdu_header_size + buffer.getD 1 0 }
          : Except fault link_layer))
        = .ok { ll with adv_response_buffer_ := b, adv_response_size_ := n } ∧ b.length = 39 := by
    intro r2 hm2
    obtain ⟨r3, hr3, hm3⟩ := write_bytes_total r2 1 [link_layer.address_length] (by simp; omega)
    obtain ⟨r4, hr4, hm4⟩ := write_bytes_total r3 2 ll.address_ (by omega)
    simp only [hr3, hr4, bind, Except.bind, pure, Except.pure]
    exact ⟨_, _, rfl, by omega⟩
  unfold link_layer.fill_advertising_response_buffer
  simp only [hr1, bind, Except.bind, pure, Except.pure] at tail ⊢
  by_cases hr : o.is_random = true
  · obtain ⟨r2, hr2, hm2⟩ := write_bytes_total r1 0
      [r1.getD 0 0 ||| link_layer.header_txaddr_field] (by simp; omega)
    simp only [hr, if_true, hr2]
    exact tail r2 (by omega)
  · simp only [hr]
    exact tail r1 (by omega)

/-- From the state `initial`, `run` returns: the link layer advertises, on the channel and with
the perturbation it had, and the radio is set to the advertising access address and is given
`adv_buffer_` for the current channel, now. -/
theorem run_of_initial (o : link_layer_options) (srv : server) (ll : link_layer)
    (hs : ll.state_ = link_layer_state.initial) (hw : ll.well_sized)
    (ha : ll.address_.length = 6) :
    ∃ s, link_layer.run o srv ll = .ok (s,
        [radio_call.set_access_address_and_crc_init 0x8E89BED6 0x555555,
         radio_call.schedule_transmit_and_receive ll.current_advertising_channel_
          { buffer := buffer_name.adv_buffer_, size := s.adv_size_ } delta_time.now
          { buffer := buffer_name.receive_buffer_, size := 40 }])
      ∧ s.state_ = link_layer_state.advertising
      ∧ s.current_advertising_channel_ = ll.current_advertising_channel_
      ∧ s.adv_perturbation_ = ll.adv_perturbation_
      ∧ s.address_ = ll.address_
      ∧ s.well_sized := by
  obtain ⟨hw1, hw2⟩ := hw
  obtain ⟨b, n, h1, hb⟩ := fill_advertising_buffer_ok o srv
    { ll with state_ := link_layer_state.advertising } hw1 ha
  obtain ⟨c, m, h2, hc⟩ := fill_advertising_response_buffer_ok o
    { ll with state_ := link_layer_state.advertising, adv_buffer_ := b, adv_size_ := n } hw2 ha
  simp only [link_layer.run, hs, if_true, h1, h2, bind, Except.bind, pure, Except.pure]
  exact ⟨_, rfl, rfl, rfl, rfl, rfl, hb, hc⟩

theorem fill_advertising_buffer_frame (o : link_layer_options) (srv : server)
    (ll ll2 : link_layer) (h : link_layer.fill_advertising_buffer o srv ll = .ok ll2) :
    ll2.state_ = ll.state_
      ∧ ll2.current_advertising_channel_ = ll.current_advertising_channel_
      ∧ ll2.adv_perturbation_ = ll.adv_perturbation_ := by
  simp only [link_layer.fill_advertising_buffer, bind, Except.bind, pure, Except.pure] at h
  repeat' split at h
  all_goals first
    | (cases h; done)
    | (injection h with h; subst h; exact ⟨rfl, rfl, rfl⟩)

theorem fill_advertising_response_buffer_frame (o : link_layer_options)
    (ll ll2 : link_layer) (h : link_layer.fill_advertising_response_buffer o ll = .ok ll2) :
    ll2.state_ = ll.state_
      ∧ ll2.current_advertising_channel_ = ll.current_advertising_channel_
      ∧ ll2.adv_perturbation_ = ll.adv_perturbation_ := by
  simp only [link_layer.fill_advertising_response_buffer, bind, Except.bind, pure,
    Except.pure] at h
  repeat' split at h
  all_goals first
    | (cases h; done)
    | (injection h with h; subst h; exact ⟨rfl, rfl, rfl⟩)

theorem run_invariant (o : link_layer_options) (srv : server) (ll ll2 : link_layer)
    (calls : List radio_call) (hi : ll.advertising_invariant)
    (h : link_layer.run o srv ll = .ok (ll2, calls)) : ll2.advertising_invariant := by
  by_cases hs : ll.state_ = link_layer_state.initial
  · simp only [link_layer.run, hs, if_true, bind, Except.bind, pure, Except.pure] at h
    split at h
    · cases h
    · rename_i v hv
      split at h
      · cases h
      · rename_i w hw
        injection h with h
        injection h with h1 h2
        subst h1
        obtain ⟨a1, a2, a3⟩ := fill_advertising_buffer_frame o srv _ _ hv
        obtain ⟨b1, b2, b3⟩ := fill_advertising_response_buffer_frame o _ _ hw
        simp only at a1 a2 a3
        refine ⟨?_, ?_, ?_⟩
        · rw [b3, a3]; exact hi.1
        · intro h0; rw [b1, a1] at h0; cases h0
        · intro _; rw [b2, a2]; exact Or.inl (hi.2.1 hs)
  · simp only [link_layer.run, hs, if_false, pure, Except.pure] at h
    injection h with h
    injection h with h1 h2
    subst h1
    exact hi

theorem timeout_invariant (o : link_layer_options) (ll ll2 : link_layer)
    (calls : List radio_call) (hi : ll.advertising_invariant)
    (h : link_layer.timeout o ll = .ok (ll2, calls)) : ll2.advertising_invariant := by
  obtain ⟨hp, h0, ha⟩ := hi
  by_cases hs : ll.state_ = link_layer_state.advertising
  · rcases ha hs with hc | hc | hc
    · rw [timeout_of_channel_below o ll hs (Or.inl hc)] at h
      injection h with h
      injection h with h1 h2
      subst h1
      exact ⟨hp, fun h => by simp [hs] at h, fun _ => by simp [hc]⟩
    · rw [timeout_of_channel_below o ll hs (Or.inr hc)] at h
      injection h with h
      injection h with h1 h2
      subst h1
      exact ⟨hp, fun h => by simp [hs] at h, fun _ => by simp [hc]⟩
    · rw [timeout_of_channel_39 o ll hs hc hp] at h
      injection h with h
      injection h with h1 h2
      subst h1
      exact ⟨Nat.mod_lt _ (by decide), fun h => by simp [hs] at h, fun _ => by simp⟩
  · by_cases hc : ll.state_ = link_layer_state.connected
    · simp only [link_layer.timeout, hs, hc, if_false, if_true] at h
      injection h with h
      injection h with h1 h2
      subst h1
      exact ⟨hp, h0, ha⟩
    · simp [link_layer.timeout, hs, hc] at h

theorem received_invariant (o : link_layer_options) (ll ll2 : link_layer) (receive : List Nat)
    (calls : List radio_call) (hi : ll.advertising_invariant)
    (h : link_layer.received o ll receive = .ok (ll2, calls)) : ll2.advertising_invariant := by
  by_cases hs : ll.state_ = link_layer_state.advertising
  · simp only [link_layer.received, hs, if_true] at h
    split at h
    · injection h with h
      injection h with h1 h2
      subst h1
      exact hi
    · split at h
      · split at h
        · split at h
          · injection h with h
            injection h with h1 h2
            subst h1
            exact ⟨hi.1, fun h => by simp at h, fun h => by simp at h⟩
          · refine timeout_invariant o _ _ _ ?_ h
            exact ⟨hi.1, fun h => by simp [link_layer.parse_transmit_window_from_connect_request] at h,
              fun _ => hi.2.2 hs⟩
        · refine timeout_invariant o _ _ _ ?_ h
          exact ⟨hi.1, fun h => by simp at h, fun _ => hi.2.2 hs⟩
      · exact timeout_invariant o ll _ _ hi h
  · by_cases hc : ll.state_ = link_layer_state.connected
    · simp only [link_layer.received, hs, hc, if_false, if_true] at h
      injection h with h
      injection h with h1 h2
      subst h1
      exact hi
    · simp [link_layer.received, hs, hc] at h

theorem reachable_invariant (o : link_layer_options) (srv : server) (ll : link_layer)
    (h : link_layer.reachable o srv ll) : ll.advertising_invariant := by
  induction h with
  | constructed memory =>
    exact ⟨by simp [link_layer.link_layer], fun _ => rfl, fun h => by simp [link_layer.link_layer] at h⟩
  | run ll ll2 calls _ h ih => exact run_invariant o srv ll ll2 calls ih h
  | received ll ll2 receive calls _ h ih => exact received_invariant o ll ll2 receive calls ih h
  | timeout ll ll2 calls _ h ih => exact timeout_invariant o ll ll2 calls ih h

theorem used_perturbation_eq (k : Nat) : used_perturbation k = (7 * (k + 1)) % 11 := by
  induction k with
  | zero => rfl
  | succ k ih => rw [used_perturbation, ih]; omega

/-! ### C15: the advertising channels -/

/-- C15: a constructed link layer with its 39 byte arrays and a 6 byte address: `run( server )`
returns, after it has set the radio to the advertising access address and scheduled
`adv_buffer_` on channel 37, now, with the 40 bytes of `receive_buffer_`. From there, for every
`n ≥ 1`, the `n`-th consecutive `timeout()` returns in the state advertising and makes one call
of the radio, a `schedule_transmit_and_receive` of `adv_buffer_` on the channel
`37 + (n mod 3)`, which is the current channel then; the time is `now` unless the channel is 37
again, and then it is the interval plus the perturbation. And in every state of the link layer
that can be reached by `run`, `received` and `timeout` and is advertising, the current channel
is 37, 38 or 39. -/
theorem advertising_channel_sequence (o : link_layer_options) (srv : server)
    (memory : link_layer) (hw : memory.well_sized) (ha : o.address.length = 6) :
    (∃ s0, link_layer.run o srv (link_layer.link_layer o memory) = .ok (s0,
        [radio_call.set_access_address_and_crc_init 0x8E89BED6 0x555555,
         radio_call.schedule_transmit_and_receive 37
          { buffer := buffer_name.adv_buffer_, size := s0.adv_size_ } delta_time.now
          { buffer := buffer_name.receive_buffer_, size := 40 }])
      ∧ ∀ n, 1 ≤ n → ∃ sn time, link_layer.timeouts o n s0 = .ok (sn,
            [radio_call.schedule_transmit_and_receive (37 + n % 3)
              { buffer := buffer_name.adv_buffer_, size := s0.adv_size_ } time
              { buffer := buffer_name.receive_buffer_, size := 40 }])
          ∧ sn.state_ = link_layer_state.advertising
          ∧ sn.current_advertising_channel_ = 37 + n % 3
          ∧ (n % 3 ≠ 0 → time = delta_time.now)
          ∧ (n % 3 = 0 → time = o.adv_interval.add (delta_time.msec sn.adv_perturbation_)))
    ∧ ∀ ll, link_layer.reachable o srv ll → ll.state_ = link_layer_state.advertising →
        ll.current_advertising_channel_ = 37 ∨ ll.current_advertising_channel_ = 38
          ∨ ll.current_advertising_channel_ = 39 := by
  refine ⟨?_, fun ll hr => (reachable_invariant o srv ll hr).2.2⟩
  obtain ⟨s0, hrun, hs, hc, hp, _, _⟩ := run_of_initial o srv (link_layer.link_layer o memory)
    rfl hw ha
  have hc37 : s0.current_advertising_channel_ = 37 := hc
  have hp0 : s0.adv_perturbation_ < 11 := by
    rw [hp]; simp [link_layer.link_layer]
  refine ⟨s0, hrun, ?_⟩
  intro n hn
  obtain ⟨m, rfl⟩ : ∃ m, n = m + 1 := ⟨n - 1, by omega⟩
  refine ⟨_, _, timeouts_calls o s0 hs hc37 hp0 m, hs, rfl, ?_, ?_⟩
  · intro h; simp [h]
  · intro h; simp [h]

/-- The instance of C15 for the three attribute server, the default options and zeroed arrays:
the fifth timeout schedules `adv_buffer_` on channel 39, now. -/
theorem advertising_channel_sequence_witness :
    raw_memory.well_sized ∧ example_options.address.length = 6
      ∧ ∃ s0, link_layer.run example_options small_temperature_service
            (link_layer.link_layer example_options raw_memory) = .ok (s0,
          [radio_call.set_access_address_and_crc_init 0x8E89BED6 0x555555,
           radio_call.schedule_transmit_and_receive 37
            { buffer := buffer_name.adv_buffer_, size := s0.adv_size_ } delta_time.now
            { buffer := buffer_name.receive_buffer_, size := 40 }])
        ∧ ∃ s5, link_layer.timeouts example_options 5 s0 = .ok (s5,
          [radio_call.schedule_transmit_and_receive 39
            { buffer := buffer_name.adv_buffer_, size := s0.adv_size_ } delta_time.now
            { buffer := buffer_name.receive_buffer_, size := 40 }]) :=
  ⟨by decide, by decide,
    match (advertising_channel_sequence example_options small_temperature_service raw_memory
      (by decide) (by decide)).1 with
    | ⟨s0, h0, hn⟩ =>
      ⟨s0, h0,
        match hn 5 (by decide) with
        | ⟨s5, _, h5, _, _, ht, _⟩ => ⟨s5, by rw [h5, ht (by decide)]⟩⟩⟩

/-! ### C16: the perturbation of the advertising interval -/

/-- C16 is not what the code does: `next_adv_event` first sets `adv_perturbation_` to
`(adv_perturbation_ + 7) % 11` and then uses it. After the construction and `run` of the link
layer of the examples (interval 100 ms), the third timeout, which is the first wrap to channel
37, is scheduled at 107 ms, and not at the 100 ms + 0 ms of `p_0 = 0`. -/
theorem advertising_perturbation_sequence_counterexample :
    (do
      let r ← link_layer.run example_options small_temperature_service
        (link_layer.link_layer example_options raw_memory)
      let r3 ← link_layer.timeouts example_options 3 r.1
      pure r3.2 : Except fault (List radio_call))
      = .ok [radio_call.schedule_transmit_and_receive 37
          { buffer := buffer_name.adv_buffer_, size := 11 } { usec := 107000 }
          { buffer := buffer_name.receive_buffer_, size := 40 }]
    ∧ example_options.adv_interval.add (delta_time.msec 0) = { usec := 100000 } := by
  decide

/-- C16, amended: starting from a constructed link layer (39 byte arrays, 6 byte address) that
`run( server )` has started, the wrap number `k` to channel 37 (`k = 0, 1, 2, ...`), which is
the timeout number `3 * (k + 1)`, is scheduled at `adv_interval + msec( p_k )` where `p_0 = 7`
and `p_{k+1} = (p_k + 7) mod 11`: the perturbation is updated first and used then, and `p_k`
is the value of `adv_perturbation_` after the wrap. The perturbations used are
7, 3, 10, 6, 2, 9, 5, 1, 8, 4, 0 and then repeat with period 11. -/
theorem advertising_perturbation_sequence (o : link_layer_options) (srv : server)
    (memory : link_layer) (hw : memory.well_sized) (ha : o.address.length = 6) :
    (∃ s0 calls, link_layer.run o srv (link_layer.link_layer o memory) = .ok (s0, calls)
      ∧ ∀ k, ∃ sk, link_layer.timeouts o (3 * (k + 1)) s0 = .ok (sk,
            [radio_call.schedule_transmit_and_receive 37
              { buffer := buffer_name.adv_buffer_, size := s0.adv_size_ }
              (o.adv_interval.add (delta_time.msec (used_perturbation k)))
              { buffer := buffer_name.receive_buffer_, size := 40 }])
          ∧ sk.adv_perturbation_ = used_perturbation k)
    ∧ used_perturbation 0 = 7
    ∧ (∀ k, used_perturbation (k + 1) = (used_perturbation k + 7) % 11)
    ∧ (List.range 11).map used_perturbation = [7, 3, 10, 6, 2, 9, 5, 1, 8, 4, 0]
    ∧ ∀ k, used_perturbation (k + 11) = used_perturbation k := by
  refine ⟨?_, rfl, fun k => rfl, by decide, fun k => by
    rw [used_perturbation_eq, used_perturbation_eq]; omega⟩
  obtain ⟨s0, hrun, hs, hc, hp, _, _⟩ := run_of_initial o srv (link_layer.link_layer o memory)
    rfl hw ha
  have hc37 : s0.current_advertising_channel_ = 37 := hc
  have hp0 : s0.adv_perturbation_ = 0 := hp
  refine ⟨s0, _, hrun, ?_⟩
  intro k
  have h := timeouts_calls o s0 hs hc37 (by omega) (3 * k + 2)
  have e0 : 3 * k + 2 + 1 = 3 * (k + 1) := by omega
  have e1 : 3 * (k + 1) % 3 = 0 := by omega
  have e2 : 3 * (k + 1) / 3 = k + 1 := by omega
  rw [e0, e1, e2, hp0] at h
  simp only [if_true, Nat.zero_add, Nat.add_zero] at h
  rw [← used_perturbation_eq] at h
  exact ⟨_, h, rfl⟩

/-- The instance of C16, amended, for the three attribute server, the default options and
zeroed arrays: the wrap number 1, at the sixth timeout, is scheduled at 100 ms + 3 ms. -/
theorem advertising_perturbation_sequence_witness :
    raw_memory.well_sized ∧ example_options.address.length = 6
      ∧ ∃ s0 calls, link_layer.run example_options small_temperature_service
            (link_layer.link_layer example_options raw_memory) = .ok (s0, calls)
        ∧ ∃ s6, link_layer.timeouts example_options 6 s0 = .ok (s6,
          [radio_call.schedule_transmit_and_receive 37
            { buffer := buffer_name.adv_buffer_, size := s0.adv_size_ } { usec := 103000 }
            { buffer := buffer_name.receive_buffer_, size := 40 }]) :=
  ⟨by decide, by decide,
    match (advertising_perturbation_sequence example_options small_temperature_service
      raw_memory (by decide) (by decide)).1 with
    | ⟨s0, calls, h0, hk⟩ =>
      ⟨s0, calls, h0,
        match hk 1 with
        | ⟨s6, h6, _⟩ => ⟨s6, h6⟩⟩⟩

/-! ### The link layer: scan requests and connect requests -/

theorem and_15 (x : Nat) : x &&& 15 = x % 16 := Nat.and_pow_two_sub_one_eq_mod x 4

theorem and_63 (x : Nat) : x &&& 63 = x % 64 := Nat.and_pow_two_sub_one_eq_mod x 6

theorem and_31 (x : Nat) : x &&& 31 = x % 32 := Nat.and_pow_two_sub_one_eq_mod x 5

theorem lor_shiftLeft_eq (a b n : Nat) (ha : a < 2 ^ n) : a ||| b <<< n = a + b * 2 ^ n := by
  rw [Nat.lor_comm, Nat.shiftLeft_eq, Nat.mul_comm, ← Nat.mul_add_lt_is_or ha, Nat.add_comm]

theorem read_16_eq (rx : List Nat) (i : Nat) (hb : all_bytes rx) :
    link_layer.read_16 rx i = u16le rx i := by
  have h0 := getD_lt_of_all_bytes rx i hb
  have h1 := getD_lt_of_all_bytes rx (i + 1) hb
  rw [link_layer.read_16, lor_shiftLeft_eq _ _ 8 (by simpa using h0), u16le]
  omega

theorem read_24_eq (rx : List Nat) (i : Nat) (hb : all_bytes rx) :
    link_layer.read_24 rx i = u24le rx i := by
  have h0 := u16le_lt rx i hb
  have h1 := getD_lt_of_all_bytes rx (i + 2) hb
  rw [link_layer.read_24, read_16_eq rx i hb, lor_shiftLeft_eq _ _ 16 (by simpa using h0), u24le]
  omega

theorem read_32_eq (rx : List Nat) (i : Nat) (hb : all_bytes rx) :
    link_layer.read_32 rx i = u32le rx i := by
  have h0 := u16le_lt rx i hb
  have h1 := u16le_lt rx (i + 2) hb
  rw [link_layer.read_32, read_16_eq rx i hb, read_16_eq rx (i + 2) hb,
    lor_shiftLeft_eq _ _ 16 (by simpa using h0), u32le]
  omega

theorem is_valid_scan_request_iff (ll : link_layer) (rx : List Nat) :
    link_layer.is_valid_scan_request ll rx = true ↔
      rx.length = 14 ∧ rx.getD 0 0 % 16 = 3 ∧ rx.getD 1 0 % 64 = 12
        ∧ (rx.drop 8).take 6 = ll.address_.take 6 := by
  simp only [link_layer.is_valid_scan_request, link_layer.address_length,
    link_layer.advertising_pdu_header_size, and_15, and_63, Bool.and_eq_true, beq_iff_eq,
    decide_eq_true_eq]
  constructor
  · rintro ⟨⟨⟨h1, h2⟩, h3⟩, h4⟩
    exact ⟨h1, h3, h2, h4⟩
  · rintro ⟨h1, h3, h2, h4⟩
    exact ⟨⟨⟨h1, h2⟩, h3⟩, h4⟩

theorem is_valid_connect_request_iff (ll : link_layer) (rx : List Nat) :
    link_layer.is_valid_connect_request ll rx = true ↔
      rx.length = 36 ∧ rx.getD 0 0 % 16 = 5 ∧ rx.getD 1 0 % 64 = 34
        ∧ (rx.drop 8).take 6 = ll.address_.take 6 := by
  simp only [link_layer.is_valid_connect_request, link_layer.address_length,
    link_layer.advertising_pdu_header_size, and_15, and_63, Bool.and_eq_true, beq_iff_eq,
    decide_eq_true_eq]
  constructor
  · rintro ⟨⟨⟨h1, h2⟩, h3⟩, h4⟩
    exact ⟨h1, h3, h2, h4⟩
  · rintro ⟨h1, h3, h2, h4⟩
    exact ⟨⟨⟨h1, h2⟩, h3⟩, h4⟩

theorem parse_transmit_window_eq (ll : link_layer) (rx : List Nat) (hb : all_bytes rx) :
    link_layer.parse_transmit_window_from_connect_request ll rx
      = (decide (rx.getD 21 0 * 1125 ≤ 10000 ∧ rx.getD 21 0 * 1125 ≤ u16le rx 24 * 1125),
         { ll with
           transmit_window_offset_ := { usec := rx.getD 21 0 * 1125 }
           connection_interval_ := { usec := u16le rx 24 * 1125 } }) := by
  have h0 := getD_lt_of_all_bytes rx 21 hb
  have h1 := u16le_lt rx 24 hb
  have e0 : rx.getD 21 0 * 1125 % 4294967296 = rx.getD 21 0 * 1125 :=
    Nat.mod_eq_of_lt (by omega)
  have e1 : u16le rx 24 * 1125 % 4294967296 = u16le rx 24 * 1125 :=
    Nat.mod_eq_of_lt (by omega)
  simp only [link_layer.parse_transmit_window_from_connect_request, delta_time.of_usec,
    delta_time.le, read_16_eq rx 24 hb, e0, e1, Bool.decide_and]

/-- C17: in the state advertising, for every received PDU of size 14 with
`(rx[0] & 0x0f) == 3`, `(rx[1] & 0x3f) == 12` and `rx[8..14]` equal to the own address,
`received( rx )` returns and issues exactly one call of the radio, a
`schedule_transmit_and_receive` of `adv_response_buffer_` (with `adv_response_size_`) on the
current advertising channel, at the time `now`, with the receive view `{nullptr, 0}`; no member
of the link layer changes, so the state remains advertising and the channel and the
perturbation are what they were. -/
theorem received_scan_request (o : link_layer_options) (ll : link_layer) (rx : List Nat)
    (hs : ll.state_ = link_layer_state.advertising) (hlen : rx.length = 14)
    (h0 : rx.getD 0 0 &&& 0x0f = 0x3) (h1 : rx.getD 1 0 &&& 0x3f = 12)
    (haddr : rx.drop 8 = ll.address_) :
    link_layer.received o ll rx = .ok (ll,
      [radio_call.schedule_transmit_and_receive ll.current_advertising_channel_
        { buffer := buffer_name.adv_response_buffer_, size := ll.adv_response_size_ }
        delta_time.now { buffer := buffer_name.nullptr, size := 0 }]) := by
  have hv : link_layer.is_valid_scan_request ll rx = true := by
    rw [is_valid_scan_request_iff]
    exact ⟨hlen, by rw [← and_15]; exact h0, by rw [← and_63]; exact h1, by rw [haddr]⟩
  simp [link_layer.received, hs, hv]

/-- The instance of C17 for the link layer of the examples, advertising after `run`, and the
scan request of the examples. -/
theorem received_scan_request_witness :
    link_layer.run example_options small_temperature_service
        (link_layer.link_layer example_options raw_memory) = .ok (example_advertising,
      [radio_call.set_access_address_and_crc_init 0x8E89BED6 0x555555,
       radio_call.schedule_transmit_and_receive 37
        { buffer := buffer_name.adv_buffer_, size := 11 } delta_time.now
        { buffer := buffer_name.receive_buffer_, size := 40 }])
    ∧ link_layer.received example_options example_advertising example_scan_request
      = .ok (example_advertising,
        [radio_call.schedule_transmit_and_receive 37
          { buffer := buffer_name.adv_response_buffer_, size := 8 }
          delta_time.now { buffer := buffer_name.nullptr, size := 0 }]) :=
  ⟨by decide,
    received_scan_request example_options example_advertising example_scan_request
      (by decide) (by decide) (by decide) (by decide) (by decide)⟩

/-! ### C18: a connect request while advertising -/

/-- C19, at an input where the code departs from it: the link layer of the examples, after
`run`, parses the connect request of the examples, with `rx[21] = 3` and `u16le(rx[24..26]) =
24`, and accepts it. It stores the transmit window offset 3375 µs and the connection interval
27000 µs, which are 3 and 24 times 1125 µs (`us_per_digits`), where the claim has 3750 µs and
30000 µs. -/
theorem connect_request_scale :
    (do
      let r ← link_layer.run example_options small_temperature_service
        (link_layer.link_layer example_options raw_memory)
      let r2 ← link_layer.received example_options r.1 example_connect_request
      pure (r2.1.state_, r2.1.transmit_window_offset_, r2.1.connection_interval_)
        : Except fault (link_layer_state × delta_time × delta_time))
      = .ok (link_layer_state.connected, { usec := 3375 }, { usec := 27000 })
    ∧ example_connect_request.getD 21 0 * 1250 = 3750
    ∧ u16le example_connect_request 24 * 1250 = 30000 := by
  decide

/-- C20, at an input where the code departs from it: the link layer of the examples, after
`run`, accepts the connect request of the examples, with `rx[20] = 2`. The transmit window
size that it passes to `schedule_receive_and_transmit` is the value of the member
`transmit_window_size_`, which no function of the link layer assigns: 10794 µs with the
memory of the examples and 0 µs with a zero in the member, and not `2 * 1250` µs. -/
theorem connect_request_window_size :
    (do
      let r ← link_layer.run example_options small_temperature_service
        (link_layer.link_layer example_options raw_memory)
      let r2 ← link_layer.received example_options r.1 example_connect_request
      pure r2.2 : Except fault (List radio_call))
      = .ok [radio_call.set_access_address_and_crc_init 0xAF9AB35A 0x028108,
          radio_call.schedule_receive_and_transmit 10 { usec := 3375 } { usec := 10794 }
            { buffer := buffer_name.nullptr, size := 0 }
            { buffer := buffer_name.adv_response_buffer_, size := 8 }]
    ∧ (do
      let r ← link_layer.run example_options small_temperature_service
        (link_layer.link_layer example_options
          { raw_memory with transmit_window_size_ := { usec := 0 } })
      let r2 ← link_layer.received example_options r.1 example_connect_request
      pure r2.2 : Except fault (List radio_call))
      = .ok [radio_call.set_access_address_and_crc_init 0xAF9AB35A 0x028108,
          radio_call.schedule_receive_and_transmit 10 { usec := 3375 } { usec := 0 }
            { buffer := buffer_name.nullptr, size := 0 }
            { buffer := buffer_name.adv_response_buffer_, size := 8 }]
    ∧ example_connect_request.getD 20 0 * 1250 = 2500 := by
  decide

/-! ### The link layer: what `received` does with the other PDUs -/

/-- In the state advertising `timeout` returns with one call of the radio: `adv_buffer_` on the
new current channel. -/
theorem timeout_advertising_eq (o : link_layer_options) (ll : link_layer)
    (hs : ll.state_ = link_layer_state.advertising) :
    ∃ ll3 time, link_layer.timeout o ll = .ok (ll3,
        [radio_call.schedule_transmit_and_receive ll3.current_advertising_channel_
          { buffer := buffer_name.adv_buffer_, size := ll.adv_size_ } time
          { buffer := buffer_name.receive_buffer_, size := 40 }])
      ∧ ll3.state_ = link_layer_state.advertising := by
  by_cases hc : ll.current_advertising_channel_ = 39
  · exact ⟨{ ll with current_advertising_channel_ := 37,
                     adv_perturbation_ := (ll.adv_perturbation_ + 7) % 4294967296 % 11 },
      o.adv_interval.add (delta_time.msec ((ll.adv_perturbation_ + 7) % 4294967296 % 11)),
      by simp [link_layer.timeout, link_layer.next_adv_event, hs, hc,
        link_layer.last_advertising_channel, link_layer.first_advertising_channel,
        link_layer.max_adv_perturbation_], hs⟩
  · by_cases h37 : (ll.current_advertising_channel_ + 1) % 4294967296 = 37
    · exact ⟨{ ll with current_advertising_channel_ := 37,
                       adv_perturbation_ := (ll.adv_perturbation_ + 7) % 4294967296 % 11 },
        o.adv_interval.add (delta_time.msec ((ll.adv_perturbation_ + 7) % 4294967296 % 11)),
        by simp [link_layer.timeout, link_layer.next_adv_event, hs, hc, h37,
          link_layer.last_advertising_channel, link_layer.first_advertising_channel,
          link_layer.max_adv_perturbation_], hs⟩
    · exact ⟨{ ll with current_advertising_channel_ :=
                         (ll.current_advertising_channel_ + 1) % 4294967296 },
        delta_time.now,
        by simp [link_layer.timeout, hs, hc, h37,
          link_layer.last_advertising_channel, link_layer.first_advertising_channel], hs⟩

/-- The members `channels_`, `transmit_window_offset_` and `connection_interval_` do not
matter to `timeout` and are kept by it. -/
theorem timeout_frame (o : link_layer_options) (ll ll3 : link_layer) (calls : List radio_call)
    (cm : channel_map) (off int : delta_time)
    (h : link_layer.timeout o ll = .ok (ll3, calls)) :
    link_layer.timeout o
        { ll with channels_ := cm, transmit_window_offset_ := off, connection_interval_ := int }
      = .ok ({ ll3 with channels_ := cm, transmit_window_offset_ := off,
                        connection_interval_ := int }, calls) := by
  by_cases hs : ll.state_ = link_layer_state.advertising
  · by_cases hc : ll.current_advertising_channel_ = 39
    · simp only [link_layer.timeout, link_layer.next_adv_event, hs, hc, if_true,
        link_layer.last_advertising_channel, link_layer.first_advertising_channel,
        Except.ok.injEq, Prod.mk.injEq] at h ⊢
      obtain ⟨rfl, rfl⟩ := h
      exact ⟨rfl, rfl⟩
    · by_cases h37 : (ll.current_advertising_channel_ + 1) % 4294967296 = 37
      · simp only [link_layer.timeout, link_layer.next_adv_event, hs, hc, h37, if_true, if_false,
          link_layer.last_advertising_channel, link_layer.first_advertising_channel,
          Except.ok.injEq, Prod.mk.injEq] at h ⊢
        obtain ⟨rfl, rfl⟩ := h
        exact ⟨rfl, rfl⟩
      · simp only [link_layer.timeout, link_layer.next_adv_event, hs, hc, h37, if_true, if_false,
          link_layer.last_advertising_channel, link_layer.first_advertising_channel,
          Except.ok.injEq, Prod.mk.injEq] at h ⊢
        obtain ⟨rfl, rfl⟩ := h
        exact ⟨rfl, rfl⟩
  · by_cases hc : ll.state_ = link_layer_state.connected
    · simp only [link_layer.timeout, hs, hc, if_true, if_false, Except.ok.injEq,
        Prod.mk.injEq, reduceCtorEq] at h ⊢
      obtain ⟨rfl, rfl⟩ := h
      exact ⟨by rw [hc], rfl⟩
    · simp [link_layer.timeout, hs, hc] at h

/-- What `received` makes of a connect request that it accepts. -/
theorem received_accepted (o : link_layer_options) (ll : link_layer) (rx : List Nat)
    (hs : ll.state_ = link_layer_state.advertising) (hb : all_bytes rx)
    (ha : ll.accepts rx 1125) :
    link_layer.received o ll rx = .ok
      ({ ll with
          channels_ := (ll.channels_.reset (rx.drop 30) (rx.getD 35 0 % 32)).2
          transmit_window_offset_ := { usec := rx.getD 21 0 * 1125 }
          connection_interval_ := { usec := u16le rx 24 * 1125 }
          state_ := link_layer_state.connected
          current_advertising_channel_ := 0
          cumulated_sleep_clock_accuracy_ :=
            (link_layer.sleep_clock_accuracy rx + o.accuracy_ppm) % 4294967296 },
       [radio_call.set_access_address_and_crc_init (u32le rx 14) (u24le rx 18),
        radio_call.schedule_receive_and_transmit
          ((ll.channels_.reset (rx.drop 30) (rx.getD 35 0 % 32)).2.data_channel 0)
          { usec := rx.getD 21 0 * 1125 } ll.transmit_window_size_
          { buffer := buffer_name.nullptr, size := 0 }
          { buffer := buffer_name.adv_response_buffer_, size := ll.adv_response_size_ }]) := by
  obtain ⟨hvalid, hreset, hw1, hw2⟩ := ha
  have hscan : ¬ link_layer.is_valid_scan_request ll rx = true := by
    intro h
    have h14 := ((is_valid_scan_request_iff ll rx).1 h).1
    have h36 := hvalid.1
    omega
  have hconn := (is_valid_connect_request_iff ll rx).2 hvalid
  have hreset2 : (ll.channels_.reset (rx.drop 30) (rx.getD 35 0 &&& 0x1f)).1 = true := by
    rw [and_31]; exact hreset
  have hwin : rx.getD 21 0 * 1125 ≤ 10000 ∧ rx.getD 21 0 * 1125 ≤ u16le rx 24 * 1125 :=
    ⟨hw1, hw2⟩
  simp only [link_layer.received, hs, if_true, hscan, hconn, hreset2,
    parse_transmit_window_eq _ rx hb, hwin, and_self, decide_True, Bool.false_eq_true,
    if_false, read_32_eq rx 14 hb, read_24_eq rx 18 hb, and_31]
  rw [if_pos hreset]

/-- What `received` does with a PDU that is neither a valid scan request nor an accepted
connect request, next to what `timeout` does. -/
theorem received_rejected_eq (o : link_layer_options) (ll : link_layer) (rx : List Nat)
    (hs : ll.state_ = link_layer_state.advertising) (hb : all_bytes rx)
    (hscan : link_layer.is_valid_scan_request ll rx = false)
    (hacc : ¬ ll.accepts rx 1125) :
    ∃ ll2 ll3 time,
      link_layer.received o ll rx = .ok (ll2,
        [radio_call.schedule_transmit_and_receive ll3.current_advertising_channel_
          { buffer := buffer_name.adv_buffer_, size := ll.adv_size_ } time
          { buffer := buffer_name.receive_buffer_, size := 40 }])
      ∧ link_layer.timeout o ll = .ok (ll3,
        [radio_call.schedule_transmit_and_receive ll3.current_advertising_channel_
          { buffer := buffer_name.adv_buffer_, size := ll.adv_size_ } time
          { buffer := buffer_name.receive_buffer_, size := 40 }])
      ∧ ll2.state_ = link_layer_state.advertising
      ∧ ll2.current_advertising_channel_ = ll3.current_advertising_channel_
      ∧ ll2.adv_perturbation_ = ll3.adv_perturbation_
      ∧ ll2 = { ll3 with channels_ := ll2.channels_
                         transmit_window_offset_ := ll2.transmit_window_offset_
                         connection_interval_ := ll2.connection_interval_ } := by
  obtain ⟨ll3, time, ht, hs3⟩ := timeout_advertising_eq o ll hs
  have framed : ∀ (cm : channel_map) (off int : delta_time),
      ∃ ll2,
        link_layer.timeout o
            { ll with channels_ := cm, transmit_window_offset_ := off,
                      connection_interval_ := int } = .ok (ll2,
          [radio_call.schedule_transmit_and_receive ll3.current_advertising_channel_
            { buffer := buffer_name.adv_buffer_, size := ll.adv_size_ } time
            { buffer := buffer_name.receive_buffer_, size := 40 }])
        ∧ ll2.state_ = link_layer_state.advertising
        ∧ ll2.current_advertising_channel_ = ll3.current_advertising_channel_
        ∧ ll2.adv_perturbation_ = ll3.adv_perturbation_
        ∧ ll2 = { ll3 with channels_ := ll2.channels_
                           transmit_window_offset_ := ll2.transmit_window_offset_
                           connection_interval_ := ll2.connection_interval_ } := by
    intro cm off int
    exact ⟨_, timeout_frame o ll ll3 _ cm off int ht, hs3, rfl, rfl, rfl⟩
  have hscan2 : ¬ link_layer.is_valid_scan_request ll rx = true := by simp [hscan]
  by_cases hconn : link_layer.is_valid_connect_request ll rx = true
  · by_cases hreset : (ll.channels_.reset (rx.drop 30) (rx.getD 35 0 &&& 0x1f)).1 = true
    · have hwin : ¬ (rx.getD 21 0 * 1125 ≤ 10000
          ∧ rx.getD 21 0 * 1125 ≤ u16le rx 24 * 1125) := fun h =>
        hacc ⟨(is_valid_connect_request_iff ll rx).1 hconn, by rw [← and_31]; exact hreset,
          h.1, h.2⟩
      obtain ⟨ll2, h2, r⟩ := framed
        (ll.channels_.reset (rx.drop 30) (rx.getD 35 0 &&& 0x1f)).2
        { usec := rx.getD 21 0 * 1125 } { usec := u16le rx 24 * 1125 }
      refine ⟨ll2, ll3, time, ?_, ht, r⟩
      simp only [link_layer.received, hs, if_true, hscan2, hconn, hreset,
        parse_transmit_window_eq _ rx hb, hwin, decide_False, Bool.false_eq_true, if_false]
      rw [← h2, hs]
    · obtain ⟨ll2, h2, r⟩ := framed
        (ll.channels_.reset (rx.drop 30) (rx.getD 35 0 &&& 0x1f)).2
        ll.transmit_window_offset_ ll.connection_interval_
      refine ⟨ll2, ll3, time, ?_, ht, r⟩
      simp only [link_layer.received, hs, if_true, hscan2, hconn, hreset, Bool.false_eq_true,
        if_false]
      rw [← h2, hs]
  · refine ⟨ll3, ll3, time, ?_, ht, hs3, rfl, rfl, rfl⟩
    simp only [link_layer.received, hs, if_true, hscan2, hconn, Bool.false_eq_true, if_false]
    exact ht

/-! ### C21: a PDU that is neither a scan request nor an accepted connect request -/

/-- C21: in the state advertising, for every received PDU that is not a valid scan request
and not a connect request that is accepted (so also for a valid connect request that
`channels_.reset` or the bounds of the transmit window reject), `received( rx )` returns in the
state advertising, with the current channel and the perturbation that `timeout()` would have
left, and with the one call of the radio that `timeout()` would have made, a
`schedule_transmit_and_receive` of `adv_buffer_`. The two resulting link layers differ at most
in `channels_`, `transmit_window_offset_` and `connection_interval_`, which a rejected connect
request may have changed. -/
theorem received_as_timeout (o : link_layer_options) (ll : link_layer) (rx : List Nat)
    (hs : ll.state_ = link_layer_state.advertising) (hb : all_bytes rx)
    (hscan : link_layer.is_valid_scan_request ll rx = false)
    (hacc : ¬ ll.accepts rx 1125) :
    ∃ ll2 ll3 time,
      link_layer.received o ll rx = .ok (ll2,
        [radio_call.schedule_transmit_and_receive ll3.current_advertising_channel_
          { buffer := buffer_name.adv_buffer_, size := ll.adv_size_ } time
          { buffer := buffer_name.receive_buffer_, size := 40 }])
      ∧ link_layer.timeout o ll = .ok (ll3,
        [radio_call.schedule_transmit_and_receive ll3.current_advertising_channel_
          { buffer := buffer_name.adv_buffer_, size := ll.adv_size_ } time
          { buffer := buffer_name.receive_buffer_, size := 40 }])
      ∧ ll2.state_ = link_layer_state.advertising
      ∧ ll2.current_advertising_channel_ = ll3.current_advertising_channel_
      ∧ ll2.adv_perturbation_ = ll3.adv_perturbation_
      ∧ ll2 = { ll3 with channels_ := ll2.channels_
                         transmit_window_offset_ := ll2.transmit_window_offset_
                         connection_interval_ := ll2.connection_interval_ } :=
  received_rejected_eq o ll rx hs hb hscan hacc

/-- The instance of C21 for the link layer of the examples, advertising on channel 37, and a
connect request with the hop increment 0, which `channels_.reset` rejects: as after a timeout
`adv_buffer_` is scheduled on channel 38, now. -/
theorem received_as_timeout_witness :
    (example_advertising.state_ = link_layer_state.advertising
      ∧ all_bytes (example_connect_request.take 35 ++ [0xa0])
      ∧ link_layer.is_valid_connect_request example_advertising
          (example_connect_request.take 35 ++ [0xa0]) = true
      ∧ (link_layer.received example_options example_advertising
            (example_connect_request.take 35 ++ [0xa0])).map Prod.snd
          = .ok [radio_call.schedule_transmit_and_receive 38
            { buffer := buffer_name.adv_buffer_, size := 11 } delta_time.now
            { buffer := buffer_name.receive_buffer_, size := 40 }])
    ∧ ∃ ll2 ll3 time,
        link_layer.received example_options example_advertising
            (example_connect_request.take 35 ++ [0xa0]) = .ok (ll2,
          [radio_call.schedule_transmit_and_receive ll3.current_advertising_channel_
            { buffer := buffer_name.adv_buffer_, size := example_advertising.adv_size_ } time
            { buffer := buffer_name.receive_buffer_, size := 40 }])
        ∧ link_layer.timeout example_options example_advertising = .ok (ll3,
          [radio_call.schedule_transmit_and_receive ll3.current_advertising_channel_
            { buffer := buffer_name.adv_buffer_, size := example_advertising.adv_size_ } time
            { buffer := buffer_name.receive_buffer_, size := 40 }])
        ∧ ll2.state_ = link_layer_state.advertising
        ∧ ll2.current_advertising_channel_ = ll3.current_advertising_channel_
        ∧ ll2.adv_perturbation_ = ll3.adv_perturbation_
        ∧ ll2 = { ll3 with channels_ := ll2.channels_
                           transmit_window_offset_ := ll2.transmit_window_offset_
                           connection_interval_ := ll2.connection_interval_ } :=
  ⟨⟨by decide, by decide, by decide, by decide⟩,
    received_as_timeout example_options example_advertising
      (example_connect_request.take 35 ++ [0xa0]) (by decide) (by decide) (by decide)
      (by decide)⟩

/-! ### C24: the radio actions of a callback -/

/-- C24 is not what the code does in the state connected: the branches of `received` and
`timeout` for that state are empty. The link layer of the examples is connected after `run`
and the connect request of the examples; the `timeout()` and the `received( rx )` that follow
return without a call of the radio. -/
theorem callbacks_program_radio_counterexample :
    (do
      let r ← link_layer.run example_options small_temperature_service
        (link_layer.link_layer example_options raw_memory)
      let r2 ← link_layer.received example_options r.1 example_connect_request
      let r3 ← link_layer.timeout example_options r2.1
      let r4 ← link_layer.received example_options r2.1 example_scan_request
      pure (r2.1.state_, r3.2, r4.2)
        : Except fault (link_layer_state × List radio_call × List radio_call))
      = .ok (link_layer_state.connected, [], []) := by
  decide

/-- C24, amended: every `received( rx )` or `timeout()` callback delivered to a link layer in
the state advertising returns and programs exactly one next radio action (one
`schedule_transmit_and_receive` or one `schedule_receive_and_transmit`); `timeout` makes no
other call, and for a valid scan request the one call of `received` is a transmit of
`adv_response_buffer_` with the receive view `{nullptr, 0}`. In the state connected both
callbacks return without any call of the radio and leave the link layer as it is. A link
layer that has been started with `run()` is in one of the two states. -/
theorem callbacks_program_radio (o : link_layer_options) (srv : server) (ll : link_layer)
    (rx : List Nat) (hb : all_bytes rx) :
    (ll.state_ = link_layer_state.advertising →
      (∃ ll2 calls, link_layer.received o ll rx = .ok (ll2, calls)
        ∧ (calls.filter radio_call.is_schedule).length = 1
        ∧ (link_layer.is_valid_scan_request ll rx = true → calls =
            [radio_call.schedule_transmit_and_receive ll.current_advertising_channel_
              { buffer := buffer_name.adv_response_buffer_, size := ll.adv_response_size_ }
              delta_time.now { buffer := buffer_name.nullptr, size := 0 }]))
      ∧ ∃ ll2 call, link_layer.timeout o ll = .ok (ll2, [call]) ∧ call.is_schedule = true)
    ∧ (ll.state_ = link_layer_state.connected →
        link_layer.received o ll rx = .ok (ll, []) ∧ link_layer.timeout o ll = .ok (ll, []))
    ∧ ∀ ll0 ll1 calls, ll0.state_ = link_layer_state.initial →
        link_layer.run o srv ll0 = .ok (ll1, calls) →
        ll1.state_ = link_layer_state.advertising := by
  refine ⟨?_, ?_, ?_⟩
  · intro hs
    obtain ⟨ll3, time, ht, _⟩ := timeout_advertising_eq o ll hs
    refine ⟨?_, ll3, _, ht, rfl⟩
    by_cases hscan : link_layer.is_valid_scan_request ll rx = true
    · refine ⟨ll, _, ?_, ?_, fun _ => rfl⟩
      · simp only [link_layer.received, hs, if_true, hscan]
      · rfl
    · by_cases hacc : ll.accepts rx 1125
      · rw [received_accepted o ll rx hs hb hacc]
        exact ⟨_, _, rfl, rfl, fun h => absurd h hscan⟩
      · obtain ⟨ll2, ll3, time, hr, _⟩ := received_rejected_eq o ll rx hs hb
          (by simpa using hscan) hacc
        exact ⟨_, _, hr, rfl, fun h => absurd h hscan⟩
  · intro hc
    constructor
    · simp [link_layer.received, hc]
    · simp [link_layer.timeout, hc]
  · intro ll0 ll1 calls h0 hr
    simp only [link_layer.run, h0, if_true, bind, Except.bind, pure, Except.pure] at hr
    split at hr
    · cases hr
    · rename_i v hv
      split at hr
      · cases hr
      · rename_i w hw
        injection hr with hr
        injection hr with h1 h2
        subst h1
        rw [(fill_advertising_response_buffer_frame o _ _ hw).1,
          (fill_advertising_buffer_frame o srv _ _ hv).1]

/-- The instance of C24, amended, for the link layer of the examples, advertising, and the
connect request of the examples. -/
theorem callbacks_program_radio_witness :
    all_bytes example_connect_request
      ∧ example_advertising.state_ = link_layer_state.advertising
      ∧ (∃ ll2 calls,
          link_layer.received example_options example_advertising example_connect_request
            = .ok (ll2, calls)
          ∧ (calls.filter radio_call.is_schedule).length = 1
          ∧ (link_layer.is_valid_scan_request example_advertising example_connect_request = true
            → calls =
              [radio_call.schedule_transmit_and_receive
                example_advertising.current_advertising_channel_
                { buffer := buffer_name.adv_response_buffer_,
                  size := example_advertising.adv_response_size_ }
                delta_time.now { buffer := buffer_name.nullptr, size := 0 }]))
      ∧ ∃ ll2 call, link_layer.timeout example_options example_advertising = .ok (ll2, [call])
          ∧ call.is_schedule = true :=
  ⟨by decide, by decide,
    (callbacks_program_radio example_options small_temperature_service example_advertising
      example_connect_request (by decide)).1 (by decide)⟩

/-! ### C25: the sleep clock accuracy of the central -/

/-- C25: for every connect request (of 36 bytes, and every other buffer of bytes as well), the
index that `sleep_clock_accuracy` computes, `( rx[35] & 0xc0 ) >> 6`, is
`( rx[35] >> 6 ) & 0x3` and at most 3, so that it is an index
into the table of 8 entries; the result is the entry at that index, one of 500, 250, 150,
100 ppm, and none of 75, 50, 30, 20. When the link layer accepts the request, the cumulated
sleep clock accuracy is that value plus the own accuracy (a sum of `unsigned`, here below
`2^32`). -/
theorem sleep_clock_accuracy_index (o : link_layer_options) (ll : link_layer) (rx : List Nat)
    (hb : all_bytes rx) (hown : o.accuracy_ppm + 500 < 4294967296) :
    (rx.getD 35 0 &&& 0xc0) >>> 6 = (rx.getD 35 0 >>> 6) &&& 0x3
    ∧ (rx.getD 35 0 &&& 0xc0) >>> 6 ≤ 3
    ∧ (rx.getD 35 0 &&& 0xc0) >>> 6 < link_layer.inaccuracy_ppm.length
    ∧ link_layer.inaccuracy_ppm[(rx.getD 35 0 &&& 0xc0) >>> 6]?
        = some (link_layer.sleep_clock_accuracy rx)
    ∧ link_layer.sleep_clock_accuracy rx ∈ [500, 250, 150, 100]
    ∧ link_layer.sleep_clock_accuracy rx ∉ [75, 50, 30, 20]
    ∧ (ll.state_ = link_layer_state.advertising → ll.accepts rx 1125 →
        ∃ ll2 calls, link_layer.received o ll rx = .ok (ll2, calls)
          ∧ ll2.cumulated_sleep_clock_accuracy_
              = link_layer.sleep_clock_accuracy rx + o.accuracy_ppm) := by
  have h35 := getD_lt_of_all_bytes rx 35 hb
  have key : ∀ x < 256,
      (x &&& 0xc0) >>> 6 = (x >>> 6) &&& 0x3
      ∧ (x &&& 0xc0) >>> 6 ≤ 3
      ∧ (x &&& 0xc0) >>> 6 < link_layer.inaccuracy_ppm.length
      ∧ link_layer.inaccuracy_ppm[(x &&& 0xc0) >>> 6]?
          = some (link_layer.inaccuracy_ppm.getD ((x &&& 0xc0) >>> 6) 0)
      ∧ link_layer.inaccuracy_ppm.getD ((x &&& 0xc0) >>> 6) 0 ∈ [500, 250, 150, 100]
      ∧ link_layer.inaccuracy_ppm.getD ((x &&& 0xc0) >>> 6) 0 ∉ [75, 50, 30, 20] := by
    decide
  obtain ⟨k1, k2, k3, k4, k5, k6⟩ := key _ h35
  refine ⟨k1, k2, k3, k4, k5, k6, ?_⟩
  intro hs hacc
  rw [received_accepted o ll rx hs hb hacc]
  refine ⟨_, _, rfl, ?_⟩
  have hle : link_layer.sleep_clock_accuracy rx ≤ 500 := by
    have : ∀ y ∈ [500, 250, 150, 100], y ≤ 500 := by decide
    exact this _ k5
  exact Nat.mod_eq_of_lt (by omega)

/-- The instance of C25 for the connect request of the examples, with `rx[35] = 0xAA`: the
index is 2 and the accuracy of the central 150 ppm. -/
theorem sleep_clock_accuracy_index_witness :
    all_bytes example_connect_request
      ∧ example_options.accuracy_ppm + 500 < 4294967296
      ∧ (example_connect_request.getD 35 0 &&& 0xc0) >>> 6 = 2
      ∧ link_layer.sleep_clock_accuracy example_connect_request = 150
      ∧ link_layer.sleep_clock_accuracy example_connect_request ∈ [500, 250, 150, 100]
      ∧ ∃ ll2 calls,
          link_layer.received example_options example_advertising example_connect_request
            = .ok (ll2, calls)
          ∧ ll2.cumulated_sleep_clock_accuracy_ = 150 + 500 :=
  ⟨by decide, by decide, by decide, by decide,
    (sleep_clock_accuracy_index example_options example_advertising example_connect_request
      (by decide) (by decide)).2.2.2.2.1,
    (sleep_clock_accuracy_index example_options example_advertising example_connect_request
      (by decide) (by decide)).2.2.2.2.2.2 (by decide) (by decide)⟩

/-! ### C26: the bounds of the transmit window -/

/-- C26: for every connect request buffer, `parse_transmit_window_from_connect_request` returns
true if and only if `rx[21] ≤ 8` and `rx[21] ≤ u16le(rx[24..26])`. The products with the
1125 µs of a digit are below `2^31`, so that neither the multiplication in `int` nor the
conversion to the 32 bit of a `delta_time` changes them: the stored offset and interval are
the products. The same holds of the products with 1250 µs, and the decision is the same for
the two scales. -/
theorem transmit_window_decision (ll : link_layer) (rx : List Nat) (hb : all_bytes rx) :
    ((link_layer.parse_transmit_window_from_connect_request ll rx).1 = true
        ↔ rx.getD 21 0 ≤ 8 ∧ rx.getD 21 0 ≤ u16le rx 24)
    ∧ link_layer.read_16 rx 24 = u16le rx 24
    ∧ rx.getD 21 0 * 1125 < 2147483648 ∧ u16le rx 24 * 1125 < 2147483648
    ∧ rx.getD 21 0 * 1250 < 2147483648 ∧ u16le rx 24 * 1250 < 2147483648
    ∧ (link_layer.parse_transmit_window_from_connect_request ll rx).2.transmit_window_offset_
        = { usec := rx.getD 21 0 * 1125 }
    ∧ (link_layer.parse_transmit_window_from_connect_request ll rx).2.connection_interval_
        = { usec := u16le rx 24 * 1125 }
    ∧ ((rx.getD 21 0 * 1125 ≤ 10000 ∧ rx.getD 21 0 * 1125 ≤ u16le rx 24 * 1125)
        ↔ (rx.getD 21 0 * 1250 ≤ 10000 ∧ rx.getD 21 0 * 1250 ≤ u16le rx 24 * 1250)) := by
  have h0 := getD_lt_of_all_bytes rx 21 hb
  have h1 := u16le_lt rx 24 hb
  rw [parse_transmit_window_eq ll rx hb]
  refine ⟨?_, read_16_eq rx 24 hb, by omega, by omega, by omega, by omega, rfl, rfl, ?_⟩
  · simp only [decide_eq_true_eq]
    constructor
    · rintro ⟨a, b⟩; exact ⟨by omega, by omega⟩
    · rintro ⟨a, b⟩; exact ⟨by omega, by omega⟩
  · constructor
    · rintro ⟨a, b⟩; exact ⟨by omega, by omega⟩
    · rintro ⟨a, b⟩; exact ⟨by omega, by omega⟩

/-- The instance of C26 for the connect request of the examples, with `rx[21] = 3` and the
interval 24, and for the same request with `rx[21] = 9`, which is rejected. -/
theorem transmit_window_decision_witness :
    all_bytes example_connect_request
      ∧ (link_layer.parse_transmit_window_from_connect_request example_advertising
          example_connect_request).1 = true
      ∧ (link_layer.parse_transmit_window_from_connect_request example_advertising
          (example_connect_request.set 21 9)).1 = false
      ∧ ((link_layer.parse_transmit_window_from_connect_request example_advertising
            example_connect_request).1 = true
          ↔ example_connect_request.getD 21 0 ≤ 8
            ∧ example_connect_request.getD 21 0 ≤ u16le example_connect_request 24) :=
  ⟨by decide, by decide, by decide,
    (transmit_window_decision example_advertising example_connect_request (by decide)).1⟩

/-! ### The advertising data -/

/-- What `advertising_data` writes and returns, as long as the length of the name record fits
into its byte. -/
theorem advertising_data_eq (srv : server) (buffer : List Nat) (begin_ s : Nat)
    (h : begin_ + s ≤ buffer.length)
    (hm : ∀ n, srv.name = some n → min n.length (s - 5) ≤ 254) :
    srv.advertising_data buffer begin_ s
      = .ok (splice buffer begin_ (advertising_records srv.name s),
             (advertising_records srv.name s).length) := by
  unfold server.advertising_data advertising_records
  by_cases h3 : s ≥ 3
  · have hn3 : ¬ s < 3 := by omega
    have hb1 := write_bytes_splice buffer begin_ [2, gap_types.flags, 6] (by simp; omega)
    simp only [h3, hn3, if_true, if_false, hb1, bind, Except.bind, pure, Except.pure]
    cases hn : srv.name with
    | none =>
      simp only [List.append_nil]
      refine congrArg Except.ok (Prod.ext rfl ?_)
      simp only [List.length_cons, List.length_nil]
      omega
    | some name =>
      have hmn := hm name hn
      simp only []
      by_cases h2 : begin_ + s - (begin_ + 3) > 2
      · have h6 : 6 ≤ s := by omega
        have e5 : begin_ + s - (begin_ + 3) - 2 = s - 5 := by omega
        simp only [h2, if_true, e5]
        by_cases h0 : name.length > 0
        · have hne : name ≠ [] := by
            intro hnil; rw [hnil] at h0; simp at h0
          have hmod : (min name.length (s - 5) + 1) % 256 = min name.length (s - 5) + 1 :=
            Nat.mod_eq_of_lt (by omega)
          have hl1 := splice_length buffer begin_ [2, gap_types.flags, 6] (by simp; omega)
          have hb2 := write_bytes_splice (splice buffer begin_ [2, gap_types.flags, 6])
            (begin_ + 3)
            [min name.length (s - 5) + 1,
              if min name.length (s - 5) = name.length
              then gap_types.complete_local_name else gap_types.shortened_local_name]
            (by simp only [List.length_cons, List.length_nil]; omega)
          have e3 : begin_ + 3 = begin_ + [2, gap_types.flags, 6].length := rfl
          rw [e3, splice_splice buffer begin_ _ _
            (by simp only [List.length_cons, List.length_nil]; omega)] at hb2
          have hl2 := splice_length buffer begin_
            ([2, gap_types.flags, 6] ++ [min name.length (s - 5) + 1,
              if min name.length (s - 5) = name.length
              then gap_types.complete_local_name else gap_types.shortened_local_name])
            (by simp only [List.length_cons, List.length_nil, List.length_append]; omega)
          have hb3 := write_bytes_splice (splice buffer begin_
            ([2, gap_types.flags, 6] ++ [min name.length (s - 5) + 1,
              if min name.length (s - 5) = name.length
              then gap_types.complete_local_name else gap_types.shortened_local_name]))
            (begin_ + 3 + 2) (name.take (min name.length (s - 5)))
            (by simp only [List.length_take]; omega)
          have e4 : begin_ + 3 + 2 = begin_ + ([2, gap_types.flags, 6]
              ++ [min name.length (s - 5) + 1,
                if min name.length (s - 5) = name.length
                then gap_types.complete_local_name else gap_types.shortened_local_name]).length :=
            rfl
          rw [e4, splice_splice buffer begin_ _ _
            (by simp only [List.length_cons, List.length_nil, List.length_append,
                  List.length_take]; omega)] at hb3
          simp only [h0, if_true, hmod, e3, hb2]
          rw [e3] at e4
          rw [e4, hb3]
          simp only [hne, h6, ne_eq, not_false_eq_true, and_self, if_true]
          refine congrArg Except.ok (Prod.ext ?_ ?_)
          · simp only [gap_types.flags, gap_types.complete_local_name,
              gap_types.shortened_local_name, List.append_assoc]
          · simp only [List.length_cons, List.length_nil, List.length_append, List.length_take]
            omega
        · have hnil : name = [] := by
            apply List.eq_nil_of_length_eq_zero; omega
          simp only [h0, if_false, hnil, ne_eq, not_true_eq_false, false_and, List.append_nil]
          refine congrArg Except.ok (Prod.ext rfl ?_)
          simp only [List.length_cons, List.length_nil]
          omega
      · have h6 : ¬ 6 ≤ s := by omega
        simp only [h2, if_false, h6, and_false, List.append_nil]
        refine congrArg Except.ok (Prod.ext rfl ?_)
        simp only [List.length_cons, List.length_nil]
        omega
  · have hn3 : s < 3 := by omega
    simp only [h3, hn3, if_true, if_false, bind, Except.bind, pure, Except.pure]
    have h2 : ¬ begin_ + s - begin_ > 2 := by omega
    cases hn : srv.name with
    | none =>
      simp only [splice_nil, List.length_nil]
      refine congrArg Except.ok (Prod.ext rfl ?_)
      simp only []
      omega
    | some name =>
      simp only [h2, if_false, splice_nil, List.length_nil]
      refine congrArg Except.ok (Prod.ext rfl ?_)
      simp only []
      omega

theorem splice_at (p q t bytes : List Nat) (pos : Nat) (hp : p.length = pos)
    (hq : q.length = bytes.length) : splice (p ++ q ++ t) pos bytes = p ++ bytes ++ t := by
  subst hp
  have := splice_append p q t bytes hq
  simpa [List.append_assoc] using this

/-- The buffer that `fill_advertising_buffer` leaves, for data `recs` of at most 31 bytes. -/
theorem fill_advertising_buffer_eq (o : link_layer_options) (srv : server) (ll : link_layer)
    (hw : ll.adv_buffer_.length = 39) (ha : ll.address_.length = 6) :
    link_layer.fill_advertising_buffer o srv ll = .ok
      { ll with
        adv_buffer_ := [if o.is_random then 0x40 else 0x00,
            6 + (advertising_records srv.name 31).length] ++ ll.address_
          ++ advertising_records srv.name 31
          ++ ll.adv_buffer_.drop (8 + (advertising_records srv.name 31).length)
        adv_size_ := 8 + (advertising_records srv.name 31).length } := by
  have hrec : ∀ buffer : List Nat, buffer.length = 39 →
      srv.advertising_data buffer 8 31
        = .ok (splice buffer 8 (advertising_records srv.name 31),
               (advertising_records srv.name 31).length) := by
    intro buffer hl
    exact advertising_data_eq srv buffer 8 31 (by omega) (fun n _ => by omega)
  have hn : (advertising_records srv.name 31).length ≤ 31 := by
    obtain ⟨b, n, hd, _, hle⟩ := advertising_data_ok srv ll.adv_buffer_ 8 31 (by omega)
    rw [hrec ll.adv_buffer_ hw] at hd
    injection hd with hd
    injection hd with _ h2
    omega
  generalize advertising_records srv.name 31 = recs at *
  obtain ⟨p, q, t, hbuf, hp, hq⟩ := split_at ll.adv_buffer_ 8 recs.length (by omega)
  have hqt : q.length + t.length = 31 := by
    have := congrArg List.length hbuf
    simp only [List.length_append] at this
    omega
  obtain ⟨a0, a1, a2, a3, a4, a5, haddr⟩ :
      ∃ a0 a1 a2 a3 a4 a5, ll.address_ = [a0, a1, a2, a3, a4, a5] := by
    match ll.address_, ha with
    | [a0, a1, a2, a3, a4, a5], _ => exact ⟨a0, a1, a2, a3, a4, a5, rfl⟩
  match p, hp with
  | [b0, b1, c0, c1, c2, c3, c4, c5], _ =>
    have hdrop : ll.adv_buffer_.drop (8 + recs.length) = t := by
      rw [hbuf, ← List.append_assoc, List.drop_append_of_le_length (by simp; omega)]
      have : ([b0, b1, c0, c1, c2, c3, c4, c5] ++ q).length = 8 + recs.length := by simp; omega
      rw [← this, List.drop_length, List.nil_append]
    have tail : ∀ h : Nat,
        (do
          let (adv_buffer_, size) ← srv.advertising_data
            ([h, b1, c0, c1, c2, c3, c4, c5] ++ q ++ t)
            (link_layer.advertising_pdu_header_size + link_layer.address_length)
            link_layer.max_advertising_data_size
          let adv_buffer_ ← write_bytes adv_buffer_ 1
            [(link_layer.address_length + size) % 256]
          let adv_buffer_ ← write_bytes adv_buffer_ 2 ll.address_
          (pure { ll with
            adv_buffer_ := adv_buffer_
            adv_size_ := link_layer.advertising_pdu_header_size + adv_buffer_.getD 1 0 }
            : Except fault link_layer))
        = .ok { ll with
            adv_buffer_ := [h, 6 + recs.length] ++ ll.address_ ++ recs ++ t
            adv_size_ := 8 + recs.length } := by
      intro h
      have e1 := hrec ([h, b1, c0, c1, c2, c3, c4, c5] ++ q ++ t) (by simp; omega)
      rw [splice_at [h, b1, c0, c1, c2, c3, c4, c5] q t recs 8 rfl hq] at e1
      have e2 := write_bytes_splice ([h, b1, c0, c1, c2, c3, c4, c5] ++ recs ++ t) 1
        [(6 + recs.length) % 256] (by simp)
      have e2b : splice ([h, b1, c0, c1, c2, c3, c4, c5] ++ recs ++ t) 1
          [(6 + recs.length) % 256]
          = [h, 6 + recs.length, c0, c1, c2, c3, c4, c5] ++ recs ++ t := by
        have := splice_at [h] [b1] ([c0, c1, c2, c3, c4, c5] ++ recs ++ t)
          [(6 + recs.length) % 256] 1 rfl rfl
        rw [Nat.mod_eq_of_lt (by omega)] at this ⊢
        simpa using this
      rw [e2b] at e2
      have e3 := write_bytes_splice ([h, 6 + recs.length, c0, c1, c2, c3, c4, c5] ++ recs ++ t)
        2 [a0, a1, a2, a3, a4, a5] (by simp)
      have e3b : splice ([h, 6 + recs.length, c0, c1, c2, c3, c4, c5] ++ recs ++ t) 2
          [a0, a1, a2, a3, a4, a5]
          = [h, 6 + recs.length, a0, a1, a2, a3, a4, a5] ++ recs ++ t := by
        have := splice_at [h, 6 + recs.length] [c0, c1, c2, c3, c4, c5] (recs ++ t)
          [a0, a1, a2, a3, a4, a5] 2 rfl rfl
        simpa using this
      rw [e3b] at e3
      simp only [link_layer.advertising_pdu_header_size, link_layer.address_length,
        link_layer.max_advertising_data_size] at e1 ⊢
      rw [haddr]
      simp only [e1, e2, e3, bind, Except.bind, pure, Except.pure]
      simp
      omega
    have w0 := write_bytes_splice ll.adv_buffer_ 0 [link_layer.adv_ind_pdu_type_code]
      (by simp; omega)
    have w0b : splice ll.adv_buffer_ 0 [link_layer.adv_ind_pdu_type_code]
        = [0, b1, c0, c1, c2, c3, c4, c5] ++ q ++ t := by
      rw [hbuf]
      have := splice_at [] [b0] ([b1, c0, c1, c2, c3, c4, c5] ++ q ++ t)
        [link_layer.adv_ind_pdu_type_code] 0 rfl rfl
      simpa [link_layer.adv_ind_pdu_type_code] using this
    rw [w0b] at w0
    unfold link_layer.fill_advertising_buffer
    simp only [w0, bind, Except.bind, pure, Except.pure] at tail ⊢
    rw [hdrop]
    by_cases hr : o.is_random = true
    · have w1 := write_bytes_splice ([0, b1, c0, c1, c2, c3, c4, c5] ++ q ++ t) 0
        [([0, b1, c0, c1, c2, c3, c4, c5] ++ q ++ t).getD 0 0 ||| link_layer.header_txaddr_field]
        (by simp)
      have w1b : splice ([0, b1, c0, c1, c2, c3, c4, c5] ++ q ++ t) 0
          [([0, b1, c0, c1, c2, c3, c4, c5] ++ q ++ t).getD 0 0
            ||| link_layer.header_txaddr_field]
          = [0x40, b1, c0, c1, c2, c3, c4, c5] ++ q ++ t := by
        have := splice_at [] [0] ([b1, c0, c1, c2, c3, c4, c5] ++ q ++ t)
          [0x40] 0 rfl rfl
        simpa [link_layer.header_txaddr_field] using this
      rw [w1b] at w1
      simp only [hr, if_true, w1]
      exact tail 0x40
    · simp only [hr]
      exact tail 0

/-- The buffer that `fill_advertising_response_buffer` leaves. -/
theorem fill_advertising_response_buffer_eq (o : link_layer_options) (ll : link_layer)
    (hw : ll.adv_response_buffer_.length = 39) (ha : ll.address_.length = 6) :
    link_layer.fill_advertising_response_buffer o ll = .ok
      { ll with
        adv_response_buffer_ := [if o.is_random then 0x44 else 0x04, 6] ++ ll.address_
          ++ ll.adv_response_buffer_.drop 8
        adv_response_size_ := 8 } := by
  obtain ⟨p, q, t, hbuf, hp, hq⟩ := split_at ll.adv_response_buffer_ 8 0 (by omega)
  have hq0 : q = [] := List.eq_nil_of_length_eq_zero hq
  subst hq0
  have ht : t.length = 31 := by
    have := congrArg List.length hbuf
    simp only [List.length_append, List.length_nil] at this
    omega
  obtain ⟨a0, a1, a2, a3, a4, a5, haddr⟩ :
      ∃ a0 a1 a2 a3 a4 a5, ll.address_ = [a0, a1, a2, a3, a4, a5] := by
    match ll.address_, ha with
    | [a0, a1, a2, a3, a4, a5], _ => exact ⟨a0, a1, a2, a3, a4, a5, rfl⟩
  match p, hp with
  | [b0, b1, c0, c1, c2, c3, c4, c5], _ =>
    simp only [List.nil_append] at hbuf
    have hdrop : ll.adv_response_buffer_.drop 8 = t := by
      rw [hbuf]; rfl
    have tail : ∀ h : Nat,
        (do
          let buffer ← write_bytes ([h, b1, c0, c1, c2, c3, c4, c5] ++ t) 1
            [link_layer.address_length]
          let buffer ← write_bytes buffer 2 ll.address_
          (pure { ll with
            adv_response_buffer_ := buffer
            adv_response_size_ := link_layer.advertising_pdu_header_size + buffer.getD 1 0 }
            : Except fault link_layer))
        = .ok { ll with
            adv_response_buffer_ := [h, 6] ++ ll.address_ ++ t
            adv_response_size_ := 8 } := by
      intro h
      have e2 := write_bytes_splice ([h, b1, c0, c1, c2, c3, c4, c5] ++ t) 1
        [link_layer.address_length] (by simp)
      have e2b : splice ([h, b1, c0, c1, c2, c3, c4, c5] ++ t) 1 [link_layer.address_length]
          = [h, 6, c0, c1, c2, c3, c4, c5] ++ t := by
        have := splice_at [h] [b1] ([c0, c1, c2, c3, c4, c5] ++ t)
          [link_layer.address_length] 1 rfl rfl
        simpa [link_layer.address_length] using this
      rw [e2b] at e2
      have e3 := write_bytes_splice ([h, 6, c0, c1, c2, c3, c4, c5] ++ t)
        2 [a0, a1, a2, a3, a4, a5] (by simp)
      have e3b : splice ([h, 6, c0, c1, c2, c3, c4, c5] ++ t) 2 [a0, a1, a2, a3, a4, a5]
          = [h, 6, a0, a1, a2, a3, a4, a5] ++ t := by
        have := splice_at [h, 6] [c0, c1, c2, c3, c4, c5] t [a0, a1, a2, a3, a4, a5] 2 rfl rfl
        simpa using this
      rw [e3b] at e3
      rw [haddr]
      simp only [e2, e3, bind, Except.bind, pure, Except.pure,
        link_layer.advertising_pdu_header_size]
      simp
    have w0 := write_bytes_splice ll.adv_response_buffer_ 0
      [link_layer.scan_response_pdu_type_code] (by simp; omega)
    have w0b : splice ll.adv_response_buffer_ 0 [link_layer.scan_response_pdu_type_code]
        = [4, b1, c0, c1, c2, c3, c4, c5] ++ t := by
      rw [hbuf]
      have := splice_at [] [b0] ([b1, c0, c1, c2, c3, c4, c5] ++ t)
        [link_layer.scan_response_pdu_type_code] 0 rfl rfl
      simpa [link_layer.scan_response_pdu_type_code] using this
    rw [w0b] at w0
    unfold link_layer.fill_advertising_response_buffer
    simp only [w0, bind, Except.bind, pure, Except.pure] at tail ⊢
    rw [hdrop]
    by_cases hr : o.is_random = true
    · have w1 := write_bytes_splice ([4, b1, c0, c1, c2, c3, c4, c5] ++ t) 0
        [([4, b1, c0, c1, c2, c3, c4, c5] ++ t).getD 0 0 ||| link_layer.header_txaddr_field]
        (by simp)
      have w1b : splice ([4, b1, c0, c1, c2, c3, c4, c5] ++ t) 0
          [([4, b1, c0, c1, c2, c3, c4, c5] ++ t).getD 0 0 ||| link_layer.header_txaddr_field]
          = [0x44, b1, c0, c1, c2, c3, c4, c5] ++ t := by
        have := splice_at [] [4] ([b1, c0, c1, c2, c3, c4, c5] ++ t) [0x44] 0 rfl rfl
        simpa [link_layer.header_txaddr_field] using this
      rw [w1b] at w1
      simp only [hr, if_true, w1]
      exact tail 0x44
    · simp only [hr]
      exact tail 4

theorem advertising_records_length_le (name : Option (List Nat)) (s : Nat) :
    (advertising_records name s).length ≤ s := by
  unfold advertising_records
  split
  · simp
  · cases name with
    | none => simp; omega
    | some n =>
      simp only []
      split
      · simp only [List.length_append, List.length_cons, List.length_nil, List.length_take]
        omega
      · simp; omega

/-! ### C22: what `run` sets up -/

/-- C22: `run( server )` on a link layer in the state initial, with the current channel 37 of
the constructor, its two arrays of 39 bytes and a 6 byte address. `advertising_data( buf, 31 )`
returns the number `n ≤ 31` of the bytes it wrote, the advertising data of the server. After
`run`, `adv_buffer_` is `0x00`, or `0x40` if the address is random, then `6 + n`, the own
address and the advertising data, with the rest of the array untouched, and
`adv_size_ = 8 + n ≤ 39`; `adv_response_buffer_` is `0x04`, or `0x44` if random, then `6` and
the address, with `adv_response_size_ = 8`; the radio has been set to the access address
`0x8E89BED6` and the CRC init `0x555555`, and then one transmit and receive of the `8 + n` bytes
of `adv_buffer_` has been scheduled on channel 37, now, with the 40 bytes of
`receive_buffer_`; the state is advertising. -/
theorem run_fills_buffers (o : link_layer_options) (srv : server) (ll : link_layer)
    (hs : ll.state_ = link_layer_state.initial) (hc : ll.current_advertising_channel_ = 37)
    (hw : ll.well_sized) (ha : ll.address_.length = 6) :
    (advertising_records srv.name 31).length ≤ 31
    ∧ (∀ buffer : List Nat, buffer.length = 39 →
        srv.advertising_data buffer 8 31
          = .ok (splice buffer 8 (advertising_records srv.name 31),
                 (advertising_records srv.name 31).length))
    ∧ link_layer.run o srv ll = .ok
        ({ ll with
            adv_buffer_ := [if o.is_random then 0x40 else 0x00,
                6 + (advertising_records srv.name 31).length] ++ ll.address_
              ++ advertising_records srv.name 31
              ++ ll.adv_buffer_.drop (8 + (advertising_records srv.name 31).length)
            adv_size_ := 8 + (advertising_records srv.name 31).length
            adv_response_buffer_ := [if o.is_random then 0x44 else 0x04, 6] ++ ll.address_
              ++ ll.adv_response_buffer_.drop 8
            adv_response_size_ := 8
            state_ := link_layer_state.advertising },
         [radio_call.set_access_address_and_crc_init 0x8E89BED6 0x555555,
          radio_call.schedule_transmit_and_receive 37
            { buffer := buffer_name.adv_buffer_,
              size := 8 + (advertising_records srv.name 31).length }
            delta_time.now { buffer := buffer_name.receive_buffer_, size := 40 }])
    ∧ 8 + (advertising_records srv.name 31).length ≤ 39 := by
  have hn := advertising_records_length_le srv.name 31
  refine ⟨hn, ?_, ?_, by omega⟩
  · intro buffer hl
    exact advertising_data_eq srv buffer 8 31 (by omega) (fun n _ => by omega)
  · have h1 := fill_advertising_buffer_eq o srv
      { ll with state_ := link_layer_state.advertising } hw.1 ha
    have h2 := fill_advertising_response_buffer_eq o
      { ll with
        state_ := link_layer_state.advertising
        adv_buffer_ := [if o.is_random then 0x40 else 0x00,
            6 + (advertising_records srv.name 31).length] ++ ll.address_
          ++ advertising_records srv.name 31
          ++ ll.adv_buffer_.drop (8 + (advertising_records srv.name 31).length)
        adv_size_ := 8 + (advertising_records srv.name 31).length } hw.2 ha
    dsimp only at h1 h2
    simp only [link_layer.run, hs, if_true, h1, h2, bind, Except.bind, pure, Except.pure,
      link_layer.advertising_radio_access_address, link_layer.advertising_crc_init]
    rw [hc]

/-- The instance of C22 for the server with the name `Temp`, the default options (a random
address) and zeroed arrays: the advertising data are `02 01 06 05 09 54 65 6D 70`, and 17 bytes
are advertised. -/
theorem run_fills_buffers_witness :
    ((link_layer.link_layer example_options raw_memory).state_ = link_layer_state.initial
      ∧ (link_layer.link_layer example_options raw_memory).current_advertising_channel_ = 37
      ∧ (link_layer.link_layer example_options raw_memory).well_sized
      ∧ (link_layer.link_layer example_options raw_memory).address_.length = 6)
    ∧ advertising_records named_temperature_service.name 31
        = [0x02, 0x01, 0x06, 0x05, 0x09, 0x54, 0x65, 0x6d, 0x70]
    ∧ link_layer.run example_options named_temperature_service
        (link_layer.link_layer example_options raw_memory) = .ok
        ({ example_advertising with
            adv_buffer_ := [0x40, 0x0f, 0x47, 0x11, 0x08, 0x15, 0x0f, 0xc0,
                0x02, 0x01, 0x06, 0x05, 0x09, 0x54, 0x65, 0x6d, 0x70] ++ List.replicate 22 0
            adv_size_ := 17 },
         [radio_call.set_access_address_and_crc_init 0x8E89BED6 0x555555,
          radio_call.schedule_transmit_and_receive 37
            { buffer := buffer_name.adv_buffer_, size := 17 }
            delta_time.now { buffer := buffer_name.receive_buffer_, size := 40 }]) :=
  ⟨⟨by decide, by decide, by decide, by decide⟩, by decide,
    (run_fills_buffers example_options named_temperature_service
      (link_layer.link_layer example_options raw_memory) (by decide) (by decide) (by decide)
      (by decide)).2.2.1.trans (by decide)⟩

/-! ### C23: the advertising data of the server -/

/-- C23 is not what the code does for a name record of more than 255 bytes: the length of the
record is stored into one byte. For the name of 255 characters and a buffer of 260 bytes, `m`
is 255 and `advertising_data` stores `(m + 1) mod 256 = 0` in front of the type `0x09` and the
255 characters, and returns 260; the bytes written are not the record `{256, 0x09, name}` of
the claim, and they are not a sequence of AD records: a record of length 0 follows the
flags. -/
theorem advertising_data_records_counterexample :
    long_named_service.advertising_data (buffer 260) 0 260
      = .ok ([0x02, 0x01, 0x06, 0x00, 0x09] ++ List.replicate 255 0x61, 260)
    ∧ advertising_records long_named_service.name 260
      = [0x02, 0x01, 0x06, 256, 0x09] ++ List.replicate 255 0x61
    ∧ parse_ad_records 260 ([0x02, 0x01, 0x06, 0x00, 0x09] ++ List.replicate 255 0x61) = none := by
  refine ⟨by decide, by decide, by decide⟩

/-- C23, amended: for every buffer size `s` and configured name of length `len` (an absent name
counts as none) such that `m = min(len, s - 5)` is at most 254, which is so for every
`s ≤ 259`, `advertising_data` returns a count `r ≤ s` and writes exactly `r` bytes, at the
begin of the buffer it is given: nothing (`r = 0`) if `s < 3`; otherwise the flags record
`02 01 06`, followed, when a non-empty name is configured and `s ≥ 6`, by one record
`{m + 1, type, name[0..m)}` with the type `0x09` if `m = len` and `0x08` otherwise, so that
`r = 3` or `r = 5 + m`; the written bytes are a sequence of AD records (at most two) that take
`r` bytes together. -/
theorem advertising_data_records (srv : server) (buffer : List Nat) (begin_ s : Nat)
    (h : begin_ + s ≤ buffer.length)
    (hm : ∀ n, srv.name = some n → min n.length (s - 5) ≤ 254) :
    srv.advertising_data buffer begin_ s
      = .ok (splice buffer begin_ (advertising_records srv.name s),
             (advertising_records srv.name s).length)
    ∧ (advertising_records srv.name s).length ≤ s
    ∧ (s < 3 → advertising_records srv.name s = [])
    ∧ (3 ≤ s → (∀ n, srv.name = some n → n = [] ∨ s < 6) →
        advertising_records srv.name s = [0x02, 0x01, 0x06])
    ∧ (∀ n, srv.name = some n → n ≠ [] → 6 ≤ s →
        advertising_records srv.name s
          = [0x02, 0x01, 0x06] ++ [min n.length (s - 5) + 1,
              if min n.length (s - 5) = n.length then 0x09 else 0x08]
            ++ n.take (min n.length (s - 5))
        ∧ (advertising_records srv.name s).length = 5 + min n.length (s - 5)
        ∧ min n.length (s - 5) + 1 < 256)
    ∧ ∃ records,
        parse_ad_records (advertising_records srv.name s).length (advertising_records srv.name s)
          = some records
        ∧ records.length ≤ 2
        ∧ (records.map (fun r => 2 + r.2.length)).sum = (advertising_records srv.name s).length := by
  refine ⟨advertising_data_eq srv buffer begin_ s h hm,
    advertising_records_length_le srv.name s, ?_, ?_, ?_, ?_⟩
  · intro h3
    simp [advertising_records, h3]
  · intro h3 hname
    have hn3 : ¬ s < 3 := by omega
    unfold advertising_records
    cases hn : srv.name with
    | none => simp [hn3]
    | some n =>
      have := hname n hn
      have hc : ¬ (n ≠ [] ∧ 6 ≤ s) := by
        rintro ⟨a, b⟩
        rcases this with rfl | h6
        · exact a rfl
        · omega
      simp [hn3, hc]
  · intro n hn hne h6
    have hn3 : ¬ s < 3 := by omega
    have e : advertising_records srv.name s
        = [0x02, 0x01, 0x06] ++ [min n.length (s - 5) + 1,
            if min n.length (s - 5) = n.length then 0x09 else 0x08]
          ++ n.take (min n.length (s - 5)) := by
      unfold advertising_records
      simp [hn, hn3, hne, h6]
    have := hm n hn
    refine ⟨e, ?_, by omega⟩
    rw [e]
    simp only [List.length_append, List.length_cons, List.length_nil, List.length_take]
    omega
  · by_cases h3 : s < 3
    · refine ⟨[], ?_, by simp, ?_⟩ <;> simp [advertising_records, h3, parse_ad_records]
    · by_cases hname : ∃ n, srv.name = some n ∧ n ≠ [] ∧ 6 ≤ s
      · obtain ⟨n, hn, hne, h6⟩ := hname
        have e : advertising_records srv.name s
            = 2 :: 1 :: 6 :: (min n.length (s - 5) + 1)
              :: (if min n.length (s - 5) = n.length then 0x09 else 0x08)
              :: n.take (min n.length (s - 5)) := by
          unfold advertising_records
          simp [hn, h3, hne, h6]
        have hpos : 0 < n.length := List.length_pos.mpr hne
        have hlen : (advertising_records srv.name s).length
            = (min n.length (s - 5) + 3) + 1 + 1 := by
          rw [e]
          simp only [List.length_cons, List.length_take]
          omega
        refine ⟨[(1, [6]), (if min n.length (s - 5) = n.length then 0x09 else 0x08,
          n.take (min n.length (s - 5)))], ?_, by simp, ?_⟩
        · rw [hlen, e]
          have hl : (List.take (min n.length (s - 5)) n).length = min n.length (s - 5) := by
            simp only [List.length_take]; omega
          have hd : List.drop (min n.length (s - 5)) (List.take (min n.length (s - 5)) n)
              = [] := List.drop_eq_nil_of_le (by omega)
          simp [parse_ad_records, hl, hd]
        · rw [hlen]
          simp only [List.map_cons, List.map_nil, List.sum_cons, List.sum_nil, List.length_cons,
            List.length_nil, List.length_take]
          omega
      · have e : advertising_records srv.name s = [2, 1, 6] := by
          unfold advertising_records
          cases hn : srv.name with
          | none => simp [h3]
          | some n =>
            have hc : ¬ (n ≠ [] ∧ 6 ≤ s) := fun hh => hname ⟨n, hn, hh.1, hh.2⟩
            simp [h3, hc]
        refine ⟨[(1, [6])], ?_, by simp, ?_⟩
        · rw [e]
          simp [parse_ad_records]
        · rw [e]
          rfl

/-- The instance of C23, amended, for the server with the name `Temp` and the 31 bytes that
the link layer offers, and for 7 bytes, into which the name is shortened to `Te`. -/
theorem advertising_data_records_witness :
    (8 + 31 ≤ (buffer 39).length
      ∧ ∀ n, named_temperature_service.name = some n → min n.length (31 - 5) ≤ 254)
    ∧ named_temperature_service.advertising_data (buffer 39) 8 31
      = .ok (buffer 8 ++ [0x02, 0x01, 0x06, 0x05, 0x09, 0x54, 0x65, 0x6d, 0x70] ++ buffer 22, 9)
    ∧ named_temperature_service.advertising_data (buffer 39) 8 7
      = .ok (buffer 8 ++ [0x02, 0x01, 0x06, 0x03, 0x08, 0x54, 0x65] ++ buffer 24, 7) :=
  have hm : ∀ n, named_temperature_service.name = some n → min n.length (31 - 5) ≤ 254 := by
    intro n hn
    have : n.length = 4 := by
      simp only [named_temperature_service, Option.some.injEq] at hn
      rw [← hn]; rfl
    omega
  ⟨⟨by decide, hm⟩,
    (advertising_data_records named_temperature_service (buffer 39) 8 31 (by decide) hm).1.trans
      (by decide),
    by decide⟩

/-! ### C29: the tuples of a Find Information response -/

theorem handles_of_width_pairwise (srv : server) (only_16_bit : Bool) (starting ending : Nat) :
    (srv.handles_of_width only_16_bit starting ending).Pairwise (· < ·) := by
  unfold server.handles_of_width
  exact List.Pairwise.filter _ (List.pairwise_lt_range' _ _)

/-- C29: for every Find Information request that passes the checks (`1 ≤ starting ≤ ending`,
`starting ≤ N`), with an output capacity `c ≥ 23`, on a server that satisfies the invariant of
the data model and has at most 65534 attributes: the response is `05`, the format and `k ≥ 1`
tuples, each of 4 bytes for the format `0x01` and of 18 bytes for the format `0x02`, and
`out_size = 2 + 4k` resp. `2 + 18k`; the handle of the first tuple is `starting`; the handles
are strictly increasing and are a prefix of the list of the handles in
`[starting, min(ending, N)]` whose attributes have the width of attribute `starting`; the
prefix is the whole list, or fewer than 4 resp. 18 bytes remain behind the last tuple. -/
theorem find_information_prefix (srv : server) (rest output : List Nat)
    (hinv : srv.data_model_invariant) (hN : srv.number_of_attributes ≤ 65534)
    (hb : all_bytes rest) (hsz : rest.length = 4) (hout : 23 ≤ output.length)
    (h1 : 1 ≤ u16le (0x04 :: rest) 1) (h2 : u16le (0x04 :: rest) 1 ≤ u16le (0x04 :: rest) 3)
    (h3 : u16le (0x04 :: rest) 1 ≤ srv.number_of_attributes) :
    ∃ handles m,
      l2cap_input srv (0x04 :: rest) output = .ok m
      ∧ m.output.take m.out_size
          = [0x05, if srv.is_16_bit (u16le (0x04 :: rest) 1) then 0x01 else 0x02]
            ++ handles.flatMap srv.handle_uuid_tuple
      ∧ (∀ h ∈ handles, (srv.handle_uuid_tuple h).length
          = if srv.is_16_bit (u16le (0x04 :: rest) 1) then 4 else 18)
      ∧ m.out_size
          = 2 + (if srv.is_16_bit (u16le (0x04 :: rest) 1) then 4 else 18) * handles.length
      ∧ m.out_size ≤ output.length
      ∧ 1 ≤ handles.length
      ∧ handles.head? = some (u16le (0x04 :: rest) 1)
      ∧ handles.Pairwise (· < ·)
      ∧ handles <+: srv.handles_of_width (srv.is_16_bit (u16le (0x04 :: rest) 1))
          (u16le (0x04 :: rest) 1) (u16le (0x04 :: rest) 3)
      ∧ (handles = srv.handles_of_width (srv.is_16_bit (u16le (0x04 :: rest) 1))
            (u16le (0x04 :: rest) 1) (u16le (0x04 :: rest) 3)
          ∨ output.length - m.out_size
              < if srv.is_16_bit (u16le (0x04 :: rest) 1) then 4 else 18) := by
  obtain ⟨log, hl⟩ := find_information_eq srv rest output hinv hN hb hsz hout h1 h2 h3
  generalize hs : u16le (0x04 :: rest) 1 = s at *
  generalize he : u16le (0x04 :: rest) 3 = e at *
  have hts : tuple_size (srv.is_16_bit s) = if srv.is_16_bit s then 4 else 18 := rfl
  have hfmt : uuid_format (srv.is_16_bit s) = if srv.is_16_bit s then 0x01 else 0x02 := rfl
  have hpos : 0 < tuple_size (srv.is_16_bit s) := by rw [hts]; split <;> omega
  have hle18 : tuple_size (srv.is_16_bit s) ≤ 18 := by rw [hts]; split <;> omega
  have hcons := handles_of_width_cons srv (srv.is_16_bit s) s e ⟨h2, h3⟩
  rw [if_pos rfl] at hcons
  have hk : 1 ≤ (output.length - 2) / tuple_size (srv.is_16_bit s) := by
    rw [Nat.le_div_iff_mul_le hpos]
    omega
  have hfi : srv.find_information_handles s e output.length
      = (srv.handles_of_width (srv.is_16_bit s) s e).take
          ((output.length - 2) / tuple_size (srv.is_16_bit s)) := rfl
  have hlen_le : (srv.find_information_handles s e output.length).length
      ≤ (output.length - 2) / tuple_size (srv.is_16_bit s) := by
    rw [hfi, List.length_take]; omega
  have hfit : tuple_size (srv.is_16_bit s)
      * (srv.find_information_handles s e output.length).length ≤ output.length - 2 :=
    le_trans (Nat.mul_le_mul_left _ hlen_le) (Nat.mul_div_le _ _)
  have htl := tuples_length srv hinv (srv.is_16_bit s) s e
    ((output.length - 2) / tuple_size (srv.is_16_bit s)) h1
  rw [← hfi] at htl
  refine ⟨srv.find_information_handles s e output.length, _, hl, ?_, ?_, ?_, ?_, ?_, ?_, ?_, ?_,
    ?_⟩
  · simp only []
    rw [List.take_append_of_le_length (by
      simp only [List.length_append, List.length_cons, List.length_nil, htl]; omega)]
    rw [List.take_of_length_le (by
      simp only [List.length_append, List.length_cons, List.length_nil, htl]; omega), hfmt]
  · intro h hm
    obtain ⟨ha, _, hc, hd⟩ := mem_handles_of_width srv (srv.is_16_bit s) s e h
      (List.mem_of_mem_take hm)
    rw [handle_uuid_tuple_length srv hinv h (by omega) hc, hd, hts]
  · simp only [hts]
  · simp only []
    omega
  · rw [hfi, hcons, List.length_take]
    simp only [List.length_cons]
    omega
  · rw [hfi, hcons]
    obtain ⟨k, hk'⟩ : ∃ k, (output.length - 2) / tuple_size (srv.is_16_bit s) = k + 1 :=
      ⟨(output.length - 2) / tuple_size (srv.is_16_bit s) - 1, by omega⟩
    rw [hk']
    rfl
  · rw [hfi]
    exact (handles_of_width_pairwise srv _ s e).sublist (List.take_sublist _ _)
  · rw [hfi]
    exact List.take_prefix _ _
  · simp only []
    by_cases hall : (srv.handles_of_width (srv.is_16_bit s) s e).length
        ≤ (output.length - 2) / tuple_size (srv.is_16_bit s)
    · left
      rw [hfi, List.take_of_length_le hall]
    · right
      have hlen : (srv.find_information_handles s e output.length).length
          = (output.length - 2) / tuple_size (srv.is_16_bit s) := by
        rw [hfi, List.length_take]; omega
      rw [hlen, ← hts]
      have := Nat.mod_lt (output.length - 2) hpos
      have := Nat.div_add_mod (output.length - 2) (tuple_size (srv.is_16_bit s))
      omega

/-- The instance of C29 for the three attribute server, whose first two attributes have 16 bit
UUIDs: the request `04 01 00 FF FF` is answered with `05 01 01 00 00 28 02 00 03 28`. -/
theorem find_information_prefix_witness :
    (small_temperature_service.data_model_invariant
      ∧ small_temperature_service.number_of_attributes ≤ 65534
      ∧ all_bytes [0x01, 0x00, 0xFF, 0xFF] ∧ 23 ≤ (buffer 23).length
      ∧ 1 ≤ u16le [0x04, 0x01, 0x00, 0xFF, 0xFF] 1
      ∧ u16le [0x04, 0x01, 0x00, 0xFF, 0xFF] 1 ≤ u16le [0x04, 0x01, 0x00, 0xFF, 0xFF] 3
      ∧ u16le [0x04, 0x01, 0x00, 0xFF, 0xFF] 1 ≤ small_temperature_service.number_of_attributes)
    ∧ ∃ handles m,
      l2cap_input small_temperature_service [0x04, 0x01, 0x00, 0xFF, 0xFF] (buffer 23) = .ok m
      ∧ m.output.take m.out_size
          = [0x05, 0x01] ++ handles.flatMap small_temperature_service.handle_uuid_tuple
      ∧ m.out_size = 2 + 4 * handles.length
      ∧ handles.head? = some 1
      ∧ handles.Pairwise (· < ·)
      ∧ handles <+: small_temperature_service.handles_of_width true 1 0xFFFF :=
  ⟨⟨by decide, by decide, by decide, by decide, by decide, by decide, by decide⟩,
    match find_information_prefix small_temperature_service [0x01, 0x00, 0xFF, 0xFF] (buffer 23)
      (by decide) (by decide) (by decide) (by decide) (by decide) (by decide) (by decide)
      (by decide) with
    | ⟨handles, m, hm, ho, _, hsize, _, _, hhead, hpw, hpre, _⟩ =>
      ⟨handles, m, hm, ho, hsize, hhead, hpw, hpre⟩⟩

/-! ### One call of `collect_attributes::operator()` -/

theorem splice_data_then_handle (output : List Nat) (cur : Nat) (hd data : List Nat)
    (hhd : hd.length = 2) (h : cur + 2 + data.length ≤ output.length) :
    splice (output.take (cur + 2) ++ data ++ output.drop (cur + 2 + data.length)) cur hd
      = splice output cur (hd ++ data) := by
  obtain ⟨p, q, t, rfl, hp, hq⟩ := split_at output cur (2 + data.length) (by omega)
  obtain ⟨q1, q2, t2, rfl, hq1, hq2⟩ := split_at q 2 data.length (by omega)
  have ht2 : t2 = [] := by
    apply List.eq_nil_of_length_eq_zero
    simp only [List.length_append] at hq
    omega
  subst ht2
  have e1 : List.take (cur + 2) (p ++ (q1 ++ (q2 ++ []) ++ t)) = p ++ q1 := by
    rw [show p ++ (q1 ++ (q2 ++ []) ++ t) = (p ++ q1) ++ (q2 ++ t) by simp]
    rw [List.take_append_of_le_length (by simp; omega),
      List.take_of_length_le (by simp; omega)]
  have e2 : List.drop (cur + 2 + data.length) (p ++ (q1 ++ (q2 ++ []) ++ t)) = t := by
    rw [show p ++ (q1 ++ (q2 ++ []) ++ t) = (p ++ q1 ++ q2) ++ t by simp]
    rw [List.drop_append_of_le_length (by simp; omega)]
    have : (p ++ q1 ++ q2).length = cur + 2 + data.length := by simp; omega
    rw [← this, List.drop_length, List.nil_append]
  rw [e1, e2]
  have a1 := splice_at p q1 (data ++ t) hd cur hp (by omega)
  have a2 := splice_at p (q1 ++ q2) t (hd ++ data) cur hp (by simp; omega)
  rw [show p ++ q1 ++ data ++ t = p ++ q1 ++ (data ++ t) by simp, a1]
  rw [show p ++ (q1 ++ (q2 ++ []) ++ t) = p ++ (q1 ++ q2) ++ t by simp, a2]
  simp


/-- One call of `collect_attributes::operator()` for an accessor that stays within its span,
with the iterator inside of the output buffer. The call returns. If at least 2 bytes are left,
the accessor is called once, with a span of `min( remaining, 255 ) - 2` bytes. The tuple of the
attribute is written, that is `current_` moves, exactly when at least 2 bytes are left and the
accessor returns `success`, or `read_truncated` with exactly 253 bytes written (the condition
is `success || ( read_truncated && size == 253 )`), and the number of the bytes written plus 2
is the pair length (the one of this attribute, if no tuple was written before). Then the handle
and the bytes are in the output at `current_`, which moves behind them, and the pair length is
fixed; otherwise the iterator is left as it is. Whenever fewer than 255 bytes are left, as with
the 21 bytes behind the header for the capacity 23, the tuple of an attribute whose read is
truncated is not written. What `handle_read_by_type_request` reports of the tuples is
`2 + size()` bytes. -/
theorem collect_attributes_includes (it : collect_attributes) (m : machine) (handle : Nat)
    (attr : details_attribute) (hsp : attr.respects_span)
    (hc : it.current_ ≤ it.end_) (hend : it.end_ ≤ m.output.length) :
    ∃ it2 m2, it.call m handle attr = .ok (it2, m2)
      ∧ (2 ≤ it.end_ - it.current_ → m2.log = m.log ++ [event.access it.span handle])
      ∧ (it.end_ - it.current_ < 2 → m2 = m)
      ∧ (it2.current_ ≠ it.current_ ↔ it.includes attr handle)
      ∧ (it.includes attr handle →
          it2 = { it with
                  current_ := it.current_ + 2 + (attr.access it.span handle).2.length
                  size_ := (attr.access it.span handle).2.length + 2
                  first_ := false }
          ∧ m2.output = splice m.output it.current_
              ([handle % 256, handle / 256 % 256] ++ (attr.access it.span handle).2)
          ∧ it2.current_ ≤ it.end_)
      ∧ (¬ it.includes attr handle → it2 = it)
      ∧ (it.end_ - it.current_ < 255 →
          (attr.access it.span handle).1 = attribute_access_result.read_truncated →
          ¬ it.includes attr handle) := by
  obtain ⟨begin_, current_, end_, size_, first_⟩ := it
  obtain ⟨output, out_size, log⟩ := m
  simp only [] at hc hend
  have hlen := hsp (min (end_ - current_) 255 - 2) handle
  have hlast : end_ - current_ < 255 →
      (attr.access (min (end_ - current_) 255 - 2) handle).1
        = attribute_access_result.read_truncated →
      ¬ collect_attributes.includes
          { begin_ := begin_, current_ := current_, end_ := end_, size_ := size_,
            first_ := first_ } attr handle := by
    intro hrem htr hinc
    simp only [collect_attributes.includes, collect_attributes.span] at hinc
    obtain ⟨_, hrc, _⟩ := hinc
    rcases hrc with hrc | ⟨_, h253⟩
    · rw [htr] at hrc; cases hrc
    · omega
  unfold collect_attributes.call
  simp only [collect_attributes.includes, collect_attributes.span] at hlast ⊢
  by_cases hroom : end_ - current_ ≥ 2
  · have hacc := access_ok attr output out_size log (current_ + 2)
      (min (end_ - current_) 255 - 2) handle (by omega)
    have e255 : (253 : Nat) + 2 = 255 := rfl
    simp only [if_pos hroom, e255]
    simp only [hacc, bind_ok]
    generalize attr.access (min (end_ - current_) 255 - 2) handle = r at *
    have hl1 : (output.take (current_ + 2) ++ r.2 ++ output.drop (current_ + 2 + r.2.length)).length
        = output.length := by
      simp
      omega
    have hmod : r.2.length % 256 = r.2.length := by omega
    have hw := write_bytes_splice
      (output.take (current_ + 2) ++ r.2 ++ output.drop (current_ + 2 + r.2.length))
      current_ [handle % 256, handle / 256 % 256] (by rw [hl1]; simp; omega)
    have hout := splice_data_then_handle output current_ [handle % 256, handle / 256 % 256]
      r.2 rfl (by omega)
    rw [hout] at hw
    by_cases hrc : r.1 = attribute_access_result.success
        ∨ (r.1 = attribute_access_result.read_truncated ∧ r.2.length = 253)
    · have hassert : ¬ ¬ r.2.length ≤ 253 := by omega
      simp only [if_pos hrc, if_neg hassert, pure_eq_ok, bind_ok]
      cases first_
      · simp only [Bool.false_eq_true, if_false]
        by_cases hsize : r.2.length + 2 = size_
        · simp only [if_pos hsize, write_handle, hw, bind_ok, hmod]
          have hinc : 2 ≤ end_ - current_ ∧ (r.1 = attribute_access_result.success
              ∨ (r.1 = attribute_access_result.read_truncated ∧ r.2.length = 253))
              ∧ r.2.length + 2 = size_ := ⟨hroom, hrc, hsize⟩
          refine ⟨_, _, rfl, fun _ => rfl, fun h => by omega, ?_, ?_, fun h => absurd hinc h, hlast⟩
          · exact ⟨fun _ => hinc, fun _ => by simp only []; omega⟩
          · intro _
            refine ⟨by rw [hsize], rfl, by simp only []; omega⟩
        · simp only [if_neg hsize]
          have hninc : ¬ (2 ≤ end_ - current_ ∧ (r.1 = attribute_access_result.success
              ∨ (r.1 = attribute_access_result.read_truncated ∧ r.2.length = 253))
              ∧ r.2.length + 2 = size_) := fun h => hsize h.2.2
          refine ⟨_, _, rfl, fun _ => rfl, fun h => by omega, ?_, fun h => absurd h hninc, fun _ => rfl,
            hlast⟩
          exact ⟨fun h => absurd rfl h, fun h => absurd h hninc⟩
      · have hsize : r.2.length + 2 = (r.2.length + 2) % 256 := by omega
        simp only [if_true, if_pos hsize, write_handle, hw, bind_ok, hmod]
        have hinc : 2 ≤ end_ - current_ ∧ (r.1 = attribute_access_result.success
            ∨ (r.1 = attribute_access_result.read_truncated ∧ r.2.length = 253))
            ∧ True := ⟨hroom, hrc, trivial⟩
        refine ⟨_, _, rfl, fun _ => rfl, fun h => by omega, ?_, ?_, fun h => absurd hinc h,
          fun a b c => hlast a b ⟨c.1, c.2.1, by simp⟩⟩
        · exact ⟨fun _ => hinc, fun _ => by simp only []; omega⟩
        · intro _
          refine ⟨by rw [← hsize], rfl, by simp only []; omega⟩
    · simp only [if_neg hrc, pure_eq_ok]
      have hninc : ¬ (2 ≤ end_ - current_ ∧ (r.1 = attribute_access_result.success
          ∨ (r.1 = attribute_access_result.read_truncated ∧ r.2.length = 253))
          ∧ r.2.length + 2 = if first_ = true then r.2.length + 2 else size_) :=
        fun h => hrc h.2.1
      refine ⟨_, _, rfl, fun _ => rfl, fun h => by omega, ?_, fun h => absurd h hninc, fun _ => rfl,
        hlast⟩
      exact ⟨fun h => absurd rfl h, fun h => absurd h hninc⟩
  · simp only [if_neg hroom, pure_eq_ok]
    have hninc : ¬ (2 ≤ end_ - current_ ∧
        ((attr.access (min (end_ - current_) 255 - 2) handle).1
            = attribute_access_result.success
          ∨ ((attr.access (min (end_ - current_) 255 - 2) handle).1
              = attribute_access_result.read_truncated
            ∧ (attr.access (min (end_ - current_) 255 - 2) handle).2.length = 253))
        ∧ (attr.access (min (end_ - current_) 255 - 2) handle).2.length + 2
          = if first_ = true then
              (attr.access (min (end_ - current_) 255 - 2) handle).2.length + 2
            else size_) := fun h => hroom h.1
    refine ⟨_, _, rfl, fun h => absurd h hroom, fun _ => rfl, ?_, fun h => absurd h hninc,
      fun _ => rfl, hlast⟩
    exact ⟨fun h => absurd rfl h, fun h => absurd h hninc⟩

/-- An instance of the call for the capacity 23: the iterator of a Read By Type request starts
behind the two bytes of the header, the value of 126 bytes is read into a span of 19 bytes and
truncated, and its tuple is not written. The request `08 01 00 FF FF 58 2A` for the two such
values of `long_values_service` is answered with `attribute_not_found`. -/
theorem collect_attributes_includes_witness :
    (long_value_attribute.respects_span
      ∧ (2 : Nat) ≤ 23 ∧ 23 ≤ (buffer 23).length)
    ∧ (attribute_access_result.read_truncated, List.replicate 19 0x55)
        = long_value_attribute.access 19 3
    ∧ (∃ m2,
        collect_attributes.call
          { begin_ := 2, current_ := 2, end_ := 23, size_ := 0, first_ := true }
          { output := buffer 23, out_size := 23, log := [] } 3 long_value_attribute
        = .ok ({ begin_ := 2, current_ := 2, end_ := 23, size_ := 0, first_ := true }, m2))
    ∧ l2cap_input long_values_service [0x08, 0x01, 0x00, 0xFF, 0xFF, 0x58, 0x2A] (buffer 23)
        = .ok { output := [0x01, 0x08, 0x01, 0x00, 0x0A] ++ List.replicate 18 0x66,
                out_size := 5,
                log := [event.attribute_at 0, event.attribute_at 1, event.attribute_at 2,
                  event.access 19 3, event.attribute_at 3, event.attribute_at 4,
                  event.access 19 5] } :=
  have hsp : long_value_attribute.respects_span := fun n _ => read_value_length _ n
  ⟨⟨hsp, by decide, by decide⟩, by decide,
    match collect_attributes_includes
      { begin_ := 2, current_ := 2, end_ := 23, size_ := 0, first_ := true }
      { output := buffer 23, out_size := 23, log := [] } 3 long_value_attribute hsp
      (by decide) (by decide) with
    | ⟨it2, m2, h, _, _, _, _, hnot, _⟩ => ⟨m2, by rw [h, hnot (by decide)]⟩,
    by decide⟩

/-! ### C27: which attributes a Read By Type response includes -/

/-- C27, at an input where the code departs from it: the request `08 01 00 FF FF 58 2A` for
the two values of 126 bytes of `long_values_service` (handles 3 and 5), with an output
capacity of 258 bytes. At the two calls of `collect_attributes::operator()` the iterator
stands at 2 and at 130: 256 and 128 bytes are left, the accessors get spans of 253 and 126
bytes and return `success` with 126 bytes, and 128 is the pair length, so both attributes meet
the condition of the claim, and both tuples are written. But `out_size` is `2 + size()` with
the 256 bytes of the tuples as a `std::uint8_t`, that is 2: the response that is reported is
`09 80`, and neither attribute is included in it. -/
theorem read_by_type_included_not_reported :
    collect_attributes.span
        { begin_ := 2, current_ := 2, end_ := 258, size_ := 0, first_ := true } = 253
    ∧ collect_attributes.span
        { begin_ := 2, current_ := 130, end_ := 258, size_ := 128, first_ := false } = 126
    ∧ (long_values_service.attributes[2]?).map (fun a => (a.access 253 3).1)
        = some attribute_access_result.success
    ∧ (long_values_service.attributes[4]?).map (fun a => (a.access 126 5).1)
        = some attribute_access_result.success
    ∧ (long_values_service.attributes[2]?).map (fun a => decide (collect_attributes.includes
          { begin_ := 2, current_ := 2, end_ := 258, size_ := 0, first_ := true } a 3))
        = some true
    ∧ (long_values_service.attributes[4]?).map (fun a => decide (collect_attributes.includes
          { begin_ := 2, current_ := 130, end_ := 258, size_ := 128, first_ := false } a 5))
        = some true
    ∧ (l2cap_input long_values_service [0x08, 0x01, 0x00, 0xFF, 0xFF, 0x58, 0x2A]
          (buffer 258)).map (fun m => (m.out_size, m.output.take m.out_size, m.log))
        = .ok (2, [0x09, 0x80],
            [event.attribute_at 0, event.attribute_at 1, event.attribute_at 2,
              event.access 253 3, event.attribute_at 3, event.attribute_at 4,
              event.access 126 5])
    ∧ (l2cap_input long_values_service [0x08, 0x01, 0x00, 0xFF, 0xFF, 0x58, 0x2A]
          (buffer 258)).map (fun m => m.output.drop 2)
        = .ok ([0x03, 0x00] ++ List.replicate 126 0x55
            ++ ([0x05, 0x00] ++ List.replicate 126 0x66)) := by
  refine ⟨by decide, by decide, by decide, by decide, by decide, by decide, by decide,
    by decide⟩

/-! ### C28: the 8 bit size of a Read By Type response -/

/-- C28, at an input where the code departs from it: the request `08 01 00 FF FF 58 2A` for
the two values of 126 bytes of `long_values_service`, with an output capacity of 300 bytes.
Both tuples are written, `k = 2` and `pair_len = out[1] = 0x80`, but the `out_size` that is
reported is 2, and not `2 + 2 * 128 = 258`: `size()` returns the 256 bytes of the tuples as a
`std::uint8_t`. -/
theorem read_by_type_size_wraps :
    l2cap_input long_values_service [0x08, 0x01, 0x00, 0xFF, 0xFF, 0x58, 0x2A] (buffer 300)
      = .ok { output := [0x09, 0x80] ++ ([0x03, 0x00] ++ List.replicate 126 0x55)
                ++ ([0x05, 0x00] ++ List.replicate 126 0x66) ++ buffer 42,
              out_size := 2,
              log := [event.attribute_at 0, event.attribute_at 1, event.attribute_at 2,
                event.access 253 3, event.attribute_at 3, event.attribute_at 4,
                event.access 168 5] }
    ∧ 2 + 2 * 0x80 = 258 := by
  decide

/-! ### C30: no read behind the input -/

theorem bind_no_input_fault {α β : Type} (x : Except fault α) (f : α → Except fault β)
    (hx : x ≠ .error fault.input_index)
    (hf : ∀ a, x = .ok a → f a ≠ .error fault.input_index) :
    (x >>= f) ≠ .error fault.input_index := by
  cases x with
  | error e =>
    intro h
    rw [bind_error] at h
    injection h with h
    subst h
    exact hx rfl
  | ok a => exact hf a rfl

theorem write_bytes_no_input_fault (output : List Nat) (pos : Nat) (bytes : List Nat) :
    write_bytes output pos bytes ≠ .error fault.input_index := by
  unfold write_bytes
  split
  · intro h; cases h
  · intro h; cases h

theorem attribute_at_no_input_fault (srv : server) (m : machine) (index : Int) :
    attribute_at srv m index ≠ .error fault.input_index := by
  unfold attribute_at
  intro h
  repeat' split at h
  all_goals cases h

theorem access_no_input_fault (attr : details_attribute) (m : machine)
    (pos buffer_size handle : Nat) :
    access attr m pos buffer_size handle ≠ .error fault.input_index := by
  unfold access
  exact bind_no_input_fault _ _ (write_bytes_no_input_fault _ _ _)
    (fun _ _ h => by cases h)

theorem error_response_no_input_fault (opcode error_code handle : Nat) (m : machine) :
    error_response opcode error_code handle m ≠ .error fault.input_index := by
  unfold error_response
  split
  · exact bind_no_input_fault _ _ (write_bytes_no_input_fault _ _ _)
      (fun _ _ h => by cases h)
  · intro h; cases h

theorem write_128bit_uuid_no_input_fault (m : machine) (pos : Nat)
    (char_declaration : details_attribute) :
    write_128bit_uuid m pos char_declaration ≠ .error fault.input_index := by
  unfold write_128bit_uuid
  intro h
  simp only [bind, Except.bind, pure, Except.pure, throw, throwThe, MonadExceptOf.throw] at h
  repeat' split at h
  all_goals first
    | (cases h; done)
    | (injection h with h; subst h; exact absurd (by assumption) (write_bytes_no_input_fault _ _ _))

theorem collect_handle_uuid_tuples_loop_no_input_fault (srv : server) (end_ : Nat)
    (only_16_bit : Bool) (out_end : Nat) :
    ∀ (fuel start out : Nat) (m : machine),
      collect_handle_uuid_tuples_loop srv end_ only_16_bit out_end fuel start out m
        ≠ .error fault.input_index := by
  intro fuel
  induction fuel with
  | zero => intro _ _ _ h; cases h
  | succ n ih =>
    intro start out m h
    rw [collect_handle_uuid_tuples_loop] at h
    simp only [bind, Except.bind, pure, Except.pure, write_handle, write_16bit_uuid] at h
    repeat' split at h
    all_goals first
      | (cases h; done)
      | exact absurd h (ih _ _ _)
      | (injection h with h; subst h
         simp_all [write_bytes_no_input_fault, attribute_at_no_input_fault,
           write_128bit_uuid_no_input_fault])

theorem collect_attributes_call_no_input_fault (it : collect_attributes) (m : machine)
    (handle : Nat) (attr : details_attribute) :
    it.call m handle attr ≠ .error fault.input_index := by
  intro h
  unfold collect_attributes.call at h
  simp only [bind, Except.bind, pure, Except.pure, throw, throwThe, MonadExceptOf.throw,
    write_handle] at h
  repeat' split at h
  all_goals first
    | (cases h; done)
    | (injection h with h; subst h
       simp_all [write_bytes_no_input_fault, access_no_input_fault])

theorem all_attributes_loop_no_input_fault (srv : server) (ending_handle : Nat)
    (filter : Nat → details_attribute → Bool) :
    ∀ (fuel starting_handle : Nat) (it : collect_attributes) (m : machine),
      all_attributes_loop srv ending_handle filter fuel starting_handle it m
        ≠ .error fault.input_index := by
  intro fuel
  induction fuel with
  | zero => intro _ _ _ h; cases h
  | succ n ih =>
    intro starting_handle it m h
    rw [all_attributes_loop] at h
    simp only [bind, Except.bind, pure, Except.pure] at h
    repeat' split at h
    all_goals first
      | (cases h; done)
      | exact absurd h (ih _ _ _)
      | (injection h with h; subst h
         simp_all [attribute_at_no_input_fault, collect_attributes_call_no_input_fault])

theorem read_primary_service_response_no_input_fault (svc : service) (m : machine)
    (output end_ starting_index : Nat) (is_128bit_filter : Bool) :
    svc.read_primary_service_response m output end_ starting_index is_128bit_filter
      ≠ .error fault.input_index := by
  intro h
  unfold service.read_primary_service_response at h
  simp only [bind, Except.bind, pure, Except.pure] at h
  repeat' split at h
  all_goals first
    | (cases h; done)
    | (injection h with h; subst h
       simp_all [write_bytes_no_input_fault])

theorem each_no_input_fault (c : collect_primary_services) (m : machine) (svc : service) :
    c.each m svc ≠ .error fault.input_index := by
  intro h
  unfold collect_primary_services.each at h
  simp only [bind, Except.bind, pure, Except.pure] at h
  repeat' split at h
  all_goals first
    | (cases h; done)
    | (injection h with h; subst h
       simp_all [write_bytes_no_input_fault, read_primary_service_response_no_input_fault])

theorem for_each_no_input_fault :
    ∀ (services : List service) (c : collect_primary_services) (m : machine),
      for_each c m services ≠ .error fault.input_index := by
  intro services
  induction services with
  | nil => intro _ _ h; cases h
  | cons svc rest ih =>
    intro c m h
    rw [for_each] at h
    simp only [bind, Except.bind] at h
    repeat' split at h
    all_goals first
      | (cases h; done)
      | exact absurd h (ih _ _)
      | (injection h with h; subst h
         simp_all [each_no_input_fault])

theorem read_byte_no_input_fault (input : List Nat) (i : Nat) (h : i < input.length) :
    read_byte input i ≠ .error fault.input_index := by
  rw [read_byte_ok input i h]
  intro h; cases h

theorem read_handle_no_input_fault (input : List Nat) (i : Nat) (h : i + 1 < input.length) :
    read_handle input i ≠ .error fault.input_index := by
  unfold read_handle
  rw [read_byte_ok input i (by omega), read_byte_ok input (i + 1) h]
  intro h; cases h

theorem error_response_false (opcode error_code handle : Nat) (m : machine)
    (v : Bool × machine) (h : error_response opcode error_code handle m = .ok v) :
    v.1 = false := by
  unfold error_response at h
  simp only [bind, Except.bind, pure, Except.pure] at h
  repeat' split at h
  all_goals first
    | (cases h; done)
    | (injection h with h; subst h; rfl)

theorem check_size_and_handle_range_no_input_fault (A B : Nat) (hA : 5 ≤ A) (hB : 5 ≤ B)
    (srv : server) (input : List Nat) (m : machine) (s e : Nat) (hin : 1 ≤ input.length) :
    check_size_and_handle_range A B srv input m s e ≠ .error fault.input_index := by
  intro h
  unfold check_size_and_handle_range at h
  simp only [bind, Except.bind, pure, Except.pure, error_response_0] at h
  repeat' split at h
  all_goals first
    | (cases h; done)
    | (injection h with h; subst h
       first
        | exact absurd (by assumption) (error_response_no_input_fault _ _ _ _)
        | exact absurd (by assumption) (read_byte_no_input_fault _ _ (by omega))
        | exact absurd (by assumption) (read_handle_no_input_fault _ _ (by omega)))

theorem check_size_and_handle_range_accepts (A B : Nat) (srv : server) (input : List Nat)
    (m m2 : machine) (s e s2 e2 : Nat)
    (h : check_size_and_handle_range A B srv input m s e = .ok (true, m2, s2, e2)) :
    input.length = A ∨ input.length = B := by
  unfold check_size_and_handle_range at h
  simp only [bind, Except.bind, pure, Except.pure, error_response_0] at h
  repeat' split at h
  all_goals first
    | (cases h; done)
    | omega
    | (injection h with h; injection h with h1 h2
       have := error_response_false _ _ _ _ _ (by assumption)
       rw [this] at h1
       cases h1)

theorem check_size_and_handle_no_input_fault (A B : Nat) (hA : 3 ≤ A) (hB : 3 ≤ B)
    (srv : server) (input : List Nat) (m : machine) (handle : Nat) (hin : 1 ≤ input.length) :
    check_size_and_handle A B srv input m handle ≠ .error fault.input_index := by
  intro h
  unfold check_size_and_handle at h
  simp only [bind, Except.bind, pure, Except.pure, error_response_0] at h
  repeat' split at h
  all_goals first
    | (cases h; done)
    | (injection h with h; subst h
       first
        | exact absurd (by assumption) (error_response_no_input_fault _ _ _ _)
        | exact absurd (by assumption) (read_byte_no_input_fault _ _ (by omega))
        | exact absurd (by assumption) (read_handle_no_input_fault _ _ (by omega)))

theorem handle_find_information_no_input_fault (srv : server) (input : List Nat) (m : machine)
    (hin : 1 ≤ input.length) :
    handle_find_information_request srv input m ≠ .error fault.input_index := by
  intro h
  unfold handle_find_information_request at h
  simp only [bind, Except.bind, pure, Except.pure, collect_handle_uuid_tuples] at h
  repeat' split at h
  all_goals first
    | (cases h; done)
    | (injection h with h; subst h
       first
        | exact absurd (by assumption)
            (check_size_and_handle_range_no_input_fault _ _ (by decide) (by decide) _ _ _ _ _ hin)
        | exact absurd (by assumption) (attribute_at_no_input_fault _ _ _)
        | exact absurd (by assumption) (write_bytes_no_input_fault _ _ _)
        | exact absurd (by assumption)
            (collect_handle_uuid_tuples_loop_no_input_fault _ _ _ _ _ _ _ _))

theorem handle_read_no_input_fault (srv : server) (input : List Nat) (m : machine)
    (hin : 1 ≤ input.length) :
    handle_read_request srv input m ≠ .error fault.input_index := by
  intro h
  unfold handle_read_request at h
  simp only [bind, Except.bind, pure, Except.pure] at h
  repeat' split at h
  all_goals first
    | (cases h; done)
    | (injection h with h; subst h
       first
        | exact absurd (by assumption)
            (check_size_and_handle_no_input_fault _ _ (by decide) (by decide) _ _ _ _ hin)
        | exact absurd (by assumption) (attribute_at_no_input_fault _ _ _)
        | exact absurd (by assumption) (access_no_input_fault _ _ _ _ _)
        | exact absurd (by assumption) (write_bytes_no_input_fault _ _ _)
        | exact absurd (by assumption) (error_response_no_input_fault _ _ _ _)
        | exact absurd (by assumption) (read_byte_no_input_fault _ _ (by omega)))

theorem handle_read_by_type_no_input_fault (srv : server) (input : List Nat) (m : machine)
    (hin : 1 ≤ input.length) :
    handle_read_by_type_request srv input m ≠ .error fault.input_index := by
  intro h
  unfold handle_read_by_type_request at h
  simp only [bind, Except.bind, pure, Except.pure, all_attributes] at h
  repeat' split at h
  all_goals first
    | (cases h; done)
    | (injection h with h; subst h
       first
        | exact absurd (by assumption)
            (check_size_and_handle_range_no_input_fault _ _ (by decide) (by decide) _ _ _ _ _ hin)
        | exact absurd (by assumption) (all_attributes_loop_no_input_fault _ _ _ _ _ _ _)
        | exact absurd (by assumption) (write_bytes_no_input_fault _ _ _)
        | exact absurd (by assumption) (error_response_no_input_fault _ _ _ _)
        | exact absurd (by assumption) (read_byte_no_input_fault _ _ (by omega)))

theorem handle_read_by_group_type_no_input_fault (srv : server) (input : List Nat)
    (m : machine) (hin : 1 ≤ input.length) :
    handle_read_by_group_type_request srv input m ≠ .error fault.input_index := by
  intro h
  unfold handle_read_by_group_type_request at h
  cases hchk : check_size_and_handle_range (5 + 2) (5 + 16) srv input m 0 0 with
  | error e =>
    simp only [hchk, bind, Except.bind] at h
    injection h with h
    subst h
    exact check_size_and_handle_range_no_input_fault _ _ (by decide) (by decide) _ _ _ _ _ hin
      hchk
  | ok v =>
    obtain ⟨ok, m1, s, e⟩ := v
    cases ok with
    | false =>
      simp [hchk, bind, Except.bind, pure, Except.pure] at h
    | true =>
      have hlen := check_size_and_handle_range_accepts _ _ _ _ _ _ _ _ _ _ hchk
      simp only [hchk, bind, Except.bind, pure, Except.pure] at h
      repeat' split at h
      all_goals first
        | (cases h; done)
        | (injection h with h; subst h
           first
            | exact absurd (by assumption) (for_each_no_input_fault _ _ _)
            | exact absurd (by assumption) (write_bytes_no_input_fault _ _ _)
            | exact absurd (by assumption) (error_response_no_input_fault _ _ _ _)
            | exact absurd (by assumption) (read_byte_no_input_fault _ _ (by omega))
            | exact absurd (by assumption) (read_handle_no_input_fault _ _ (by omega)))

/-- C30: for every request of at least one byte, whatever the server and the output buffer
are, `l2cap_input` reads no byte of the input at an index `≥ in_size`: in the model such a
read is the fault `input_index`, and no run ends with it. The size checks accept the sizes 3
(Read), 5 (Find Information) and 7 or 21 (Read By Type, Read By Group Type) only, and the
group type at the bytes 5 and 6 is read only if the size is not 21. -/
theorem l2cap_input_reads_within_input (srv : server) (input output : List Nat)
    (hin : 1 ≤ input.length) :
    l2cap_input srv input output ≠ .error fault.input_index
    ∧ (∀ (A B : Nat) (m m2 : machine) (s e s2 e2 : Nat),
        check_size_and_handle_range A B srv input m s e = .ok (true, m2, s2, e2) →
        input.length = A ∨ input.length = B) := by
  refine ⟨?_, fun A B m m2 s e s2 e2 h =>
    check_size_and_handle_range_accepts A B srv input m m2 s e s2 e2 h⟩
  intro h
  unfold l2cap_input at h
  simp only [bind, Except.bind, pure, Except.pure, throw, throwThe, MonadExceptOf.throw,
    error_response_0] at h
  repeat' split at h
  all_goals first
    | (cases h; done)
    | exact absurd h (handle_find_information_no_input_fault _ _ _ hin)
    | exact absurd h (handle_read_by_type_no_input_fault _ _ _ hin)
    | exact absurd h (handle_read_no_input_fault _ _ _ hin)
    | exact absurd h (handle_read_by_group_type_no_input_fault _ _ _ hin)
    | (injection h with h; subst h
       first
        | contradiction
        | exact absurd (by assumption) (error_response_no_input_fault _ _ _ _)
        | exact absurd (by assumption) (read_byte_no_input_fault _ _ (by omega)))

/-- The instance of C30 for a Read By Group Type request of one byte, on the three attribute
server: no byte behind the opcode is read, and the answer is `01 10 00 00 04`. -/
theorem l2cap_input_reads_within_input_witness :
    1 ≤ [0x10].length
      ∧ l2cap_input small_temperature_service [0x10] (buffer 23) ≠ .error fault.input_index
      ∧ l2cap_input small_temperature_service [0x10] (buffer 23)
        = .ok { output := [0x01, 0x10, 0x00, 0x00, 0x04] ++ (buffer 23).drop 5,
                out_size := 5, log := [] } :=
  ⟨by decide,
    (l2cap_input_reads_within_input small_temperature_service [0x10] (buffer 23)
      (by decide)).1,
    by decide⟩

/-! ### C31: the look-ups of attributes -/

theorem write_bytes_fault (output : List Nat) (pos : Nat) (bytes : List Nat) (e : fault)
    (h : write_bytes output pos bytes = .error e) : e = fault.output_index := by
  unfold write_bytes at h
  split at h
  · cases h
  · injection h with h
    exact h.symm

theorem access_fault (attr : details_attribute) (m : machine) (pos buffer_size handle : Nat)
    (e : fault) (h : access attr m pos buffer_size handle = .error e) :
    e = fault.output_index := by
  unfold access at h
  simp only [bind, Except.bind, pure, Except.pure] at h
  repeat' split at h
  all_goals first
    | (cases h; done)
    | (injection h with h; subst h; exact write_bytes_fault _ _ _ _ (by assumption))

theorem error_response_fault (opcode error_code handle : Nat) (m : machine) (e : fault)
    (h : error_response opcode error_code handle m = .error e) : e = fault.output_index := by
  unfold error_response at h
  simp only [bind, Except.bind, pure, Except.pure] at h
  repeat' split at h
  all_goals first
    | (cases h; done)
    | (injection h with h; subst h; exact write_bytes_fault _ _ _ _ (by assumption))

theorem collect_attributes_call_fault (it : collect_attributes) (m : machine) (handle : Nat)
    (attr : details_attribute) (e : fault) (h : it.call m handle attr = .error e) :
    e = fault.output_index ∨ e = fault.assertion := by
  unfold collect_attributes.call at h
  simp only [bind, Except.bind, pure, Except.pure, throw, throwThe, MonadExceptOf.throw,
    write_handle] at h
  repeat' split at h
  all_goals first
    | (cases h; done)
    | (injection h with h; subst h
       first
        | exact Or.inr rfl
        | exact Or.inl (write_bytes_fault _ _ _ _ (by assumption))
        | exact Or.inl (access_fault _ _ _ _ _ _ (by assumption)))

/-- The handle loop of Read By Type, started at a handle `≥ 1` on a server with at most 65534
attributes, with more rounds allowed than handles are left: it looks up attributes that exist
only, and it comes to an end; what can stop it is an accessor that writes behind its span. -/
theorem all_attributes_loop_fault (srv : server) (hN : srv.number_of_attributes ≤ 65534)
    (ending_handle : Nat) (filter : Nat → details_attribute → Bool) :
    ∀ (fuel starting_handle : Nat) (it : collect_attributes) (m : machine) (e : fault),
      1 ≤ starting_handle →
      min ending_handle srv.number_of_attributes + 1 - starting_handle < fuel →
      all_attributes_loop srv ending_handle filter fuel starting_handle it m = .error e →
      e = fault.output_index ∨ e = fault.assertion := by
  intro fuel
  induction fuel with
  | zero => intro _ _ _ _ _ hf; omega
  | succ n ih =>
    intro starting_handle it m e h1 hf h
    rw [all_attributes_loop] at h
    by_cases hcond : starting_handle ≤ ending_handle ∧ starting_handle ≤ srv.number_of_attributes
    · obtain ⟨a, ha⟩ := attribute_of_handle srv starting_handle h1 hcond.2
      have hmod : (starting_handle + 1) % 65536 = starting_handle + 1 := by omega
      simp only [if_pos hcond, attribute_at_ok srv _ starting_handle a h1 ha, bind_ok, hmod] at h
      by_cases hfl : filter starting_handle a = true
      · simp only [if_pos hfl] at h
        cases hcall : it.call { m with log := m.log ++ [event.attribute_at (↑starting_handle - 1)] }
            starting_handle a with
        | error e1 =>
          rw [hcall, bind_error] at h
          injection h with h
          subst h
          exact collect_attributes_call_fault _ _ _ _ _ hcall
        | ok v =>
          rw [hcall, bind_ok] at h
          exact ih _ _ _ _ (by omega) (by omega) h
      · simp only [if_neg hfl] at h
        exact ih _ _ _ _ (by omega) (by omega) h
    · simp only [if_neg hcond, pure_eq_ok] at h
      cases h

theorem read_by_type_fault (srv : server) (rest output : List Nat)
    (hN : srv.number_of_attributes ≤ 65534) (hb : all_bytes rest) (hout : 23 ≤ output.length)
    (e : fault) (h : l2cap_input srv (0x08 :: rest) output = .error e) :
    e = fault.output_index ∨ e = fault.assertion := by
  have hb2 : all_bytes (0x08 :: rest) := all_bytes_cons _ _ (by decide) hb
  have h5 : 5 ≤ output.length := by omega
  have hchk := check_size_and_handle_range_eq (5 + 2) (5 + 16) srv (0x08 :: rest) output
    output.length [] 0 0 (by decide) (by decide) (by simp) hb2 h5 h5
  rw [l2cap_input_read_by_type srv rest output hout] at h
  by_cases hs1 : (0x08 :: rest).length ≠ 5 + 2 ∧ (0x08 :: rest).length ≠ 5 + 16
  · rw [if_pos hs1] at hchk
    simp [handle_read_by_type_request, hchk] at h
  · rw [if_neg hs1] at hchk
    by_cases hs2 : u16le (0x08 :: rest) 1 = 0 ∨ u16le (0x08 :: rest) 1 > u16le (0x08 :: rest) 3
    · rw [if_pos hs2] at hchk
      simp [handle_read_by_type_request, hchk] at h
    · rw [if_neg hs2] at hchk
      by_cases hs3 : u16le (0x08 :: rest) 1 > srv.number_of_attributes
      · rw [if_pos hs3] at hchk
        simp [handle_read_by_type_request, hchk] at h
      · rw [if_neg hs3] at hchk
        simp only [handle_read_by_type_request, hchk, bind_ok, Bool.not_true,
          Bool.false_eq_true, if_false, all_attributes] at h
        cases hloop : all_attributes_loop srv (u16le (0x08 :: rest) 3)
            (srv.uuid_filter ((0x08 :: rest).drop 5) ((0x08 :: rest).length == 5 + 16))
            loop_fuel (u16le (0x08 :: rest) 1)
            { begin_ := 2, current_ := 2, end_ := output.length, size_ := 0, first_ := true }
            { output := output, out_size := output.length, log := [] } with
        | error e1 =>
          rw [hloop, bind_error] at h
          injection h with h
          subst h
          exact all_attributes_loop_fault srv hN _ _ _ _ _ _ _ (by omega)
            (by unfold loop_fuel; omega) hloop
        | ok v =>
          rw [hloop, bind_ok] at h
          simp only [bind, Except.bind, pure, Except.pure, read_byte_cons] at h
          repeat' split at h
          all_goals first
            | (cases h; done)
            | (injection h with h; subst h
               first
                | exact Or.inl (write_bytes_fault _ _ _ _ (by assumption))
                | exact Or.inl (error_response_fault _ _ _ _ _ (by assumption)))

theorem read_fault (srv : server) (rest output : List Nat)
    (hb : all_bytes rest) (hout : 23 ≤ output.length)
    (e : fault) (h : l2cap_input srv (0x0A :: rest) output = .error e) :
    e = fault.output_index := by
  have hb2 : all_bytes (0x0A :: rest) := all_bytes_cons _ _ (by decide) hb
  have h5 : 5 ≤ output.length := by omega
  have hchk := check_size_and_handle_eq 3 3 srv (0x0A :: rest) output output.length [] 0
    (by decide) (by decide) (by simp) hb2 h5 h5
  rw [l2cap_input_read srv rest output hout] at h
  by_cases hs1 : (0x0A :: rest).length ≠ 3 ∧ (0x0A :: rest).length ≠ 3
  · rw [if_pos hs1] at hchk
    simp [handle_read_request, hchk] at h
  · rw [if_neg hs1] at hchk
    by_cases hs2 : u16le (0x0A :: rest) 1 = 0
    · rw [if_pos hs2] at hchk
      simp [handle_read_request, hchk] at h
    · rw [if_neg hs2] at hchk
      by_cases hs3 : u16le (0x0A :: rest) 1 > srv.number_of_attributes
      · rw [if_pos hs3] at hchk
        simp [handle_read_request, hchk] at h
      · rw [if_neg hs3] at hchk
        obtain ⟨a, ha⟩ := attribute_of_handle srv (u16le (0x0A :: rest) 1) (by omega) (by omega)
        simp only [handle_read_request, hchk, bind_ok, Bool.not_true, Bool.false_eq_true,
          if_false, attribute_at_ok srv _ (u16le (0x0A :: rest) 1) a (by omega) ha] at h
        simp only [bind, Except.bind, pure, Except.pure, read_byte_cons] at h
        repeat' split at h
        all_goals first
          | (cases h; done)
          | (injection h with h; subst h
             first
              | exact write_bytes_fault _ _ _ _ (by assumption)
              | exact access_fault _ _ _ _ _ _ (by assumption)
              | exact error_response_fault _ _ _ _ _ (by assumption))

theorem check_size_and_handle_range_rejects (A B : Nat) (srv : server)
    (input output : List Nat) (hA : 5 ≤ A) (hB : 5 ≤ B) (hin : 1 ≤ input.length)
    (hb : all_bytes input) (hout : 5 ≤ output.length)
    (hbad : u16le input 1 = 0 ∨ u16le input 1 > srv.number_of_attributes) :
    ∃ output2 s e,
      check_size_and_handle_range A B srv input
          { output := output, out_size := output.length, log := [] } 0 0
        = .ok (false, { output := output2, out_size := 5, log := [] }, s, e) := by
  have hchk := check_size_and_handle_range_eq A B srv input output output.length [] 0 0
    hA hB hin hb hout hout
  rw [hchk]
  split
  · exact ⟨_, _, _, rfl⟩
  · split
    · exact ⟨_, _, _, rfl⟩
    · split
      · exact ⟨_, _, _, rfl⟩
      · rename_i h2 h3
        exfalso
        rcases hbad with h0 | hN
        · exact h2 (Or.inl h0)
        · exact h3 hN

theorem check_size_and_handle_rejects (A B : Nat) (srv : server)
    (input output : List Nat) (hA : 3 ≤ A) (hB : 3 ≤ B) (hin : 1 ≤ input.length)
    (hb : all_bytes input) (hout : 5 ≤ output.length)
    (hbad : u16le input 1 = 0 ∨ u16le input 1 > srv.number_of_attributes) :
    ∃ output2 h,
      check_size_and_handle A B srv input
          { output := output, out_size := output.length, log := [] } 0
        = .ok (false, { output := output2, out_size := 5, log := [] }, h) := by
  have hchk := check_size_and_handle_eq A B srv input output output.length [] 0
    hA hB hin hb hout hout
  rw [hchk]
  split
  · exact ⟨_, _, rfl⟩
  · split
    · exact ⟨_, _, rfl⟩
    · split
      · exact ⟨_, _, rfl⟩
      · rename_i h2 h3
        exfalso
        rcases hbad with h0 | hN
        · exact h2 h0
        · exact h3 hN

/-- A request whose handle, the bytes 1 and 2, is 0 or above the number of attributes is
answered without a look-up of an attribute and without a call of an accessor. -/
theorem no_lookup_of_bad_handle (srv : server) (input output : List Nat)
    (hin : 1 ≤ input.length) (hb : all_bytes input) (hout : 23 ≤ output.length)
    (hbad : u16le input 1 = 0 ∨ u16le input 1 > srv.number_of_attributes) :
    ∃ m, l2cap_input srv input output = .ok m ∧ m.log = [] := by
  have h5 : 5 ≤ output.length := by omega
  match input, hin, hb, hbad with
  | opcode :: rest, hin, hb, hbad =>
    by_cases h4 : opcode = 0x04
    · subst h4
      obtain ⟨o2, s, e, hchk⟩ := check_size_and_handle_range_rejects 5 5 srv (0x04 :: rest)
        output (by decide) (by decide) hin hb h5 hbad
      refine ⟨{ output := o2, out_size := 5, log := [] }, ?_, rfl⟩
      rw [l2cap_input_find_information srv rest output hout]
      simp [handle_find_information_request, hchk]
    · by_cases h8 : opcode = 0x08
      · subst h8
        obtain ⟨o2, s, e, hchk⟩ := check_size_and_handle_range_rejects (5 + 2) (5 + 16) srv
          (0x08 :: rest) output (by decide) (by decide) hin hb h5 hbad
        refine ⟨{ output := o2, out_size := 5, log := [] }, ?_, rfl⟩
        rw [l2cap_input_read_by_type srv rest output hout]
        simp [handle_read_by_type_request, hchk]
      · by_cases hA : opcode = 0x0A
        · subst hA
          obtain ⟨o2, h, hchk⟩ := check_size_and_handle_rejects 3 3 srv (0x0A :: rest)
            output (by decide) (by decide) hin hb h5 hbad
          refine ⟨{ output := o2, out_size := 5, log := [] }, ?_, rfl⟩
          rw [l2cap_input_read srv rest output hout]
          simp [handle_read_request, hchk]
        · by_cases h10 : opcode = 0x10
          · subst h10
            obtain ⟨o2, s, e, hchk⟩ := check_size_and_handle_range_rejects (5 + 2) (5 + 16) srv
              (0x10 :: rest) output (by decide) (by decide) hin hb h5 hbad
            refine ⟨{ output := o2, out_size := 5, log := [] }, ?_, rfl⟩
            rw [l2cap_input_read_by_group_type srv rest output hout]
            simp [handle_read_by_group_type_request, hchk]
          · exact ⟨_, l2cap_input_other srv opcode rest output ⟨h4, h8, hA, h10⟩ hout, rfl⟩

/-! ### C31: every look-up is one of an attribute that exists -/

/-- C31: a server that satisfies the invariant of the data model (every attribute with
`uuid == internal_128bit_uuid` directly follows a characteristic declaration `0x2803` whose
read yields 19 bytes) and has at most 65534 attributes, a request of at least one byte and an
output buffer of at least 23 bytes. No run of `l2cap_input` ends in a call of `attribute_at`
with an index outside of `[0, N - 1]` (the fault `attribute_index`), and none runs out of the
rounds of a handle loop (the fault `fuel`): the loops of Find Information and Read By Type
terminate. A Find Information request returns, so that the two assertions of
`write_128bit_uuid`, the only ones on its path, hold whenever they are reached. And a request
whose handle is 0 or above `N` is answered with an empty log: no attribute is looked up and no
accessor is called. -/
theorem attribute_lookups_in_range (srv : server) (input output : List Nat)
    (hinv : srv.data_model_invariant) (hN : srv.number_of_attributes ≤ 65534)
    (hin : 1 ≤ input.length) (hb : all_bytes input) (hout : 23 ≤ output.length) :
    l2cap_input srv input output ≠ .error fault.attribute_index
    ∧ l2cap_input srv input output ≠ .error fault.fuel
    ∧ (input.getD 0 0 = 0x04 → ∃ m, l2cap_input srv input output = .ok m)
    ∧ (u16le input 1 = 0 ∨ u16le input 1 > srv.number_of_attributes →
        ∃ m, l2cap_input srv input output = .ok m ∧ m.log = []) := by
  have key : (∀ e, l2cap_input srv input output = .error e →
        e = fault.output_index ∨ e = fault.assertion)
      ∧ (input.getD 0 0 = 0x04 → ∃ m, l2cap_input srv input output = .ok m) := by
    match input, hin, hb with
    | opcode :: rest, _, hb =>
      have hrest : all_bytes rest := fun b hb' => hb b (List.mem_cons_of_mem _ hb')
      by_cases h4 : opcode = 0x04
      · subst h4
        obtain ⟨m, hm, _⟩ := find_information_total srv rest output hinv hN hrest hout
        exact ⟨fun e he => (by rw [hm] at he; cases he), fun _ => ⟨m, hm⟩⟩
      · have hno : (opcode :: rest).getD 0 0 = 0x04 → ∃ m,
            l2cap_input srv (opcode :: rest) output = .ok m := fun h => absurd h h4
        refine ⟨?_, hno⟩
        by_cases h8 : opcode = 0x08
        · subst h8
          exact fun e he => read_by_type_fault srv rest output hN hrest hout e he
        · by_cases hA : opcode = 0x0A
          · subst hA
            exact fun e he => Or.inl (read_fault srv rest output hrest hout e he)
          · by_cases h10 : opcode = 0x10
            · subst h10
              obtain ⟨m, hm, _⟩ := read_by_group_type_total srv rest output hN hrest hout
              exact fun e he => by rw [hm] at he; cases he
            · intro e he
              rw [l2cap_input_other srv opcode rest output ⟨h4, h8, hA, h10⟩ hout] at he
              cases he
  refine ⟨?_, ?_, key.2, no_lookup_of_bad_handle srv input output hin hb hout⟩
  · intro h
    rcases key.1 _ h with h' | h' <;> cases h'
  · intro h
    rcases key.1 _ h with h' | h' <;> cases h'

/-- The instance of C31 for the three attribute server, whose value has a 128 bit UUID: the
Find Information request `04 03 00 03 00` looks up the value and the declaration in front of
it and is answered with the handle 3 and the 16 bytes of the UUID; the Read request for the
handle 4 is answered without a look-up. -/
theorem attribute_lookups_in_range_witness :
    (small_temperature_service.data_model_invariant
      ∧ small_temperature_service.number_of_attributes ≤ 65534
      ∧ 1 ≤ [0x04, 0x03, 0x00, 0x03, 0x00].length ∧ all_bytes [0x04, 0x03, 0x00, 0x03, 0x00]
      ∧ 23 ≤ (buffer 23).length)
    ∧ l2cap_input small_temperature_service [0x04, 0x03, 0x00, 0x03, 0x00] (buffer 23)
        ≠ .error fault.attribute_index
    ∧ l2cap_input small_temperature_service [0x04, 0x03, 0x00, 0x03, 0x00] (buffer 23)
        = .ok { output := [0x05, 0x02, 0x03, 0x00] ++ temperature_service_uuid ++ [0, 0, 0],
                out_size := 20,
                log := [event.attribute_at 2, event.attribute_at 2, event.attribute_at 1,
                  event.access 19 1] }
    ∧ ∃ m, l2cap_input small_temperature_service [0x0A, 0x04, 0x00] (buffer 23) = .ok m
        ∧ m.log = [] :=
  ⟨⟨by decide, by decide, by decide, by decide, by decide⟩,
    (attribute_lookups_in_range small_temperature_service [0x04, 0x03, 0x00, 0x03, 0x00]
      (buffer 23) (by decide) (by decide) (by decide) (by decide) (by decide)).1,
    by decide,
    (attribute_lookups_in_range small_temperature_service [0x0A, 0x04, 0x00]
      (buffer 23) (by decide) (by decide) (by decide) (by decide) (by decide)).2.2.2
      (by decide)⟩


end bluetoe
